import Mathlib

/-!
AutoSaas: the template validator (`scripts/validate-templates.js`) and the backlog generator
(`scripts/generate.js`)

A shallow embedding of `TemplateValidator` and of the loop of `main` that drives it, followed, in
the namespace `Generate`, by one of the functions of the generator that format the issues and send
them to the tracker.

* Parsed template documents are `JSValue`s, the values `JSON.parse` can return together with
  `undefined` (what reading a missing property yields).
* The validator object is the record `TemplateValidator`; each method takes the validator and
  returns the updated one next to its JavaScript return value.
* A method that can raise a `TypeError` (reading a property of `null`/`undefined`, iterating a
  value that is not iterable) returns an `Option`; `none` is the uncaught exception.
* Console output is not modelled: `log` only prints.
* A template literal converts its values with `toStr`, which is the conversion of the values in
  which no object has a property of its own named `toString` (`plain`); on the other values the
  conversion raises a `TypeError`, and the theorems leave them out.
* After the embedding come the additions (`Delta`) each method makes to the validator, the shapes
  the specification names, and sample inputs; the theorems relate the methods to them.
-/

namespace AutoSaas

/-! ## JavaScript values -/

/-- The values a parsed JSON document is made of, plus `undefined`.  A number is carried by its
canonical decimal text (what `String(n)` gives), both zeros having the text `0`; a string is a
sequence of code points; an object is the list of its own properties in enumeration order, the
first entry for a key being the property. -/
inductive JSValue where
  | undefined
  | null
  | bool (b : Bool)
  | num (text : String)
  | str (s : String)
  | arr (items : List JSValue)
  | obj (props : List (String × JSValue))

namespace JSValue

/-- Truthiness (`ToBoolean`): `undefined`, `null`, `false`, zero and the empty string are falsy. -/
def truthy : JSValue → Bool
  | undefined => false
  | null => false
  | bool b => b
  | num t => t != "0"
  | str s => s != ""
  | arr _ => true
  | obj _ => true

/-- The `typeof` operator. -/
def typeOf : JSValue → String
  | undefined => "undefined"
  | null => "object"
  | bool _ => "boolean"
  | num _ => "number"
  | str _ => "string"
  | arr _ => "object"
  | obj _ => "object"

/-- The test `Array.isArray(v)`. -/
def isArray : JSValue → Bool
  | arr _ => true
  | _ => false

/-- The test `v === null`. -/
def isNull : JSValue → Bool
  | null => true
  | _ => false

/-- The values whose properties cannot be read (`null` and `undefined`). -/
def isNullish : JSValue → Bool
  | undefined => true
  | null => true
  | _ => false

/-- The elements of an array, in order (no elements for any other value). -/
def items : JSValue → List JSValue
  | arr xs => xs
  | _ => []

/-- The characters of a string value (none for any other value). -/
def strVal : JSValue → String
  | str s => s
  | _ => ""

/-- Own-property lookup in a property list; `undefined` when the key is missing. -/
def lookupProp (k : String) : List (String × JSValue) → JSValue
  | [] => undefined
  | (k', v) :: rest => if k' = k then v else lookupProp k rest

/-- Length of a string in UTF-16 code units. -/
def utf16Length (s : String) : Nat :=
  (s.data.map fun c => if c.toNat < 65536 then 1 else 2).sum

/-- The property read `v.k` on a receiver that is neither `null` nor `undefined`, for the property
names this program reads (none of them is inherited from a prototype, `length` apart). -/
def prop (v : JSValue) (k : String) : JSValue :=
  match v with
  | obj ps => lookupProp k ps
  | arr xs => if k = "length" then num (toString xs.length) else undefined
  | str s => if k = "length" then num (toString (utf16Length s)) else undefined
  | _ => undefined

/-- The expression `a || b`. -/
def orElse (a b : JSValue) : JSValue :=
  if a.truthy then a else b

mutual
/-- No object inside the value has a property of its own named `toString`.  Such a property of
a parsed document is never a function, so that converting the object to a string or to a number
raises a `TypeError`; without it the conversion goes through `Object.prototype.toString`. -/
def plain : JSValue → Bool
  | arr xs => plainItems xs
  | obj ps => plainProps ps
  | _ => true
/-- Every element is `plain`. -/
def plainItems : List JSValue → Bool
  | [] => true
  | x :: rest => plain x && plainItems rest
/-- No entry is named `toString` and every value is `plain`. -/
def plainProps : List (String × JSValue) → Bool
  | [] => true
  | (k, v) :: rest => k != "toString" && plain v && plainProps rest
end

mutual
/-- String conversion (`ToString`), as performed by a template literal; `none` is the
`TypeError` raised for an object that has a property named `toString` of its own, or for an
array that holds one. -/
def toStringOf : JSValue → Option String
  | undefined => some "undefined"
  | null => some "null"
  | bool true => some "true"
  | bool false => some "false"
  | num t => some t
  | str s => some s
  | arr xs => joinOf xs
  | obj ps => if ps.any (fun p => p.1 == "toString") then none else some "[object Object]"
/-- The method `Array.prototype.join` with the comma separator, which converts each element
that is not `null` or `undefined`. -/
def joinOf : List JSValue → Option String
  | [] => some ""
  | [x] => if x.isNullish then some "" else toStringOf x
  | x :: y :: rest =>
    match (if x.isNullish then some "" else toStringOf x), joinOf (y :: rest) with
    | some a, some b => some (a ++ "," ++ b)
    | _, _ => none
end

mutual
/-- The text of the string conversion of a `plain` value, on which `toStringOf` returns it
(`toStringOf_of_plain`): an object converts through `Object.prototype.toString`.  The functions
below write the template literals of the program with it; what is proved of them is proved for
`plain` documents, on which no conversion raises. -/
def toStr : JSValue → String
  | undefined => "undefined"
  | null => "null"
  | bool true => "true"
  | bool false => "false"
  | num t => t
  | str s => s
  | arr xs => joinStr xs
  | obj _ => "[object Object]"
/-- The method `Array.prototype.join` with the comma separator: `null` and `undefined` elements
give the empty string. -/
def joinStr : List JSValue → String
  | [] => ""
  | [x] => if x.isNullish then "" else toStr x
  | x :: y :: rest => (if x.isNullish then "" else toStr x) ++ "," ++ joinStr (y :: rest)
end

/-- What `for (const x of v)` iterates over: the elements of an array, the code points of a
string; any other value is not iterable (`none`: a `TypeError`). -/
def iterate : JSValue → Option (List JSValue)
  | arr xs => some xs
  | str s => some (s.data.map fun c => str (String.singleton c))
  | _ => none

/-- The comparison `SameValueZero` used by `Set`, for values of separately parsed documents:
primitives are compared by value, two arrays or objects are never the same reference. -/
def sameValueZero : JSValue → JSValue → Bool
  | undefined, undefined => true
  | null, null => true
  | bool a, bool b => a == b
  | num a, num b => a == b
  | str a, str b => a == b
  | _, _ => false

end JSValue

open JSValue

/-- A JavaScript `Set`, as the list of its members in insertion order. -/
abbrev JSSet := List JSValue

/-- The method `Set.prototype.has`. -/
def JSSet.has (s : JSSet) (x : JSValue) : Bool :=
  s.any fun y => sameValueZero y x

/-- The method `Set.prototype.add`. -/
def JSSet.add (s : JSSet) (x : JSValue) : JSSet :=
  if JSSet.has s x then s else s ++ [x]

/-! ## Strings -/

/-- The code points `String.prototype.trim` strips: white space and line terminators. -/
def isJSWhitespace (c : Char) : Bool :=
  decide (c.toNat ∈ [9, 10, 11, 12, 13, 32, 160, 5760, 8232, 8233, 8239, 8287, 12288, 65279])
    || (decide (8192 ≤ c.toNat) && decide (c.toNat ≤ 8202))

/-- The method `String.prototype.trim`. -/
def jsTrim (s : String) : String :=
  ⟨((s.data.dropWhile isJSWhitespace).reverse.dropWhile isJSWhitespace).reverse⟩

/-- The method `String.prototype.startsWith`. -/
def jsStartsWith (s tag : String) : Bool :=
  tag.data.isPrefixOf s.data

/-! ## The validator object -/

/-- An entry of `errors` or `warnings`: `{ path, message }`. -/
structure Entry where
  path : String
  message : String
deriving DecidableEq, Repr

/-- The field `stats` of the validator. -/
structure Stats where
  epics : Nat
  stories : Nat
  tasks : Nat
  labels_used : JSSet

/-- The fields of a `TemplateValidator` (`verbose` only switches printing and is left out). -/
structure TemplateValidator where
  validLabels : JSSet
  errors : List Entry
  warnings : List Entry
  stats : Stats

namespace TemplateValidator

/-- The constructor: `new TemplateValidator(validLabels)`. -/
def new (validLabels : JSSet) : TemplateValidator :=
  { validLabels := validLabels, errors := [], warnings := [],
    stats := { epics := 0, stories := 0, tasks := 0, labels_used := [] } }

/-- The method `addError(path, message)`. -/
def addError (v : TemplateValidator) (path message : String) : TemplateValidator :=
  { v with errors := v.errors ++ [{ path := path, message := message }] }

/-- The method `addWarning(path, message)`. -/
def addWarning (v : TemplateValidator) (path message : String) : TemplateValidator :=
  { v with warnings := v.warnings ++ [{ path := path, message := message }] }

/-- The statement `this.stats.labels_used.add(label)`. -/
def useLabel (v : TemplateValidator) (label : JSValue) : TemplateValidator :=
  { v with stats := { v.stats with labels_used := JSSet.add v.stats.labels_used label } }

/-- The statement `this.stats.tasks++`. -/
def countTask (v : TemplateValidator) : TemplateValidator :=
  { v with stats := { v.stats with tasks := v.stats.tasks + 1 } }

/-- The statement `this.stats.stories++`. -/
def countStory (v : TemplateValidator) : TemplateValidator :=
  { v with stats := { v.stats with stories := v.stats.stories + 1 } }

/-- The statement `this.stats.epics++`. -/
def countEpic (v : TemplateValidator) : TemplateValidator :=
  { v with stats := { v.stats with epics := v.stats.epics + 1 } }

end TemplateValidator

/-- The local variable `valid` of a method next to the validator it runs on. -/
abbrev VState := Bool × TemplateValidator

/-- The statements `this.addError(path, message); valid = false;`. -/
def fail (path message : String) (s : VState) : VState :=
  (false, s.2.addError path message)

/-- The statement `if (cond) { this.addError(path, message); valid = false; }`. -/
def failIf (cond : Bool) (path message : String) (s : VState) : VState :=
  if cond then fail path message s else s

/-- The statement `this.addWarning(path, message);`, which leaves `valid` alone. -/
def warn (path message : String) (s : VState) : VState :=
  (s.1, s.2.addWarning path message)

/-- The statement `if (!call(...)) { valid = false; }` once the call has returned `r`. -/
def andCall (s : VState) (r : VState) : VState :=
  (if !r.1 then false else s.1, r.2)

/-! ## Messages -/

/-- The message of `validateLabels` for a label the registry lacks. -/
def unknownLabelMessage (label : JSValue) : String :=
  "Label desconhecida: \"" ++ toStr label ++ "\". Adicione em config/labels.json"

/-- The message of `validateTask` for a dependency without a recognised tag. -/
def dependencyFormatMessage (dep : JSValue) : String :=
  "Dependencia \"" ++ toStr dep ++ "\" nao segue formato recomendado [EPIC/STORY/TASK]"

/-- The context string of `validateTask`. -/
def taskContext (task storyTitle epicTitle : JSValue) : String :=
  "Task \"" ++ toStr (orElse (prop task "title") (str "sem titulo")) ++ "\" (Story: "
    ++ toStr storyTitle ++ ", Epic: " ++ toStr epicTitle ++ ")"

/-- The context string of `validateStory`. -/
def storyContext (story epicTitle : JSValue) : String :=
  "Story \"" ++ toStr (orElse (prop story "title") (str "sem titulo")) ++ "\" (Epic: "
    ++ toStr epicTitle ++ ")"

/-- The context string of `validateEpic`. -/
def epicContext (epic : JSValue) (source : String) : String :=
  "Epic \"" ++ toStr (orElse (prop epic "title") (str "sem titulo")) ++ "\" (" ++ source ++ ")"

/-! ## validateLabels -/

/-- The loop `for (const label of labels)` of `validateLabels`. -/
def labelsLoop (context : String) : List JSValue → VState → VState
  | [], s => s
  | label :: rest, s =>
    let v := s.2.useLabel label
    if !JSSet.has v.validLabels label then
      labelsLoop context rest (fail context (unknownLabelMessage label) (s.1, v))
    else
      labelsLoop context rest (s.1, v)

/-- The method `validateLabels(labels, context)`. -/
def validateLabels (labels : JSValue) (context : String) (v : TemplateValidator) : VState :=
  if !truthy labels || !isArray labels then
    (false, v.addError context "Labels deve ser um array")
  else if (items labels).length == 0 then
    (true, v.addWarning context "Nenhuma label definida")
  else
    labelsLoop context (items labels) (true, v)

/-! ## validateTechnicalDetails -/

/-- The loops `for (const x of xs) if (typeof x !== 'string') { addError; valid = false }` of
`validateTechnicalDetails` (over `files` and over `packages`). -/
def stringItemsLoop (context message : String) : List JSValue → VState → VState
  | [], s => s
  | x :: rest, s => stringItemsLoop context message rest (failIf (typeOf x != "string") context message s)

/-- The array `comandos` of `validateTechnicalDetails`. -/
def comandos : List String := ["comando_instalar", "comando_criar", "verificar"]

/-- The method `validateTechnicalDetails(td, context)`. -/
def validateTechnicalDetails (td : JSValue) (context : String) (v : TemplateValidator) : VState :=
  if typeOf td != "object" || isNull td then
    (false, v.addError context "technical_details deve ser um objeto")
  else
    let s : VState := (true, v)
    let s := failIf (truthy (prop td "stack") && typeOf (prop td "stack") != "string")
      context "technical_details.stack deve ser string" s
    let s :=
      if truthy (prop td "files") then
        if !isArray (prop td "files") then
          fail context "technical_details.files deve ser array" s
        else
          stringItemsLoop context "Cada arquivo em files deve ser string" (items (prop td "files")) s
      else s
    let s :=
      if truthy (prop td "packages") then
        if isArray (prop td "packages") then
          stringItemsLoop context "Cada pacote em packages deve ser string"
            (items (prop td "packages")) s
        else if typeOf (prop td "packages") == "object" then
          let s := failIf (truthy (prop (prop td "packages") "dependencies")
              && typeOf (prop (prop td "packages") "dependencies") != "object")
            context "packages.dependencies deve ser objeto" s
          failIf (truthy (prop (prop td "packages") "devDependencies")
              && typeOf (prop (prop td "packages") "devDependencies") != "object")
            context "packages.devDependencies deve ser objeto" s
        else
          fail context "technical_details.packages deve ser array ou objeto" s
      else s
    let s := comandos.foldl
      (fun s cmd => failIf (truthy (prop td cmd) && typeOf (prop td cmd) != "string")
        context ("technical_details." ++ cmd ++ " deve ser string") s) s
    failIf (truthy (prop td "implementation_notes")
        && typeOf (prop td "implementation_notes") != "string")
      context "technical_details.implementation_notes deve ser string" s

/-! ## validateTask -/

/-- The loop `for (const dep of task.depends_on)` of `validateTask`. -/
def dependsLoop (context : String) : List JSValue → VState → VState
  | [], s => s
  | dep :: rest, s =>
    if typeOf dep != "string" then
      dependsLoop context rest (fail context "Cada item de depends_on deve ser string" s)
    else if !jsStartsWith (strVal dep) "[EPIC]" && !jsStartsWith (strVal dep) "[STORY]"
        && !jsStartsWith (strVal dep) "[TASK]" then
      dependsLoop context rest (warn context (dependencyFormatMessage dep) s)
    else
      dependsLoop context rest s

/-- The method `validateTask(task, storyTitle, epicTitle)`; `none` when `task` is `null` or
`undefined` (reading `task.title` throws).  The line `this.log(...)` before the counter converts
`task.title`, as the context did. -/
def validateTask (task storyTitle epicTitle : JSValue) (v : TemplateValidator) : Option VState :=
  if isNullish task then none
  else
    let context := taskContext task storyTitle epicTitle
    let s : VState := (true, v)
    let s := failIf (!truthy (prop task "title") || typeOf (prop task "title") != "string"
        || jsTrim (strVal (prop task "title")) == "")
      context "Task deve ter titulo (string nao vazia)" s
    let s := failIf (!truthy (prop task "description")
        || typeOf (prop task "description") != "string")
      context "Task deve ter descricao (string)" s
    let s := andCall s (validateLabels (prop task "labels") context s.2)
    let s :=
      if truthy (prop task "depends_on") then
        if !isArray (prop task "depends_on") then
          fail context "depends_on deve ser um array" s
        else
          dependsLoop context (items (prop task "depends_on")) s
      else s
    let s :=
      if truthy (prop task "related_to") then
        failIf (!isArray (prop task "related_to")) context "related_to deve ser um array" s
      else s
    let s :=
      if truthy (prop task "technical_details") then
        let r := validateTechnicalDetails (prop task "technical_details") context s.2
        (r.1 && s.1, r.2)
      else s
    some (s.1, s.2.countTask)

/-! ## validateStory -/

/-- The loop `for (const task of story.tasks)` of `validateStory`. -/
def tasksLoop (storyTitle epicTitle : JSValue) : List JSValue → VState → Option VState
  | [], s => some s
  | task :: rest, s =>
    match validateTask task storyTitle epicTitle s.2 with
    | none => none
    | some r => tasksLoop storyTitle epicTitle rest (andCall s r)

/-- The method `validateStory(story, epicTitle)`; `none` when `story` or one of its tasks is
`null` or `undefined`.  The line `this.log(...)` before the counter builds its text from
`story.title` and `story.tasks?.length || 0` even when nothing is printed: on a `plain` story
the two conversions return, and the line only prints. -/
def validateStory (story epicTitle : JSValue) (v : TemplateValidator) : Option VState :=
  if isNullish story then none
  else
    let context := storyContext story epicTitle
    let s : VState := (true, v)
    let s := failIf (!truthy (prop story "title") || typeOf (prop story "title") != "string"
        || jsTrim (strVal (prop story "title")) == "")
      context "Story deve ter titulo (string nao vazia)" s
    let s := failIf (!truthy (prop story "description")
        || typeOf (prop story "description") != "string")
      context "Story deve ter descricao (string)" s
    let s := andCall s (validateLabels (prop story "labels") context s.2)
    let s :=
      if !truthy (prop story "acceptance_criteria") || !isArray (prop story "acceptance_criteria") then
        warn context "Story deveria ter acceptance_criteria (array)" s
      else if (items (prop story "acceptance_criteria")).length == 0 then
        warn context "acceptance_criteria esta vazio" s
      else s
    let s := failIf (truthy (prop story "depends_on") && !isArray (prop story "depends_on"))
      context "depends_on deve ser um array" s
    let r :=
      if !truthy (prop story "tasks") || !isArray (prop story "tasks") then
        some (warn context "Story deveria ter tasks (array)" s)
      else if (items (prop story "tasks")).length == 0 then
        some (warn context "Story nao tem tasks" s)
      else
        tasksLoop (prop story "title") epicTitle (items (prop story "tasks")) s
    match r with
    | none => none
    | some s => some (s.1, s.2.countStory)

/-! ## validateEpic -/

/-- The method `validateEpic(epic, source)`; `none` when `epic` is `null` or `undefined`.  The
line `this.log(...)` before the counter converts `epic.title`, as the context did. -/
def validateEpic (epic : JSValue) (source : String) (v : TemplateValidator) : Option VState :=
  if isNullish epic then none
  else
    let context := epicContext epic source
    let s : VState := (true, v)
    let s := failIf (!truthy (prop epic "title") || typeOf (prop epic "title") != "string"
        || jsTrim (strVal (prop epic "title")) == "")
      context "Epic deve ter titulo (string nao vazia)" s
    let s := failIf (!truthy (prop epic "description")
        || typeOf (prop epic "description") != "string")
      context "Epic deve ter descricao (string)" s
    let s := andCall s (validateLabels (prop epic "labels") context s.2)
    some (s.1, s.2.countEpic)

/-! ## validateTemplate -/

/-- What reading and parsing a file gives: the parsed value, or the message of the exception
thrown by `fs.readFileSync` or `JSON.parse`. -/
abbrev FileContent := Except String JSValue

/-- The method `validateJSON(filePath)`, on the outcome of reading and parsing the file. -/
def validateJSON (filePath : String) (content : FileContent) (v : TemplateValidator) :
    JSValue × TemplateValidator :=
  match content with
  | .ok data => (data, v)
  | .error msg => (null, v.addError filePath ("JSON invalido: " ++ msg))

/-- The loops `for (const story of ...)` of `validateTemplate`, calling `validateStory`. -/
def storiesLoop (epicTitle : JSValue) : List JSValue → VState → Option VState
  | [], s => some s
  | story :: rest, s =>
    match validateStory story epicTitle s.2 with
    | none => none
    | some r => storiesLoop epicTitle rest (andCall s r)

/-- The loop `for (const epic of data.epics)` of `validateTemplate`. -/
def epicsLoop (filePath : String) : List JSValue → VState → Option VState
  | [], s => some s
  | epic :: rest, s =>
    match validateEpic epic filePath s.2 with
    | none => none
    | some r =>
      let s := andCall s r
      if truthy (prop epic "stories") then
        match iterate (prop epic "stories") with
        | none => none
        | some stories =>
          match storiesLoop (prop epic "title") stories s with
          | none => none
          | some s => epicsLoop filePath rest s
      else
        epicsLoop filePath rest s

/-- The method `validateTemplate(filePath)`, on the outcome of reading and parsing the file. -/
def validateTemplate (filePath : String) (content : FileContent) (v : TemplateValidator) :
    Option VState :=
  let dv := validateJSON filePath content v
  let data := dv.1
  let v := dv.2
  if !truthy data then some (false, v)
  else
    let s : VState := (true, v)
    if truthy (prop data "epic") && truthy (prop data "stories") then
      match validateEpic (prop data "epic") filePath s.2 with
      | none => none
      | some r =>
        let s := andCall s r
        if !isArray (prop data "stories") then
          some (fail filePath "stories deve ser um array" s)
        else
          storiesLoop (prop (prop data "epic") "title") (items (prop data "stories")) s
    else if truthy (prop data "epics") && isArray (prop data "epics") then
      epicsLoop filePath (items (prop data "epics")) s
    else if truthy (prop data "labels") && isArray (prop data "labels") then
      some (true, v)
    else
      some (fail filePath
        "Formato de template desconhecido. Deve ter \"epic + stories\" ou \"epics\" array" s)

/-! ## getReport and main -/

/-- The object returned by `getReport()`. -/
structure Report where
  errors : List Entry
  warnings : List Entry
  stats : Stats
  hasErrors : Bool
  hasWarnings : Bool

/-- The method `getReport()`. -/
def getReport (v : TemplateValidator) : Report :=
  { errors := v.errors, warnings := v.warnings, stats := v.stats,
    hasErrors := decide (v.errors.length > 0), hasWarnings := decide (v.warnings.length > 0) }

/-- The loop `for (const file of files)` of `main`: `allValid` next to the validator. -/
def validateFiles : List (String × FileContent) → VState → Option VState
  | [], s => some s
  | (filePath, content) :: rest, s =>
    match validateTemplate filePath content s.2 with
    | none => none
    | some r => validateFiles rest (andCall s r)

/-- The exit code of `main` on the given files: `0` when `allValid && !report.hasErrors`, else `1`;
an exception reaches `main().catch`, which exits with `1`. -/
def main (validLabels : JSSet) (files : List (String × FileContent)) : Nat :=
  match validateFiles files (true, TemplateValidator.new validLabels) with
  | none => 1
  | some s => if s.1 && !(getReport s.2).hasErrors then 0 else 1

/-! ## Shapes named by the specification -/

/-- The value is a string. -/
def isString : JSValue → Bool
  | str _ => true
  | _ => false

/-- The value is a non-null object in the sense of `typeof` (arrays count). -/
def isObject : JSValue → Bool
  | arr _ => true
  | obj _ => true
  | _ => false

/-- The value is an object that is not an array. -/
def isPlainObject : JSValue → Bool
  | obj _ => true
  | _ => false

/-- The value is an array all of whose elements are strings. -/
def isArrayOfStrings : JSValue → Bool
  | arr xs => xs.all isString
  | _ => false

/-- The property is absent (reading it gives `undefined`). -/
def isAbsent : JSValue → Bool
  | undefined => true
  | _ => false

/-- The shape rules of `technical_details`, a field counting as present when its value is truthy:
some rule is violated. -/
def violatesShape (td : JSValue) : Bool :=
  !isObject td
  || (truthy (prop td "stack") && !isString (prop td "stack"))
  || (truthy (prop td "files") && !isArrayOfStrings (prop td "files"))
  || (truthy (prop td "packages") && !(isArrayOfStrings (prop td "packages")
        || (isPlainObject (prop td "packages")
            && (!truthy (prop (prop td "packages") "dependencies")
                || isObject (prop (prop td "packages") "dependencies"))
            && (!truthy (prop (prop td "packages") "devDependencies")
                || isObject (prop (prop td "packages") "devDependencies")))))
  || comandos.any (fun cmd => truthy (prop td cmd) && !isString (prop td cmd))
  || (truthy (prop td "implementation_notes") && !isString (prop td "implementation_notes"))

/-- The shape rules of `technical_details` as the specification words them, a field being present
when the object has it: every rule is met. -/
def wellShaped (td : JSValue) : Bool :=
  isObject td
  && (isAbsent (prop td "stack") || isString (prop td "stack"))
  && comandos.all (fun cmd => isAbsent (prop td cmd) || isString (prop td cmd))
  && (isAbsent (prop td "implementation_notes") || isString (prop td "implementation_notes"))
  && (isAbsent (prop td "files") || isArrayOfStrings (prop td "files"))
  && (isAbsent (prop td "packages") || isArrayOfStrings (prop td "packages")
      || (isPlainObject (prop td "packages")
          && (isAbsent (prop (prop td "packages") "dependencies")
              || isObject (prop (prop td "packages") "dependencies"))
          && (isAbsent (prop (prop td "packages") "devDependencies")
              || isObject (prop (prop td "packages") "devDependencies"))))

/-- The value is missing, is not an array, or is the empty array. -/
def emptyOrNoArray (x : JSValue) : Bool :=
  !isArray x || (items x).isEmpty

/-! ## What a call adds to the validator -/

/-- What a call adds to a validator: the errors and warnings it appends, the labels it passes to
`labels_used.add`, and the increments of the three counters. -/
structure Delta where
  errors : List Entry
  warnings : List Entry
  labels : List JSValue
  epics : Nat
  stories : Nat
  tasks : Nat

namespace Delta

/-- Nothing is added. -/
def empty : Delta :=
  { errors := [], warnings := [], labels := [], epics := 0, stories := 0, tasks := 0 }

/-- One error is added. -/
def error (path message : String) : Delta :=
  { empty with errors := [{ path := path, message := message }] }

/-- One warning is added. -/
def warning (path message : String) : Delta :=
  { empty with warnings := [{ path := path, message := message }] }

/-- One error is added when the condition holds. -/
def errorIf (cond : Bool) (path message : String) : Delta :=
  if cond then error path message else empty

/-- First `a`, then `b`. -/
def append (a b : Delta) : Delta :=
  { errors := a.errors ++ b.errors, warnings := a.warnings ++ b.warnings,
    labels := a.labels ++ b.labels, epics := a.epics + b.epics,
    stories := a.stories + b.stories, tasks := a.tasks + b.tasks }

instance : Append Delta := ⟨append⟩

/-- The additions of a list of calls, in order. -/
def concat : List Delta → Delta
  | [] => empty
  | d :: ds => d ++ concat ds

/-- The validator after the additions. -/
def apply (d : Delta) (v : TemplateValidator) : TemplateValidator :=
  { validLabels := v.validLabels
    errors := v.errors ++ d.errors
    warnings := v.warnings ++ d.warnings
    stats :=
      { epics := v.stats.epics + d.epics
        stories := v.stats.stories + d.stories
        tasks := v.stats.tasks + d.tasks
        labels_used := d.labels.foldl JSSet.add v.stats.labels_used } }

end Delta

/-- Running from `s` to `t` added exactly `d`, and `valid` in `t` is `valid` in `s` and "no error
was added". -/
def ExtendsBy (d : Delta) (s t : VState) : Prop :=
  t.1 = (s.1 && d.errors.isEmpty) ∧ t.2 = d.apply s.2

/-- What `validateLabels(labels, context)` adds, for the registry `reg`. -/
def labelsDelta (reg : JSSet) (labels : JSValue) (context : String) : Delta :=
  if !truthy labels || !isArray labels then
    Delta.error context "Labels deve ser um array"
  else if (items labels).length == 0 then
    Delta.warning context "Nenhuma label definida"
  else
    { Delta.empty with
      errors := ((items labels).filter fun l => !JSSet.has reg l).map
        fun l => { path := context, message := unknownLabelMessage l }
      labels := items labels }

/-- What the loops over `files` and over `packages` add. -/
def stringItemsDelta (context message : String) (xs : List JSValue) : Delta :=
  { Delta.empty with
    errors := (xs.filter fun x => !isString x).map
      fun _ => { path := context, message := message } }

/-- What the `files` block of `validateTechnicalDetails` adds. -/
def filesDelta (context : String) (files : JSValue) : Delta :=
  if truthy files then
    if !isArray files then Delta.error context "technical_details.files deve ser array"
    else stringItemsDelta context "Cada arquivo em files deve ser string" (items files)
  else Delta.empty

/-- What the `packages` block of `validateTechnicalDetails` adds. -/
def packagesDelta (context : String) (packages : JSValue) : Delta :=
  if truthy packages then
    if isArray packages then
      stringItemsDelta context "Cada pacote em packages deve ser string" (items packages)
    else if typeOf packages == "object" then
      Delta.errorIf (truthy (prop packages "dependencies")
          && typeOf (prop packages "dependencies") != "object")
        context "packages.dependencies deve ser objeto"
      ++ Delta.errorIf (truthy (prop packages "devDependencies")
          && typeOf (prop packages "devDependencies") != "object")
        context "packages.devDependencies deve ser objeto"
    else Delta.error context "technical_details.packages deve ser array ou objeto"
  else Delta.empty

/-- What the loop over `comandos` adds. -/
def comandosDelta (context : String) (td : JSValue) : List String → Delta
  | [] => Delta.empty
  | cmd :: rest =>
    Delta.errorIf (truthy (prop td cmd) && typeOf (prop td cmd) != "string")
      context ("technical_details." ++ cmd ++ " deve ser string")
    ++ comandosDelta context td rest

/-- What `validateTechnicalDetails(td, context)` adds. -/
def detailsDelta (context : String) (td : JSValue) : Delta :=
  if typeOf td != "object" || isNull td then
    Delta.error context "technical_details deve ser um objeto"
  else
    Delta.errorIf (truthy (prop td "stack") && typeOf (prop td "stack") != "string")
      context "technical_details.stack deve ser string"
    ++ filesDelta context (prop td "files")
    ++ packagesDelta context (prop td "packages")
    ++ comandosDelta context td comandos
    ++ Delta.errorIf (truthy (prop td "implementation_notes")
        && typeOf (prop td "implementation_notes") != "string")
      context "technical_details.implementation_notes deve ser string"

/-- The dependency lacks the three recognised tags. -/
def untagged (dep : JSValue) : Bool :=
  !jsStartsWith (strVal dep) "[EPIC]" && !jsStartsWith (strVal dep) "[STORY]"
    && !jsStartsWith (strVal dep) "[TASK]"

/-- What the loop over `task.depends_on` adds. -/
def dependsItemsDelta (context : String) (xs : List JSValue) : Delta :=
  { Delta.empty with
    errors := (xs.filter fun x => !isString x).map
      fun _ => { path := context, message := "Cada item de depends_on deve ser string" }
    warnings := (xs.filter fun x => isString x && untagged x).map
      fun x => { path := context, message := dependencyFormatMessage x } }

/-- What the `depends_on` block of `validateTask` adds. -/
def taskDependsDelta (context : String) (dep : JSValue) : Delta :=
  if truthy dep then
    if !isArray dep then Delta.error context "depends_on deve ser um array"
    else dependsItemsDelta context (items dep)
  else Delta.empty

/-- The test on a title shared by the three node validators. -/
def titleRejected (title : JSValue) : Bool :=
  !truthy title || typeOf title != "string" || jsTrim (strVal title) == ""

/-- The test on a description shared by the three node validators. -/
def descriptionRejected (description : JSValue) : Bool :=
  !truthy description || typeOf description != "string"

/-- What `validateTask(task, storyTitle, epicTitle)` adds, for the registry `reg`. -/
def taskDelta (reg : JSSet) (storyTitle epicTitle task : JSValue) : Delta :=
  Delta.errorIf (titleRejected (prop task "title"))
    (taskContext task storyTitle epicTitle) "Task deve ter titulo (string nao vazia)"
  ++ Delta.errorIf (descriptionRejected (prop task "description"))
    (taskContext task storyTitle epicTitle) "Task deve ter descricao (string)"
  ++ labelsDelta reg (prop task "labels") (taskContext task storyTitle epicTitle)
  ++ taskDependsDelta (taskContext task storyTitle epicTitle) (prop task "depends_on")
  ++ (if truthy (prop task "related_to") then
        Delta.errorIf (!isArray (prop task "related_to"))
          (taskContext task storyTitle epicTitle) "related_to deve ser um array"
      else Delta.empty)
  ++ (if truthy (prop task "technical_details") then
        detailsDelta (taskContext task storyTitle epicTitle) (prop task "technical_details")
      else Delta.empty)
  ++ { Delta.empty with tasks := 1 }

/-- What the `acceptance_criteria` block of `validateStory` adds. -/
def criteriaDelta (context : String) (ac : JSValue) : Delta :=
  if !truthy ac || !isArray ac then
    Delta.warning context "Story deveria ter acceptance_criteria (array)"
  else if (items ac).length == 0 then
    Delta.warning context "acceptance_criteria esta vazio"
  else Delta.empty

/-- What the `tasks` block of `validateStory` adds, for the registry `reg`. -/
def storyTasksDelta (reg : JSSet) (context : String) (storyTitle epicTitle tasks : JSValue) :
    Delta :=
  if !truthy tasks || !isArray tasks then
    Delta.warning context "Story deveria ter tasks (array)"
  else if (items tasks).length == 0 then
    Delta.warning context "Story nao tem tasks"
  else Delta.concat ((items tasks).map (taskDelta reg storyTitle epicTitle))

/-- What `validateStory(story, epicTitle)` adds, for the registry `reg`. -/
def storyDelta (reg : JSSet) (epicTitle story : JSValue) : Delta :=
  Delta.errorIf (titleRejected (prop story "title"))
    (storyContext story epicTitle) "Story deve ter titulo (string nao vazia)"
  ++ Delta.errorIf (descriptionRejected (prop story "description"))
    (storyContext story epicTitle) "Story deve ter descricao (string)"
  ++ labelsDelta reg (prop story "labels") (storyContext story epicTitle)
  ++ criteriaDelta (storyContext story epicTitle) (prop story "acceptance_criteria")
  ++ Delta.errorIf (truthy (prop story "depends_on") && !isArray (prop story "depends_on"))
    (storyContext story epicTitle) "depends_on deve ser um array"
  ++ storyTasksDelta reg (storyContext story epicTitle) (prop story "title") epicTitle
    (prop story "tasks")
  ++ { Delta.empty with stories := 1 }

/-- What `validateEpic(epic, source)` adds, for the registry `reg`. -/
def epicDelta (reg : JSSet) (source : String) (epic : JSValue) : Delta :=
  Delta.errorIf (titleRejected (prop epic "title"))
    (epicContext epic source) "Epic deve ter titulo (string nao vazia)"
  ++ Delta.errorIf (descriptionRejected (prop epic "description"))
    (epicContext epic source) "Epic deve ter descricao (string)"
  ++ labelsDelta reg (prop epic "labels") (epicContext epic source)
  ++ { Delta.empty with epics := 1 }

/-- The tasks a story's validation visits: the elements of `tasks` when it is an array. -/
def storyTasks (story : JSValue) : List JSValue :=
  items (prop story "tasks")

/-! ## When a call returns -/

/-- The call `validateStory(story, ...)` returns: neither the story nor one of its tasks is `null` or
`undefined`. -/
def storyCompletes (story : JSValue) : Bool :=
  !isNullish story && (storyTasks story).all fun t => !isNullish t

/-- The stories the `epics` form visits under an epic: `epic.stories` when truthy, iterated;
`none` when it is truthy and not iterable. -/
def epicStories (epic : JSValue) : Option (List JSValue) :=
  if truthy (prop epic "stories") then iterate (prop epic "stories") else some []

/-- The `epics` form gets through an epic and its stories without an exception. -/
def epicCompletes (epic : JSValue) : Bool :=
  !isNullish epic &&
    match epicStories epic with
    | none => false
    | some stories => stories.all storyCompletes

/-- What the `epics` form adds for one epic: the epic, then its stories. -/
def epicTreeDelta (reg : JSSet) (filePath : String) (epic : JSValue) : Delta :=
  epicDelta reg filePath epic
  ++ Delta.concat (((epicStories epic).getD []).map (storyDelta reg (prop epic "title")))

/-- The method `validateTemplate` returns on the parsed document `data`. -/
def templateCompletes (data : JSValue) : Bool :=
  if truthy (prop data "epic") && truthy (prop data "stories") then
    (items (prop data "stories")).all storyCompletes
  else if truthy (prop data "epics") && isArray (prop data "epics") then
    (items (prop data "epics")).all epicCompletes
  else true

/-- What `validateTemplate` adds on the truthy parsed document `data`, for the registry `reg`. -/
def templateDelta (reg : JSSet) (filePath : String) (data : JSValue) : Delta :=
  if truthy (prop data "epic") && truthy (prop data "stories") then
    epicDelta reg filePath (prop data "epic")
    ++ (if !isArray (prop data "stories") then
          Delta.error filePath "stories deve ser um array"
        else
          Delta.concat ((items (prop data "stories")).map
            (storyDelta reg (prop (prop data "epic") "title"))))
  else if truthy (prop data "epics") && isArray (prop data "epics") then
    Delta.concat ((items (prop data "epics")).map (epicTreeDelta reg filePath))
  else if truthy (prop data "labels") && isArray (prop data "labels") then
    Delta.empty
  else
    Delta.error filePath
      "Formato de template desconhecido. Deve ter \"epic + stories\" ou \"epics\" array"

/-- The file does not parse, or parses to a truthy value. -/
def parsesTruthy (content : FileContent) : Bool :=
  match content with
  | .ok data => truthy data
  | .error _ => true

/-! ## Messages by origin -/

/-- The message is one of `validateLabels`. -/
def labelMessage (m : String) : Bool :=
  m == "Labels deve ser um array" || jsStartsWith m "Label desconhecida: \""

/-- The messages of `validateTechnicalDetails`. -/
def detailsMessages : List String :=
  ["technical_details deve ser um objeto",
   "technical_details.stack deve ser string",
   "technical_details.files deve ser array",
   "Cada arquivo em files deve ser string",
   "Cada pacote em packages deve ser string",
   "packages.dependencies deve ser objeto",
   "packages.devDependencies deve ser objeto",
   "technical_details.packages deve ser array ou objeto",
   "technical_details.comando_instalar deve ser string",
   "technical_details.comando_criar deve ser string",
   "technical_details.verificar deve ser string",
   "technical_details.implementation_notes deve ser string"]

/-- The message is one of `validateTechnicalDetails`. -/
def detailsMessage (m : String) : Bool :=
  detailsMessages.contains m

/-- The message is one an error of `validateTask` can carry. -/
def taskMessage (m : String) : Bool :=
  m == "Task deve ter titulo (string nao vazia)" || m == "Task deve ter descricao (string)"
    || labelMessage m || m == "depends_on deve ser um array"
    || m == "Cada item de depends_on deve ser string" || m == "related_to deve ser um array"
    || detailsMessage m

/-- The title is absent, is not a string, or is empty after trimming. -/
def titleMissing (title : JSValue) : Bool :=
  isAbsent title || !isString title || jsTrim (strVal title) == ""

/-- The description is absent, is not a string, or is the empty string. -/
def descriptionMissing (description : JSValue) : Bool :=
  isAbsent description || !isString description || strVal description == ""

/-! ## Sample inputs -/

/-- A registry holding the labels `epic`, `story` and `task`. -/
def sampleRegistry : JSSet :=
  [str "epic", str "story", str "task"]

/-- A task that passes validation against `sampleRegistry`. -/
def sampleTask : JSValue :=
  obj [("title", str "Criar tabela"), ("description", str "Criar a tabela de usuarios"),
    ("labels", arr [str "task"])]

/-- A story without `acceptance_criteria` and `tasks` that is otherwise in order. -/
def sampleStory : JSValue :=
  obj [("title", str "Cadastro"), ("description", str "Cadastro de usuarios"),
    ("labels", arr [str "story"])]

/-- An epic that passes validation against `sampleRegistry`. -/
def sampleEpic : JSValue :=
  obj [("title", str "Usuarios"), ("description", str "Gestao de usuarios"),
    ("labels", arr [str "epic"])]

/-- The task `sampleTask` with the empty string as description. -/
def taskEmptyDescription : JSValue :=
  obj [("title", str "Criar tabela"), ("description", str ""), ("labels", arr [str "task"])]

/-- The task `sampleTask` with `depends_on: 0`. -/
def taskDependsZero : JSValue :=
  obj [("title", str "Criar tabela"), ("description", str "Criar a tabela de usuarios"),
    ("labels", arr [str "task"]), ("depends_on", num "0")]

/-- The task `sampleTask` with the string `depends_on: "[TASK] Outra"`. -/
def taskDependsString : JSValue :=
  obj [("title", str "Criar tabela"), ("description", str "Criar a tabela de usuarios"),
    ("labels", arr [str "task"]), ("depends_on", str "[TASK] Outra")]

/-- The story `sampleStory` with the string `related_to: "[STORY] Login"`. -/
def storyRelatedString : JSValue :=
  obj [("title", str "Cadastro"), ("description", str "Cadastro de usuarios"),
    ("labels", arr [str "story"]), ("related_to", str "[STORY] Login")]

/-- The epic `sampleEpic` with the string `depends_on: "[EPIC] Base"`. -/
def epicDependsString : JSValue :=
  obj [("title", str "Usuarios"), ("description", str "Gestao de usuarios"),
    ("labels", arr [str "epic"]), ("depends_on", str "[EPIC] Base")]

/-- The task `sampleTask` with `related_to: [5]`. -/
def taskRelatedNumber : JSValue :=
  obj [("title", str "Criar tabela"), ("description", str "Criar a tabela de usuarios"),
    ("labels", arr [str "task"]), ("related_to", arr [num "5"])]

/-- The task `sampleTask` with `related_to: [5, "Login"]`. -/
def taskRelatedMixed : JSValue :=
  obj [("title", str "Criar tabela"), ("description", str "Criar a tabela de usuarios"),
    ("labels", arr [str "task"]), ("related_to", arr [num "5", str "Login"])]

/-- The task `sampleTask` with the string `related_to: "[STORY] Login"`. -/
def taskRelatedString : JSValue :=
  obj [("title", str "Criar tabela"), ("description", str "Criar a tabela de usuarios"),
    ("labels", arr [str "task"]), ("related_to", str "[STORY] Login")]

/-- A story whose `related_to` is the string `"[STORY] Login"` and that is otherwise in order,
with one task. -/
def storyRelatedLogin : JSValue :=
  obj [("title", str "Cadastro"), ("description", str "Cadastro"),
    ("labels", arr [str "story"]), ("acceptance_criteria", arr [str "ok"]),
    ("related_to", str "[STORY] Login"),
    ("tasks", arr [obj [("title", str "T"), ("description", str "d"),
      ("labels", arr [str "task"])]])]

/-- A template of the `{epic, stories}` form whose only story is `storyRelatedLogin`. -/
def relatedStringTemplate : JSValue :=
  obj [("epic", obj [("title", str "Usuarios"), ("description", str "Gestao"),
      ("labels", arr [str "epic"])]),
    ("stories", arr [storyRelatedLogin])]

/-- The story `sampleStory` with `depends_on: [5, "Login"]`. -/
def storyDependsMixed : JSValue :=
  obj [("title", str "Cadastro"), ("description", str "Cadastro de usuarios"),
    ("labels", arr [str "story"]), ("depends_on", arr [num "5", str "Login"])]

/-- The task `sampleTask` with `depends_on: [5, "Login", "[TASK] Outra"]`. -/
def taskDependsMixed : JSValue :=
  obj [("title", str "Criar tabela"), ("description", str "Criar a tabela de usuarios"),
    ("labels", arr [str "task"]),
    ("depends_on", arr [num "5", str "Login", str "[TASK] Outra"])]

/-- The task `sampleTask` with `technical_details: { stack: 0 }`. -/
def taskStackZero : JSValue :=
  obj [("title", str "Criar tabela"), ("description", str "Criar a tabela de usuarios"),
    ("labels", arr [str "task"]), ("technical_details", obj [("stack", num "0")])]

/-- The task `sampleTask` with `technical_details: 0`. -/
def taskDetailsZero : JSValue :=
  obj [("title", str "Criar tabela"), ("description", str "Criar a tabela de usuarios"),
    ("labels", arr [str "task"]), ("technical_details", num "0")]

/-- The task `sampleTask` with `technical_details: { files: "src/db.ts" }`. -/
def taskFilesString : JSValue :=
  obj [("title", str "Criar tabela"), ("description", str "Criar a tabela de usuarios"),
    ("labels", arr [str "task"]), ("technical_details", obj [("files", str "src/db.ts")])]

/-- A `technical_details` value that meets every shape rule and carries one more key. -/
def sampleDetails : JSValue :=
  obj [("stack", str "Next.js"), ("files", arr [str "src/db.ts"]),
    ("packages", obj [("dependencies", obj [("react", str "*")]), ("devDependencies", obj [])]),
    ("verificar", str "pnpm test"), ("prioridade", num "1")]

/-- The flag, the errors and the warnings of a call that returned. -/
def outcome (r : Option VState) : Option (Bool × List Entry × List Entry) :=
  r.map fun s => (s.1, s.2.errors, s.2.warnings)

/-- The story `sampleStory` with the string `depends_on: "[STORY] Login"`. -/
def storyDependsString : JSValue :=
  obj [("title", str "Cadastro"), ("description", str "Cadastro de usuarios"),
    ("labels", arr [str "story"]), ("depends_on", str "[STORY] Login")]

/-- A task carrying the label `novo`, which `sampleRegistry` lacks. -/
def taskNewLabel : JSValue :=
  obj [("title", str "Criar tabela"), ("description", str "Criar a tabela de usuarios"),
    ("labels", arr [str "task", str "novo"])]

/-- A template of the `{epic, stories}` form: one story with one task; the epic and the task
carry the label `novo`, and the task has no description. -/
def sampleTemplate : JSValue :=
  obj [("epic", obj [("title", str "Usuarios"), ("description", str "Gestao de usuarios"),
      ("labels", arr [str "epic", str "novo"])]),
    ("stories", arr [obj [("title", str "Cadastro"), ("description", str "Cadastro de usuarios"),
      ("labels", arr [str "story"]), ("acceptance_criteria", arr [str "Usuario criado"]),
      ("tasks", arr [obj [("title", str "Criar tabela"),
        ("labels", arr [str "task", str "novo"])]])]])]

/-! ## The nodes of a template document -/

/-- The nodes of a story: the story, then its tasks. -/
def storyNodes (story : JSValue) : List JSValue :=
  story :: storyTasks story

/-- The nodes of an epic of the `epics` form: the epic, then the nodes of the stories of its
`stories` array. -/
def epicNodes (epic : JSValue) : List JSValue :=
  epic :: (items (prop epic "stories")).flatMap storyNodes

/-- The Epics, Stories and Tasks of a template document, in document order: those of the
`{epic, stories}` form when the document has both members, else those of the `epics` array. -/
def templateNodes (data : JSValue) : List JSValue :=
  if truthy (prop data "epic") && truthy (prop data "stories") then
    prop data "epic" :: (items (prop data "stories")).flatMap storyNodes
  else
    (items (prop data "epics")).flatMap epicNodes

/-- The elements of the `labels` arrays of the nodes of a template document. -/
def templateLabels (data : JSValue) : List JSValue :=
  (templateNodes data).flatMap fun node => items (prop node "labels")

/-- The additions `d2` are the additions `d1` without the errors whose message is `m`. -/
def Filtered (m : String) (d1 d2 : Delta) : Prop :=
  d2.errors = d1.errors.filter (fun e => e.message != m) ∧ d2.warnings = d1.warnings
    ∧ d2.labels = d1.labels ∧ d2.epics = d1.epics ∧ d2.stories = d1.stories
    ∧ d2.tasks = d1.tasks

/-! ## The forms of a document and the errors of single nodes -/

/-- The document has the `{epic, stories}` form: both members are there and truthy. -/
def hasEpicForm (data : JSValue) : Bool :=
  truthy (prop data "epic") && truthy (prop data "stories")

/-- The document carries an `epics` array. -/
def hasEpicsArray (data : JSValue) : Bool :=
  isArray (prop data "epics")

/-- The document is a labels document: it has a top-level `labels` array. -/
def isLabelsDocument (data : JSValue) : Bool :=
  isArray (prop data "labels")

/-- The unknown-format error of `validateTemplate`. -/
def unknownFormatError (filePath : String) : Entry :=
  { path := filePath
    message := "Formato de template desconhecido. Deve ter \"epic + stories\" ou \"epics\" array" }

/-- The errors of a call on a validator that had none (no errors when the call throws). -/
def errorsAlone (r : Option VState) : List Entry :=
  match r with
  | some s => s.2.errors
  | none => []

/-- The story without its tasks: `tasks` is the empty array. -/
def withoutTasks : JSValue → JSValue
  | obj ps => obj (("tasks", arr []) :: ps.filter fun p => p.1 != "tasks")
  | v => v

/-- The errors of a story validated on its own, followed by those of its tasks, each validated on
its own, in order. -/
def storyNodeErrors (reg : JSSet) (epicTitle story : JSValue) : List Entry :=
  errorsAlone (validateStory (withoutTasks story) epicTitle (TemplateValidator.new reg))
    ++ (storyTasks story).flatMap fun task =>
      errorsAlone (validateTask task (prop story "title") epicTitle (TemplateValidator.new reg))

/-- The errors of an epic validated on its own, followed by those of the stories of its `stories`
array with their tasks, in order. -/
def epicNodeErrors (reg : JSSet) (filePath : String) (epic : JSValue) : List Entry :=
  errorsAlone (validateEpic epic filePath (TemplateValidator.new reg))
    ++ (items (prop epic "stories")).flatMap (storyNodeErrors reg (prop epic "title"))

/-- A labels document with one label. -/
def sampleLabelsDocument : JSValue :=
  obj [("labels", arr [obj [("name", str "task"), ("color", str "0e8a16")]])]

/-- A document of the `epics` form: the first epic has no title and a story with a task without
a title, the second epic is sound and has no stories. -/
def sampleEpicsTemplate : JSValue :=
  obj [("name", str "Projeto"),
    ("epics", arr [
      obj [("description", str "Gestao de usuarios"), ("labels", arr [str "epic"]),
        ("stories", arr [obj [("title", str "Cadastro"), ("labels", arr [str "story"]),
          ("acceptance_criteria", arr [str "Usuario criado"]),
          ("tasks", arr [obj [("description", str "Criar a tabela"),
            ("labels", arr [str "task"])]])]])],
      obj [("title", str "Pagamentos"), ("description", str "Cobranca"),
        ("labels", arr [str "epic"])]])]

/-! # The backlog generator (`scripts/generate.js`)

The generator walks a template and asks the tracker (the `gh` command line client) to create one
issue per epic, story and task, and to link each created story to its epic and each created
task to its story.

* What the tracker answers is not decided by the program: a run is taken against a `Tracker`,
  which gives the outcome of the k-th create request, of the k-th link request and the k-th
  result of `Math.random()`.
* What the program does to the outside is the `trace` of a `World`: the create and link requests,
  the pauses, and the lines that report a node as created or failed, in order.
* The temporary payload file of `createIssue` is taken to be written and removed without
  error; the other console lines are not modelled.
* A function that can raise a `TypeError` returns an `Option`, as in the validator.
* As in the validator, a template literal converts its values with `toStr`: the functions are
  those of the program on `plain` values, and the theorems that go through a conversion are
  stated for them (`epicPlain` for an epic with its stories and tasks).
* A result of `Math.random()` is a double, and its product with an integer is rounded as the
  arithmetic of doubles rounds it (`Draw.scaled`).
-/

namespace Generate

/-! ## What is taken from the engine -/

/-- The two operations of the JavaScript engine that the embedding does not implement. -/
structure Host where
  /-- The method `String.prototype.toLowerCase`. -/
  toLowerCase : String → String
  /-- The comparison `s > 0` for a string `s`: the string converts to a number above zero. -/
  stringPositive : String → Bool

/-! ## Strings -/

/-- The method `String.prototype.includes`. -/
def jsIncludes (s sub : String) : Bool :=
  s.data.tails.any fun t => sub.data.isPrefixOf t

/-- A character of `[a-z]`. -/
def isLowerAscii (c : Char) : Bool :=
  decide (97 ≤ c.toNat) && decide (c.toNat ≤ 122)

/-- A character of `[A-Z]`. -/
def isUpperAscii (c : Char) : Bool :=
  decide (65 ≤ c.toNat) && decide (c.toNat ≤ 90)

/-- A character of `\w`, that is of `[A-Za-z0-9_]`. -/
def isWordChar (c : Char) : Bool :=
  isLowerAscii c || isUpperAscii c || (decide (48 ≤ c.toNat) && decide (c.toNat ≤ 57))
    || c.toNat == 95

/-- The method `toUpperCase` on a character of `\w`: it changes the letters of `[a-z]` only. -/
def upperWordChar (c : Char) : Char :=
  if isLowerAscii c then Char.ofNat (c.toNat - 32) else c

/-- The replacement `.replace(/_/g, ' ')`. -/
def underscoresToSpaces (cs : List Char) : List Char :=
  cs.map fun c => if c.toNat == 95 then Char.ofNat 32 else c

/-- The replacement `.replace(/([a-z])([A-Z])/g, '$1 $2')`.  Matches are found from left to right
and do not overlap; a match ends with a character of `[A-Z]`, which starts no match, so that the
scan may resume from it. -/
def splitCamel : List Char → List Char
  | [] => []
  | [a] => [a]
  | a :: b :: rest =>
    if isLowerAscii a && isUpperAscii b then a :: Char.ofNat 32 :: splitCamel (b :: rest)
    else a :: splitCamel (b :: rest)

/-- The replacement `.replace(/\b\w/g, c => c.toUpperCase())`; `prev` tells whether the character
before is one of `\w` (it is not at the start). -/
def capitalizeWords (prev : Bool) : List Char → List Char
  | [] => []
  | c :: rest =>
    (if isWordChar c && !prev then upperWordChar c else c) :: capitalizeWords (isWordChar c) rest

/-- The function `formatLabel(key)`. -/
def formatLabel (key : String) : String :=
  ⟨capitalizeWords false (splitCamel (underscoresToSpaces key.data))⟩

/-! ## Lengths, keys and joins -/

/-- A number above zero, from its canonical text. -/
def numPositive (t : String) : Bool :=
  t != "0" && t != "NaN" && !(t.data.head? == some (Char.ofNat 45))

/-- The comparison `v > 0` on a `plain` value: the value is converted to a number, an array
through its string conversion and an object, through `Object.prototype.toString`, to `NaN`
(a property `valueOf` of a parsed object is not a function and is passed over). -/
def gtZero (h : Host) : JSValue → Bool
  | undefined => false
  | null => false
  | .bool b => b
  | num t => numPositive t
  | str s => h.stringPositive s
  | arr xs => h.stringPositive (toStr (arr xs))
  | obj _ => false

/-- The test `v?.length > 0`.  The length of an array or of a string is a number, above zero
when there is an element; an object has the length its `length` property holds; the other
values have none. -/
def hasPositiveLength (h : Host) : JSValue → Bool
  | arr xs => decide (0 < xs.length)
  | str s => decide (0 < utf16Length s)
  | obj ps => gtZero h (lookupProp "length" ps)
  | _ => false

/-- The receiver of a call `v.forEach(...)`: the elements of an array.  No other value of a
document has a method `forEach` (the call raises a `TypeError`). -/
def forEachItems : JSValue → Option (List JSValue)
  | arr xs => some xs
  | _ => none

/-- The own properties of an object in enumeration order: the first entry for each key. -/
def ownProps (seen : List String) : List (String × JSValue) → List (String × JSValue)
  | [] => []
  | (k, v) :: rest =>
    if seen.contains k then ownProps seen rest else (k, v) :: ownProps (k :: seen) rest

/-- The property names of a string: the indices of its UTF-16 code units, a character outside
the Basic Multilingual Plane counting for two. -/
def stringKeys (s : String) : List String :=
  (List.range (utf16Length s)).map fun i => toString i

/-- The entries of a string all of whose characters are in the Basic Multilingual Plane: one
for each character, under its index.  (The entries of a character outside it are its two
surrogate halves, which are not strings of code points: what is proved of `Object.entries` is
proved for values that are not strings.) -/
def stringEntries (s : String) : List (String × JSValue) :=
  s.data.enum.map fun p => (toString p.1, str (String.singleton p.2))

/-- The function `Object.entries(v)` on a value that is neither `null` nor `undefined`; for
a string see `stringEntries`. -/
def ownEntries : JSValue → List (String × JSValue)
  | obj ps => ownProps [] ps
  | arr xs => xs.enum.map fun p => (toString p.1, p.2)
  | str s => stringEntries s
  | _ => []

/-- The function `Object.keys(v)` on a value that is neither `null` nor `undefined`: the names of
the own properties, and for a string the indices of its code units. -/
def ownKeys : JSValue → List String
  | str s => stringKeys s
  | v => (ownEntries v).map fun p => p.1

/-- The method `Array.prototype.join(sep)` on `plain` elements: `null` and `undefined` elements
give the empty string. -/
def joinWith (sep : String) (xs : List JSValue) : String :=
  sep.intercalate (xs.map fun x => if isNullish x then "" else toStr x)

end Generate

namespace Generate

/-! ## JSON.stringify -/

/-- A hexadecimal digit, in lower case. -/
def hexDigit (n : Nat) : Char :=
  if n < 10 then Char.ofNat (48 + n) else Char.ofNat (87 + n)

/-- The escape of a character inside a JSON string: the quote, the backslash and the control
characters are escaped, the others stand for themselves. -/
def quoteChar (c : Char) : String :=
  if c.toNat == 8 then "\\b"
  else if c.toNat == 9 then "\\t"
  else if c.toNat == 10 then "\\n"
  else if c.toNat == 12 then "\\f"
  else if c.toNat == 13 then "\\r"
  else if c.toNat == 34 then "\\\""
  else if c.toNat == 92 then "\\\\"
  else if c.toNat < 32 then "\\u00" ++ String.mk [hexDigit (c.toNat / 16), hexDigit (c.toNat % 16)]
  else String.singleton c

/-- A string as a JSON string literal. -/
def quoteJSON (s : String) : String :=
  "\"" ++ String.join (s.data.map quoteChar) ++ "\""

mutual
/-- The text `${JSON.stringify(v)}`, without indentation.  An `undefined` element of an array is
written `null`, a property whose value is `undefined` is left out. -/
def jsonStringify : JSValue → String
  | undefined => "undefined"
  | null => "null"
  | .bool true => "true"
  | .bool false => "false"
  | num t => t
  | str s => quoteJSON s
  | arr xs => "[" ++ ",".intercalate (stringifyItems xs) ++ "]"
  | obj ps => "\x7b" ++ ",".intercalate (stringifyProps [] ps) ++ "\x7d"
/-- The elements of an array, each as JSON text. -/
def stringifyItems : List JSValue → List String
  | [] => []
  | undefined :: rest => "null" :: stringifyItems rest
  | x :: rest => jsonStringify x :: stringifyItems rest
/-- The own properties of an object, each as JSON text; `seen` holds the keys already met. -/
def stringifyProps (seen : List String) : List (String × JSValue) → List String
  | [] => []
  | (k, undefined) :: rest =>
    if seen.contains k then stringifyProps seen rest else stringifyProps (k :: seen) rest
  | (k, v) :: rest =>
    if seen.contains k then stringifyProps seen rest
    else (quoteJSON k ++ ":" ++ jsonStringify v) :: stringifyProps (k :: seen) rest
end

/-! ## Rendering `technical_details` -/

/-- The line `renderTechnicalValue` writes for an element of an array value. -/
def renderItem (item : JSValue) : String :=
  if typeOf item == "string" then "- " ++ toStr item ++ "\n"
  else if typeOf item == "object" then "- " ++ jsonStringify item ++ "\n"
  else ""

/-- The line `renderTechnicalValue` writes for a property `k: v` of an object value. -/
def renderEntry (k : String) (v : JSValue) : String :=
  if typeOf v == "string" then "- **" ++ formatLabel k ++ ":** " ++ toStr v ++ "\n"
  else if isArray v then "- **" ++ formatLabel k ++ ":** " ++ joinWith ", " (items v) ++ "\n"
  else ""

/-- The rendering of an object value by its properties (the last branch for an object). -/
def renderObject (key : String) (value : JSValue) : String :=
  "**" ++ formatLabel key ++ ":**\n"
    ++ String.join ((ownEntries value).map fun p => renderEntry p.1 p.2) ++ "\n"

/-- The rendering of the object value of the key `packages`. -/
def renderPackages (value : JSValue) : String :=
  let deps := if truthy (prop value "dependencies") then ownKeys (prop value "dependencies") else []
  let devDeps :=
    if truthy (prop value "devDependencies") then ownKeys (prop value "devDependencies") else []
  if decide (0 < deps.length) || decide (0 < devDeps.length) then
    "**Pacotes:**\n"
      ++ (if 0 < deps.length then "```bash\npnpm add " ++ " ".intercalate deps ++ "\n```\n"
          else "")
      ++ (if 0 < devDeps.length then
            "```bash\npnpm add -D " ++ " ".intercalate devDeps ++ "\n```\n"
          else "")
      ++ "\n"
  else ""

/-- The function `renderTechnicalValue(key, value)`. -/
def renderTechnicalValue (key : String) (value : JSValue) : String :=
  if typeOf value == "string" then
    if jsIncludes key "comando" || jsIncludes key "command" || key == "verificar" then
      "**" ++ formatLabel key ++ ":**\n```bash\n" ++ toStr value ++ "\n```\n\n"
    else "**" ++ formatLabel key ++ ":** " ++ toStr value ++ "\n\n"
  else if isArray value && decide (0 < (items value).length) then
    "**" ++ formatLabel key ++ ":**\n" ++ String.join ((items value).map renderItem) ++ "\n"
  else if typeOf value == "object" && !isNull value && !isArray value then
    if key == "packages" then renderPackages value
    else renderObject key value
  else ""

/-! ## The bodies of the issues -/

/-- The loop `xs.forEach(x => body += line(x))`; reading the line of an element may raise. -/
def appendLines (line : JSValue → Option String) : List JSValue → String → Option String
  | [], body => some body
  | x :: rest, body =>
    match line x with
    | none => none
    | some l => appendLines line rest (body ++ l)

/-- The block `if (v?.length > 0) { body += heading; v.forEach(x => body += line(x));
body += trailer }`. -/
def listSection (h : Host) (v : JSValue) (heading : String) (line : JSValue → Option String)
    (trailer : String) (body : String) : Option String :=
  if hasPositiveLength h v then
    match forEachItems v with
    | none => none
    | some xs => (appendLines line xs (body ++ heading)).map fun b => b ++ trailer
  else some body

/-- The line of a checklist: `- [ ] ${x}`. -/
def checkLine (x : JSValue) : Option String :=
  some ("- [ ] " ++ toStr x ++ "\n")

/-- The line of a plain list: `- ${x}`. -/
def plainLine (x : JSValue) : Option String :=
  some ("- " ++ toStr x ++ "\n")

/-- The line of a checklist of nodes: `- [ ] ${x.title}`; it raises on `null` and `undefined`. -/
def titleLine (x : JSValue) : Option String :=
  if isNullish x then none else some ("- [ ] " ++ toStr (prop x "title") ++ "\n")

/-- The function `formatEpicBody(epic, stories)`. -/
def formatEpicBody (h : Host) (epic stories : JSValue) : Option String :=
  if isNullish epic then none
  else
    match listSection h (prop epic "depends_on") "## Dependencias\n\n" checkLine "\n"
        (toStr (prop epic "description") ++ "\n\n") with
    | none => none
    | some body =>
      match forEachItems stories with
      | none => none
      | some ss => appendLines titleLine ss (body ++ "## Stories\n\n")

/-- The function `formatStoryBody(story)`. -/
def formatStoryBody (h : Host) (story : JSValue) : Option String :=
  if isNullish story then none
  else
    match listSection h (prop story "depends_on") "## Dependencias\n\n" checkLine "\n"
        (toStr (prop story "description") ++ "\n\n") with
    | none => none
    | some b1 =>
      match listSection h (prop story "related_to") "## Relacionado a\n\n" plainLine "\n" b1 with
      | none => none
      | some b2 =>
        match forEachItems (orElse (prop story "acceptance_criteria") (arr [])) with
        | none => none
        | some cs =>
          match appendLines checkLine cs (b2 ++ "## Criterios de Aceitacao\n\n") with
          | none => none
          | some b3 => listSection h (prop story "tasks") "\n## Tasks\n\n" titleLine "" b3

/-- The function `formatTaskBody(task, storyTitle)`. -/
def formatTaskBody (h : Host) (task storyTitle : JSValue) : Option String :=
  if isNullish task then none
  else
    match listSection h (prop task "depends_on") "\n## Dependencias\n\n" checkLine ""
        ("## Breve Descricao\n\n" ++ toStr (prop task "description") ++ "\n\n"
          ++ "**Story:** " ++ toStr storyTitle ++ "\n") with
    | none => none
    | some b1 =>
      match listSection h (prop task "related_to") "\n## Relacionado a\n\n" plainLine "" b1 with
      | none => none
      | some b2 =>
        if truthy (prop task "technical_details")
            && decide (0 < (ownKeys (prop task "technical_details")).length) then
          some (b2 ++ "\n---\n\n## Detalhes Tecnicos\n\n"
            ++ String.join ((ownEntries (prop task "technical_details")).map
              fun p => renderTechnicalValue p.1 p.2))
        else some b2

end Generate

namespace Generate

/-! ## The tracker and the world -/

/-- What a successful create request answers: the parsed `{number, id}`, which the tracker gives
as two integers that are not negative. -/
structure RemoteIssue where
  number : Nat
  id : Nat
deriving DecidableEq, Repr

/-- A result of `Math.random()`: a double of the interval from 0 (included) to 1 (excluded),
that is a number `mant / 2 ^ exp` with a significand `mant` of at most 53 binary digits and an
exponent of at most 1074. -/
structure Draw where
  mant : Nat
  exp : Nat
  significand : mant < 2 ^ 53
  lt : mant < 2 ^ exp
  range : exp ≤ 1074

/-- The number of low binary digits of `n` that do not fit in a significand: the least `s` with
`n / 2 ^ s < 2 ^ 53`; `fuel` bounds the search. -/
def excessBits : Nat → Nat → Nat
  | 0, _ => 0
  | fuel + 1, n => if n < 2 ^ 53 then 0 else excessBits fuel (n / 2) + 1

/-- The integer `n` rounded to 53 significant binary digits, to the nearest and, half way, to
the even significand: the rounding of the arithmetic of doubles. -/
def roundSignificand (n : Nat) : Nat :=
  let s := excessBits n n
  let q := n / 2 ^ s
  let r := n % 2 ^ s
  if 2 * r < 2 ^ s then q * 2 ^ s
  else if 2 * r = 2 ^ s ∧ q % 2 = 0 then q * 2 ^ s
  else (q + 1) * 2 ^ s

/-- The expression `Math.floor(d * k)` for an integer `k` that a double holds (`k < 2 ^ 53`).
The product of the two doubles is the double nearest to the exact product
`mant * k / 2 ^ exp`: its numerator is rounded to 53 significant binary digits (a product with
fewer digits is exact); `Math.floor` then rounds the double down. -/
def Draw.scaled (d : Draw) (k : Nat) : Nat :=
  roundSignificand (d.mant * k) / 2 ^ d.exp

/-- The outcome of a create request: the answer of the tracker, or the text of the error
(`error.stderr?.toString() || error.message`). -/
inductive CreateOutcome where
  | success (issue : RemoteIssue)
  | failure (errMsg : String)

/-- The tracker and the random source, as the program meets them: the outcome of the create
request sent after `k` others, whether the link request sent after `k` others succeeds, and the
result of the call of `Math.random()` made after `k` others. -/
structure Tracker where
  createOutcome : Nat → CreateOutcome
  linkOutcome : Nat → Bool
  random : Nat → Draw

/-- The level of a node. -/
inductive Level where
  | epic
  | story
  | task
deriving DecidableEq, Repr

/-- The payload of a create request: `{ title, body, labels }`. -/
structure Request where
  title : JSValue
  body : String
  labels : JSValue

/-- What the program does to the outside.
* `create`: the request `POST repos/<repo>/issues` with the payload, and what the tracker
  answered;
* `wait`: the pause `sleepSync(ms)` of `createIssue` before a retry;
* `delay`: the pause `await delay(ms)` of `processEpic`;
* `link`: the request `POST repos/<repo>/issues/<parentNumber>/sub_issues` with
  `sub_issue_id=<childId>`;
* `created`: the line that reports a node as created, with the issue whose number it prints;
* `failed`: the line that reports that a node could not be created (for an epic the line
  does not print the title). -/
inductive Event where
  | create (request : Request) (outcome : CreateOutcome)
  | wait (ms : Nat)
  | delay (ms : Nat)
  | link (parentNumber childId : Nat)
  | created (level : Level) (title : String) (issue : RemoteIssue)
  | failed (level : Level) (title : String)

/-- The state of the outside: how many create requests, link requests and calls of
`Math.random()` were made, and the events so far, in order. -/
structure World where
  creates : Nat
  links : Nat
  draws : Nat
  trace : List Event

/-- The world before the run. -/
def World.start : World :=
  { creates := 0, links := 0, draws := 0, trace := [] }

/-- An event that is not a request is added to the trace. -/
def World.emit (w : World) (e : Event) : World :=
  { w with trace := w.trace ++ [e] }

/-- A create request is sent and answered. -/
def World.request (w : World) (q : Request) (o : CreateOutcome) : World :=
  { w with creates := w.creates + 1, trace := w.trace ++ [Event.create q o] }

/-! ## createIssue and addSubIssue -/

/-- The test `errMsg.includes('rate limit') || errMsg.includes('HTTP 403')`. -/
def isRateLimit (errMsg : String) : Bool :=
  jsIncludes errMsg "rate limit" || jsIncludes errMsg "HTTP 403"

/-- The pause before the retry that follows the attempt `attempt`:
`Math.pow(2, attempt) * 10000`. -/
def waitTime (attempt : Nat) : Nat :=
  2 ^ attempt * 10000

/-- The loop `for (let attempt = ...; attempt <= retries; attempt++)` of `createIssue`, from the
attempt `attempt` on; `fuel` bounds the number of iterations.  The result is the value
`createIssue` returns (`none` for `null`) and the world after the call. -/
def createLoop (t : Tracker) (q : Request) (retries : Nat) :
    Nat → Nat → World → Option RemoteIssue × World
  | 0, _, w => (none, w)
  | fuel + 1, attempt, w =>
    if attempt ≤ retries then
      match t.createOutcome w.creates with
      | CreateOutcome.success issue => (some issue, w.request q (CreateOutcome.success issue))
      | CreateOutcome.failure errMsg =>
        if isRateLimit errMsg && decide (attempt < retries) then
          createLoop t q retries fuel (attempt + 1)
            ((w.request q (CreateOutcome.failure errMsg)).emit (Event.wait (waitTime attempt)))
        else (none, w.request q (CreateOutcome.failure errMsg))
    else (none, w)

/-- The function `createIssue(repo, title, body, labels, dryRun, retries)`; the loop runs at most
`retries` times. -/
def createIssue (t : Tracker) (title : JSValue) (body : String) (labels : JSValue)
    (dryRun : Bool) (retries : Nat) (w : World) : Option RemoteIssue × World :=
  if dryRun then
    (some { number := (t.random w.draws).scaled 10000
            id := (t.random (w.draws + 1)).scaled 1000000000 },
      { w with draws := w.draws + 2 })
  else createLoop t { title := title, body := body, labels := labels } retries retries 1 w

/-- The function `addSubIssue(repo, parentNumber, childId, dryRun)`: the error of a link request
is caught and gives `false`. -/
def addSubIssue (t : Tracker) (parentNumber childId : Nat) (dryRun : Bool) (w : World) :
    Bool × World :=
  if dryRun then (true, w)
  else
    (t.linkOutcome w.links,
      { w with links := w.links + 1, trace := w.trace ++ [Event.link parentNumber childId] })

end Generate

namespace Generate

/-! ## processEpic -/

/-- The pause `if (!options.dryRun) await delay(ms)`. -/
def pause (dryRun : Bool) (ms : Nat) (w : World) : World :=
  if dryRun then w else w.emit (Event.delay ms)

/-- The link `if (!options.dryRun) addSubIssue(repo, parentNumber, childId, options.dryRun)`; its
result is not used. -/
def linkTo (t : Tracker) (parentNumber childId : Nat) (dryRun : Bool) (w : World) : World :=
  if dryRun then w else (addSubIssue t parentNumber childId dryRun w).2

/-- The loop over the tasks of a created story, in `processEpic`. -/
def processTasks (h : Host) (t : Tracker) (dryRun : Bool) (storyIssue : RemoteIssue)
    (storyTitle : JSValue) : List JSValue → World → Option World
  | [], w => some w
  | task :: rest, w =>
    if isNullish task then none
    else
      match formatTaskBody h task storyTitle with
      | none => none
      | some body =>
        match createIssue t (prop task "title") body
            (orElse (prop task "labels") (arr [str "task"])) dryRun 3 (pause dryRun 1500 w) with
        | (none, w1) =>
          processTasks h t dryRun storyIssue storyTitle rest
            (w1.emit (Event.failed Level.task (toStr (prop task "title"))))
        | (some taskIssue, w1) =>
          processTasks h t dryRun storyIssue storyTitle rest
            ((linkTo t storyIssue.number taskIssue.id dryRun w1).emit
              (Event.created Level.task (toStr (prop task "title")) taskIssue))

/-- The loop over the stories, in `processEpic`. -/
def processStories (h : Host) (t : Tracker) (dryRun : Bool) (epicIssue : RemoteIssue) :
    List JSValue → World → Option World
  | [], w => some w
  | story :: rest, w =>
    if isNullish story then none
    else
      match formatStoryBody h story with
      | none => none
      | some body =>
        match createIssue t (prop story "title") body
            (orElse (prop story "labels") (arr [str "story"])) dryRun 3 (pause dryRun 2000 w) with
        | (none, w1) =>
          processStories h t dryRun epicIssue rest
            (w1.emit (Event.failed Level.story (toStr (prop story "title"))))
        | (some storyIssue, w1) =>
          match iterate (orElse (prop story "tasks") (arr [])) with
          | none => none
          | some tasks =>
            match processTasks h t dryRun storyIssue (prop story "title") tasks
                ((linkTo t epicIssue.number storyIssue.id dryRun w1).emit
                  (Event.created Level.story (toStr (prop story "title")) storyIssue)) with
            | none => none
            | some w2 => processStories h t dryRun epicIssue rest w2

/-- The title of the issue of an epic: `[${projectName}] ${epicData.title}`. -/
def epicTitle (projectName : String) (epicData : JSValue) : String :=
  "[" ++ projectName ++ "] " ++ toStr (prop epicData "title")

/-- The function `processEpic(repo, epicData, stories, projectName, options)`; `projectName` is
the text `${projectName}`. -/
def processEpic (h : Host) (t : Tracker) (epicData stories : JSValue) (projectName : String)
    (dryRun : Bool) (w : World) : Option World :=
  if isNullish epicData then none
  else
    match formatEpicBody h epicData stories with
    | none => none
    | some body =>
      match createIssue t (str (epicTitle projectName epicData)) body
          (orElse (prop epicData "labels") (arr [str "epic"])) dryRun 3 w with
      | (none, w1) => some (w1.emit (Event.failed Level.epic (epicTitle projectName epicData)))
      | (some epicIssue, w1) =>
        match iterate stories with
        | none => none
        | some ss =>
          processStories h t dryRun epicIssue ss
            (w1.emit (Event.created Level.epic (epicTitle projectName epicData) epicIssue))

/-! ## processTemplate -/

/-- The options of the command line that `processTemplate` reads: `dryRun`, and `epic` (`none`
when the option is `null` or `undefined`). -/
structure Options where
  dryRun : Bool
  epic : Option String

/-- The test `options.epic && !epic.title.toLowerCase().includes(options.epic.toLowerCase())`: the
epic is left out.  With a restriction that is not empty the test raises when the epic is
`null` or `undefined` or when its title is not a string. -/
def leftOut (h : Host) (options : Options) (epic : JSValue) : Option Bool :=
  match options.epic with
  | none => some false
  | some s =>
    if s == "" then some false
    else if isNullish epic then none
    else
      match prop epic "title" with
      | str title => some (!jsIncludes (h.toLowerCase title) (h.toLowerCase s))
      | _ => none

/-- The loop over `template.epics`, in `processTemplate`. -/
def processEpics (h : Host) (t : Tracker) (projectName : String) (options : Options) :
    List JSValue → World → Option World
  | [], w => some w
  | epic :: rest, w =>
    match leftOut h options epic with
    | none => none
    | some true => processEpics h t projectName options rest w
    | some false =>
      if isNullish epic then none
      else
        match processEpic h t epic (orElse (prop epic "stories") (arr [])) projectName
            options.dryRun w with
        | none => none
        | some w1 => processEpics h t projectName options rest w1

/-- The function `processTemplate(repo, template, projectName, options)`. -/
def processTemplate (h : Host) (t : Tracker) (template : JSValue) (projectName : String)
    (options : Options) (w : World) : Option World :=
  if isNullish template then none
  else if truthy (prop template "epic") && truthy (prop template "stories") then
    match leftOut h options (prop template "epic") with
    | none => none
    | some true => some w
    | some false =>
      processEpic h t (prop template "epic") (prop template "stories") projectName
        options.dryRun w
  else if truthy (prop template "epics") then
    match iterate (prop template "epics") with
    | none => none
    | some epics => processEpics h t projectName options epics w
  else some w

end Generate

namespace Generate

/-! ## Runs seen from the outside -/

/-- The outcome is a failure that carries the signature of a rate limit. -/
def rateLimited : CreateOutcome → Bool
  | CreateOutcome.success _ => false
  | CreateOutcome.failure errMsg => isRateLimit errMsg

/-- What `createIssue` returns when its last attempt has this outcome (`none` for `null`). -/
def issueOf : CreateOutcome → Option RemoteIssue
  | CreateOutcome.success issue => some issue
  | CreateOutcome.failure _ => none

/-- The events of `k` attempts for the request `q`, the first being the attempt number `a` and
the create request sent after `c` others: each attempt is a create request with the answer of
the tracker, and the wait of attempt `a` stands between it and the next one. -/
def attempts (t : Tracker) (q : Request) : Nat → Nat → Nat → List Event
  | 0, _, _ => []
  | 1, _, c => [Event.create q (t.createOutcome c)]
  | k + 2, a, c =>
    Event.create q (t.createOutcome c) :: Event.wait (waitTime a)
      :: attempts t q (k + 1) (a + 1) (c + 1)

/-- The events of one call of `createIssue` outside dry-run, with what it returns: the last
request is answered by a success, whose issue is returned, or by a failure, and `null` is
returned; each request before it is answered by a rate limit failure and followed by a wait. -/
inductive Attempts (q : Request) : List Event → Option RemoteIssue → Prop where
  | success (issue : RemoteIssue) :
    Attempts q [Event.create q (CreateOutcome.success issue)] (some issue)
  | failure (errMsg : String) : Attempts q [Event.create q (CreateOutcome.failure errMsg)] none
  | retry (errMsg : String) (ms : Nat) (A : List Event) (r : Option RemoteIssue) :
    isRateLimit errMsg = true → Attempts q A r →
    Attempts q (Event.create q (CreateOutcome.failure errMsg) :: Event.wait ms :: A) r

/-- The tasks `processEpic` visits under a story: the elements of `story.tasks || []`. -/
def storyTaskList (story : JSValue) : List JSValue :=
  (iterate (orElse (prop story "tasks") (arr []))).getD []

/-- The task can be sent: it is not `null` or `undefined` and its body is formatted without
a `TypeError`. -/
def taskRenders (h : Host) (storyTitle task : JSValue) : Bool :=
  !isNullish task && (formatTaskBody h task storyTitle).isSome

/-- The story and its tasks can be sent. -/
def storyRenders (h : Host) (story : JSValue) : Bool :=
  !isNullish story && (formatStoryBody h story).isSome
    && (iterate (orElse (prop story "tasks") (arr []))).isSome
    && (storyTaskList story).all (taskRenders h (prop story "title"))

/-- The epic, its stories and their tasks can be sent: on an `epicPlain` epic, `processEpic`
meets no `TypeError`. -/
def epicRenders (h : Host) (epicData stories : JSValue) : Bool :=
  !isNullish epicData && (formatEpicBody h epicData stories).isSome
    && (items stories).all (storyRenders h)

/-- The payload `processEpic` sends for the epic. -/
def epicRequest (h : Host) (projectName : String) (epicData stories : JSValue) : Request :=
  { title := str (epicTitle projectName epicData)
    body := (formatEpicBody h epicData stories).getD ""
    labels := orElse (prop epicData "labels") (arr [str "epic"]) }

/-- The payload `processEpic` sends for a story. -/
def storyRequest (h : Host) (story : JSValue) : Request :=
  { title := prop story "title"
    body := (formatStoryBody h story).getD ""
    labels := orElse (prop story "labels") (arr [str "story"]) }

/-- The payload `processEpic` sends for a task. -/
def taskRequest (h : Host) (storyTitle task : JSValue) : Request :=
  { title := prop task "title"
    body := (formatTaskBody h task storyTitle).getD ""
    labels := orElse (prop task "labels") (arr [str "task"]) }

/-- The events of a task under the created story `storyIssue`: the pause, the attempts to create
it, then the failure report or the link to the story and the creation report. -/
def TaskBlock (h : Host) (storyIssue : RemoteIssue) (storyTitle task : JSValue)
    (B : List Event) : Prop :=
  ∃ A r, Attempts (taskRequest h storyTitle task) A r ∧
    B = Event.delay 1500 :: A ++
      match r with
      | none => [Event.failed Level.task (toStr (prop task "title"))]
      | some taskIssue =>
        [Event.link storyIssue.number taskIssue.id,
          Event.created Level.task (toStr (prop task "title")) taskIssue]

/-- The events of a story under the created epic `epicIssue`: the pause, the attempts to create
it, then the failure report and nothing else, or the link to the epic, the creation report and
the events of each of its tasks, in order. -/
def StoryBlock (h : Host) (epicIssue : RemoteIssue) (story : JSValue) (B : List Event) : Prop :=
  ∃ A r, Attempts (storyRequest h story) A r ∧
    match r with
    | none => B = Event.delay 2000 :: A ++ [Event.failed Level.story (toStr (prop story "title"))]
    | some storyIssue =>
      ∃ Bs, List.Forall₂ (TaskBlock h storyIssue (prop story "title")) (storyTaskList story) Bs
        ∧ B = Event.delay 2000 :: A ++ Event.link epicIssue.number storyIssue.id
          :: Event.created Level.story (toStr (prop story "title")) storyIssue :: Bs.flatten

/-! ## Dry-run seen from the outside -/

/-- The placeholder `createIssue` synthesizes in dry-run from the results number `k` and `k + 1`
of `Math.random()`. -/
def placeholder (t : Tracker) (k : Nat) : RemoteIssue :=
  { number := (t.random k).scaled 10000, id := (t.random (k + 1)).scaled 1000000000 }

/-- The nodes under an epic in document order, each with its level and the title its report
prints: the epic, then each story followed by its tasks. -/
def nodeTitles (projectName : String) (epicData : JSValue) (stories : List JSValue) :
    List (Level × String) :=
  (Level.epic, epicTitle projectName epicData) :: stories.flatMap fun s =>
    (Level.story, toStr (prop s "title")) :: (storyTaskList s).map fun task =>
      (Level.task, toStr (prop task "title"))

/-- One creation report per node, with the placeholders made from the results of
`Math.random()` from number `k` on, two for each node. -/
def dryReports (t : Tracker) : Nat → List (Level × String) → List Event
  | _, [] => []
  | k, (level, title) :: rest =>
    Event.created level title (placeholder t k) :: dryReports t (k + 2) rest

/-! ## The hierarchy of links -/

/-- What the check of the hierarchy waits for: nothing, the report or the link of the issue
just answered to the request with the title `title`, or the report of the issue just linked to
the parent number `parent`. -/
inductive Pending where
  | idle
  | answered (title : String) (issue : RemoteIssue)
  | linked (parent : Nat) (title : String) (issue : RemoteIssue)

/-- What the check waits for after a call of `createIssue` for the request `q` that returned
`r`. -/
def Pending.after (q : Request) : Option RemoteIssue → Pending
  | none => Pending.idle
  | some issue => Pending.answered (toStr q.title) issue

/-- The hierarchy invariant on a trace, read from left to right with the issue of the epic and
of the last created story.  A successful answer is followed at once either by the report of
an epic, or by one link request and then the report of a story or of a task; the report names
the title of the request answered and its issue; the child of the link is the id of that issue;
its parent is the number of the epic for a story, of the last created story for a task; no
link request and no creation report occurs anywhere else. -/
def hierarchyKept : Option RemoteIssue → Option RemoteIssue → Pending → List Event → Bool
  | _, _, Pending.idle, [] => true
  | _, _, _, [] => false
  | e, s, Pending.idle, Event.create q (CreateOutcome.success i) :: rest =>
    hierarchyKept e s (Pending.answered (toStr q.title) i) rest
  | e, s, Pending.idle, Event.create _ (CreateOutcome.failure _) :: rest =>
    hierarchyKept e s Pending.idle rest
  | e, s, Pending.idle, Event.wait _ :: rest => hierarchyKept e s Pending.idle rest
  | e, s, Pending.idle, Event.delay _ :: rest => hierarchyKept e s Pending.idle rest
  | e, s, Pending.idle, Event.failed _ _ :: rest => hierarchyKept e s Pending.idle rest
  | _, _, Pending.idle, _ :: _ => false
  | _, _, Pending.answered title i, Event.created Level.epic name j :: rest =>
    decide (name = title) && decide (j = i) && hierarchyKept (some i) none Pending.idle rest
  | e, s, Pending.answered title i, Event.link p c :: rest =>
    decide (c = i.id) && hierarchyKept e s (Pending.linked p title i) rest
  | _, _, Pending.answered _ _, _ :: _ => false
  | some e, _, Pending.linked p title i, Event.created Level.story name j :: rest =>
    decide (p = e.number) && decide (name = title) && decide (j = i)
      && hierarchyKept (some e) (some i) Pending.idle rest
  | e, some s, Pending.linked p title i, Event.created Level.task name j :: rest =>
    decide (p = s.number) && decide (name = title) && decide (j = i)
      && hierarchyKept e (some s) Pending.idle rest
  | _, _, Pending.linked _ _ _, _ :: _ => false

/-- The event is a line that reports a node as created or failed. -/
def isReport : Event → Bool
  | Event.created _ _ _ => true
  | Event.failed _ _ => true
  | _ => false

/-- The report of a task: its failure line, or its creation line with some issue. -/
def TaskReport (task : JSValue) (R : Event) : Prop :=
  R = Event.failed Level.task (toStr (prop task "title"))
    ∨ ∃ issue, R = Event.created Level.task (toStr (prop task "title")) issue

/-- The reports of a story: its failure line and nothing else, or its creation line followed by
one report for each of its tasks, in order. -/
def StoryReports (story : JSValue) (R : List Event) : Prop :=
  R = [Event.failed Level.story (toStr (prop story "title"))]
    ∨ ∃ issue Rs, List.Forall₂ TaskReport (storyTaskList story) Rs
      ∧ R = Event.created Level.story (toStr (prop story "title")) issue :: Rs

/-- The reports of an epic: its failure line and nothing else, or its creation line followed by
the reports of each of its stories, in order. -/
def EpicReports (projectName : String) (epicData stories : JSValue) (R : List Event) : Prop :=
  R = [Event.failed Level.epic (epicTitle projectName epicData)]
    ∨ ∃ issue Rs, List.Forall₂ StoryReports (items stories) Rs
      ∧ R = Event.created Level.epic (epicTitle projectName epicData) issue :: Rs.flatten

/-- The pair `(parentNumber, childId)` of a link request. -/
def linkOf : Event → Option (Nat × Nat)
  | Event.link p c => some (p, c)
  | _ => none

/-- The pairs `(parentNumber, childId)` of the link requests of a trace, in order. -/
def linkRequests (E : List Event) : List (Nat × Nat) :=
  E.filterMap linkOf

/-- The issue of a line that reports a story or a task as created. -/
def subIssueOf : Event → Option RemoteIssue
  | Event.created Level.story _ issue => some issue
  | Event.created Level.task _ issue => some issue
  | _ => none

/-- The issues of the stories and tasks a trace reports as created, in order. -/
def createdBelowEpic (E : List Event) : List RemoteIssue :=
  E.filterMap subIssueOf

/-- The nodes are rendered by the embedding as by the program: no object in them has a property
of its own named `toString` (no template literal raises a `TypeError`), and no
`technical_details` is a string (see `stringEntries`). -/
def epicPlain (epicData stories : JSValue) : Bool :=
  plain epicData && plain stories
    && (items stories).all fun story =>
      (storyTaskList story).all fun task => !isString (prop task "technical_details")

/-! ## The restriction to an epic -/

/-- The title of the epic is a string that contains `s`, both in lower case. -/
def titleMatches (h : Host) (s : String) (epic : JSValue) : Bool :=
  match prop epic "title" with
  | str title => jsIncludes (h.toLowerCase title) (h.toLowerCase s)
  | _ => false

/-- The epics are processed one after the other, each with `epic.stories || []`; an exception
ends the run. -/
def processAll (h : Host) (t : Tracker) (projectName : String) (dryRun : Bool) :
    List JSValue → World → Option World
  | [], w => some w
  | epic :: rest, w =>
    match processEpic h t epic (orElse (prop epic "stories") (arr [])) projectName dryRun w with
    | none => none
    | some w1 => processAll h t projectName dryRun rest w1

end Generate

namespace Generate

/-! ## The packages block, and sample runs -/

/-- The names `renderTechnicalValue` lists for a field of the `packages` object: the keys of the
field when it is truthy. -/
def packageNames (value : JSValue) (field : String) : List String :=
  if truthy (prop value field) then ownKeys (prop value field) else []

/-- A fenced block with an install command; `flag` is empty or `-D ` (with the blank). -/
def installBlock (flag : String) (names : List String) : String :=
  "```bash\npnpm add " ++ flag ++ " ".intercalate names ++ "\n```\n"

/-- A host for texts in ASCII: lower case letter by letter, and a string is above zero when it
is the decimal text of a positive integer. -/
def sampleHost : Host :=
  { toLowerCase := fun s => s.map Char.toLower
    stringPositive := fun s =>
      match s.toNat? with
      | some n => decide (0 < n)
      | none => false }

/-- The double `((37 * k + 11) mod 128) / 128`. -/
def sampleDraw (k : Nat) : Draw :=
  { mant := (37 * k + 11) % 128
    exp := 7
    significand := Nat.lt_of_lt_of_le (Nat.mod_lt _ (by decide)) (by decide)
    lt := Nat.mod_lt _ (by decide)
    range := by decide }

/-- A tracker that answers the first create request with a rate limit failure and creates the
issue of every later request; its third link request fails.  The results of `Math.random()` are
those of `sampleDraw`. -/
def sampleTracker : Tracker :=
  { createOutcome := fun k =>
      if k = 0 then CreateOutcome.failure "HTTP 403: API rate limit exceeded"
      else CreateOutcome.success { number := 100 + k, id := 9000 + k }
    linkOutcome := fun k => decide (k ≠ 2)
    random := fun k => sampleDraw k }

/-- The tracker `sampleTracker` with every link request failing. -/
def unlinkedTracker : Tracker :=
  { sampleTracker with linkOutcome := fun _ => false }

/-- A tracker that refuses the second create request for a reason that is not a rate limit. -/
def refusingTracker : Tracker :=
  { sampleTracker with
    createOutcome := fun k =>
      if k = 1 then CreateOutcome.failure "HTTP 422: Validation Failed"
      else CreateOutcome.success { number := 100 + k, id := 9000 + k } }

/-- The double `mant / 2 ^ exp` for a significand below `2 ^ 40` and an exponent of at most 40
that make a number below 1. -/
def smallDraw (mant exp : Nat) (h1 : mant < 2 ^ 40) (h2 : mant < 2 ^ exp) (h3 : exp ≤ 40) :
    Draw :=
  { mant := mant
    exp := exp
    significand := Nat.lt_of_lt_of_le h1 (by decide)
    lt := h2
    range := Nat.le_trans h3 (by decide) }

/-- A random source whose first four results are the doubles 1/2, 1/4, 1/2 + 1/2^19 and
1/4 + 1/2^40, all different. -/
def closeDraws : Tracker :=
  { sampleTracker with
    random := fun k =>
      if k = 0 then smallDraw 1 1 (by decide) (by decide) (by decide)
      else if k = 1 then smallDraw 1 2 (by decide) (by decide) (by decide)
      else if k = 2 then smallDraw 262145 19 (by decide) (by decide) (by decide)
      else if k = 3 then smallDraw 274877906945 40 (by decide) (by decide) (by decide)
      else sampleDraw k }

/-- The double nearest to 0.5121, `4612586738352862 / 2 ^ 53`: it is below 0.5121, and its
products with 10000 and with 1000000000 have more than 53 binary digits. -/
def nearDraw : Draw :=
  { mant := 4612586738352862
    exp := 53
    significand := by decide
    lt := by decide
    range := by decide }

/-- An epic of a backlog. -/
def backlogEpic : JSValue :=
  obj [("title", str "Pagamentos"), ("description", str "Cobranca recorrente"),
    ("labels", arr [str "epic"]), ("depends_on", arr [str "[EPIC] Autenticacao"])]

/-- A story with two tasks. -/
def checkoutStory : JSValue :=
  obj [("title", str "Checkout"), ("description", str "Pagina de checkout"),
    ("acceptance_criteria", arr [str "Pagamento aprovado"]),
    ("tasks", arr [
      obj [("title", str "Criar tabela"), ("description", str "Tabela de pagamentos"),
        ("technical_details", obj [("stack", str "Prisma"),
          ("packages", obj [("dependencies", obj [("stripe", str "*")])])])],
      obj [("title", str "Criar rota"), ("description", str "Rota de checkout"),
        ("labels", arr [str "task", str "api"])]])]

/-- A story without tasks. -/
def invoicesStory : JSValue :=
  obj [("title", str "Faturas"), ("description", str "Lista de faturas")]

/-- The stories of `backlogEpic`: the first with two tasks, the second with none. -/
def backlogStories : JSValue :=
  arr [checkoutStory, invoicesStory]

/-- One story without tasks. -/
def singleStory : JSValue :=
  arr [obj [("title", str "Checkout"), ("description", str "Pagina de checkout")]]

/-- A template of the `epics` form with three epics. -/
def backlogTemplate : JSValue :=
  obj [("name", str "Base"),
    ("epics", arr [
      obj [("title", str "Autenticacao"), ("description", str "Login e cadastro")],
      obj [("title", str "Pagamentos Online"), ("description", str "Cobranca"),
        ("stories", arr [obj [("title", str "Checkout"), ("description", str "Pagina")]])],
      obj [("title", str "Configuracoes"), ("description", str "Preferencias")]])]

end Generate

namespace Generate

/-! ## Nodes of the data model -/

/-- A list field as the data model has it: absent (or `null`), or an array. -/
def listField (v : JSValue) : Bool :=
  isNullish v || isArray v

/-- A task with list fields. -/
def taskWellFormed (task : JSValue) : Bool :=
  !isNullish task && listField (prop task "depends_on") && listField (prop task "related_to")

/-- A story with list fields, whose tasks are tasks with list fields. -/
def storyWellFormed (story : JSValue) : Bool :=
  !isNullish story && listField (prop story "depends_on") && listField (prop story "related_to")
    && listField (prop story "acceptance_criteria") && listField (prop story "tasks")
    && (items (prop story "tasks")).all taskWellFormed

/-- An epic with list fields and an array of stories with list fields. -/
def epicWellFormed (epicData stories : JSValue) : Bool :=
  !isNullish epicData && listField (prop epicData "depends_on") && isArray stories
    && (items stories).all storyWellFormed

end Generate

namespace Generate

/-! ## Renderings and bodies, in the words of the specification -/

/-- The key names a command: it contains `comando` or `command`, or it is `verificar`. -/
def IsCommandKey (key : String) : Prop :=
  "comando".data <:+: key.data ∨ "command".data <:+: key.data ∨ key = "verificar"

/-- The element of an array value gets a bullet line: it is a string or, for `typeof`, an object
(an object, an array or `null`). -/
def isBulleted (item : JSValue) : Bool :=
  isString item || isObject item || isNull item

/-- The bullet line of an element of an array value: a string verbatim, an object as its JSON
text. -/
def bulletLine : JSValue → String
  | str s => "- " ++ s ++ "\n"
  | item => "- " ++ jsonStringify item ++ "\n"

/-- An optional section: nothing when there is no line, otherwise the heading, the lines and the
trailer. -/
def optionalSection (heading : String) (lines : List String) (trailer : String) : String :=
  if lines.isEmpty then "" else heading ++ String.join lines ++ trailer

/-- The line of a checklist for a value. -/
def checkText (x : JSValue) : String :=
  "- [ ] " ++ toStr x ++ "\n"

/-- The line of a bullet list for a value. -/
def plainText (x : JSValue) : String :=
  "- " ++ toStr x ++ "\n"

/-- The line of a checklist for the title of a node. -/
def titleText (x : JSValue) : String :=
  "- [ ] " ++ toStr (prop x "title") ++ "\n"

/-- A list field as the validator lets it through: falsy, or an array. -/
def falsyOrArray (v : JSValue) : Bool :=
  !truthy v || isArray v

/-- The body of the issue of a task, section by section. -/
def taskBodyText (task storyTitle : JSValue) : String :=
  "## Breve Descricao\n\n" ++ toStr (prop task "description") ++ "\n\n"
    ++ "**Story:** " ++ toStr storyTitle ++ "\n"
    ++ optionalSection "\n## Dependencias\n\n" ((items (prop task "depends_on")).map checkText) ""
    ++ optionalSection "\n## Relacionado a\n\n" ((items (prop task "related_to")).map plainText) ""
    ++ optionalSection "\n---\n\n## Detalhes Tecnicos\n\n"
      ((ownEntries (prop task "technical_details")).map fun p => renderTechnicalValue p.1 p.2) ""

/-- The body of the issue of a story, section by section. -/
def storyBodyText (story : JSValue) : String :=
  toStr (prop story "description") ++ "\n\n"
    ++ optionalSection "## Dependencias\n\n" ((items (prop story "depends_on")).map checkText) "\n"
    ++ optionalSection "## Relacionado a\n\n" ((items (prop story "related_to")).map plainText)
      "\n"
    ++ "## Criterios de Aceitacao\n\n"
    ++ String.join ((items (prop story "acceptance_criteria")).map checkText)
    ++ optionalSection "\n## Tasks\n\n" ((items (prop story "tasks")).map titleText) ""

/-! ## The title of a key, in the words of the specification -/

/-- A character of a key made of words of ASCII letters: a letter or the underscore. -/
def isKeyChar (c : Char) : Bool :=
  isLowerAscii c || isUpperAscii c || c.toNat == 95

/-- The title of a key, read from left to right; `start` tells that the next letter begins
a word.  An underscore becomes a space and the next letter begins a word; the first letter of
a word is put in upper case and every other letter is kept; between a letter of `[a-z]` and
a letter of `[A-Z]` that follows it a space is inserted, and the second begins a word. -/
def titleChars (start : Bool) : List Char → List Char
  | [] => []
  | c :: rest =>
    if c.toNat == 95 then Char.ofNat 32 :: titleChars true rest
    else
      (if start then upperWordChar c else c) ::
        match rest with
        | [] => []
        | n :: _ =>
          if isLowerAscii c && isUpperAscii n then Char.ofNat 32 :: titleChars true rest
          else titleChars false rest

/-- No letter of `[a-z]` is followed at once by a letter of `[A-Z]`. -/
def noCamelBoundary : List Char → Bool
  | [] => true
  | [_] => true
  | a :: b :: rest => !(isLowerAscii a && isUpperAscii b) && noCamelBoundary (b :: rest)

/-- No character of `\w` that follows a character outside `\w` (or, when `prev` is `false`, the
start) is a letter of `[a-z]`. -/
def wordsCapitalized (prev : Bool) : List Char → Bool
  | [] => true
  | c :: rest => !(isWordChar c && !prev && isLowerAscii c) && wordsCapitalized (isWordChar c) rest

/-- A task with a dependency and technical details. -/
def tableTask : JSValue :=
  obj [("title", str "Criar tabela"), ("description", str "Tabela de pagamentos"),
    ("depends_on", arr [str "[TASK] Configurar banco"]),
    ("technical_details", obj [("stack", str "Prisma"),
      ("files", arr [str "prisma/schema.prisma"]),
      ("comando_criar", str "pnpm prisma migrate dev")])]

/-- A tracker that answers every create request with a rate limit failure. -/
def limitedTracker : Tracker :=
  { sampleTracker with
    createOutcome := fun _ => CreateOutcome.failure "HTTP 403: API rate limit exceeded" }

end Generate

/-! # Theorems -/

open TemplateValidator

/-! ## Values that convert to strings -/

theorem plainItems_cons (x : JSValue) (rest : List JSValue) :
    plainItems (x :: rest) = (plain x && plainItems rest) := by
  rw [plainItems]

theorem plainProps_cons (k : String) (v : JSValue) (rest : List (String × JSValue)) :
    plainProps ((k, v) :: rest) = (k != "toString" && plain v && plainProps rest) := by
  rw [plainProps]

theorem plain_arr (xs : List JSValue) : plain (arr xs) = plainItems xs := by
  rw [plain]

theorem plain_obj (ps : List (String × JSValue)) : plain (obj ps) = plainProps ps := by
  rw [plain]

/-- The elements of a `plain` array are `plain`. -/
theorem plain_of_mem_items {xs : List JSValue} (h : plainItems xs = true) :
    ∀ x ∈ xs, plain x = true := by
  induction xs with
  | nil => intro x hx; cases hx
  | cons y rest ih =>
    rw [plainItems_cons, Bool.and_eq_true] at h
    intro x hx
    rcases List.mem_cons.1 hx with rfl | hx
    · exact h.1
    · exact ih h.2 x hx

/-- A `plain` property list has no entry named `toString`, and its values are `plain`. -/
theorem plainProps_spec {ps : List (String × JSValue)} (h : plainProps ps = true) :
    (ps.any fun p => p.1 == "toString") = false ∧ ∀ p ∈ ps, plain p.2 = true := by
  induction ps with
  | nil => exact ⟨rfl, fun p hp => by cases hp⟩
  | cons q rest ih =>
    obtain ⟨k, v⟩ := q
    rw [plainProps_cons, Bool.and_eq_true, Bool.and_eq_true] at h
    obtain ⟨⟨hk, hv⟩, hrest⟩ := h
    obtain ⟨h1, h2⟩ := ih hrest
    refine ⟨?_, ?_⟩
    · rw [List.any_cons, h1, Bool.or_false]
      simpa using hk
    · intro p hp
      rcases List.mem_cons.1 hp with rfl | hp
      · exact hv
      · exact h2 p hp

/-- What a property read gives on a `plain` value is `plain`. -/
theorem plain_prop {v : JSValue} (h : plain v = true) (k : String) : plain (prop v k) = true := by
  cases v with
  | obj ps =>
    rw [plain_obj] at h
    have hall := (plainProps_spec h).2
    clear h
    show plain (lookupProp k ps) = true
    induction ps with
    | nil => rfl
    | cons q rest ih =>
      obtain ⟨k2, v2⟩ := q
      rw [lookupProp]
      split
      · exact hall (k2, v2) (List.mem_cons_self _ _)
      · exact ih fun p hp => hall p (List.mem_cons_of_mem _ hp)
  | arr xs =>
    show plain (if k = "length" then num (toString xs.length) else undefined) = true
    split <;> rfl
  | str s =>
    show plain (if k = "length" then num (toString (utf16Length s)) else undefined) = true
    split <;> rfl
  | undefined => rfl
  | null => rfl
  | bool b => rfl
  | num t => rfl

/-- On a `plain` value the string conversion raises no `TypeError` and gives `toStr`. -/
theorem toStringOf_of_plain : ∀ (v : JSValue), plain v = true → toStringOf v = some (toStr v)
  | undefined, _ => rfl
  | null, _ => rfl
  | .bool true, _ => rfl
  | .bool false, _ => rfl
  | num _, _ => rfl
  | str _, _ => rfl
  | obj ps, h => by
    rw [plain_obj] at h
    rw [toStringOf, (plainProps_spec h).1]
    rfl
  | arr xs, h => by
    rw [plain_arr] at h
    rw [toStringOf, toStr]
    exact joinOf_of_plain xs h
where
  /-- The same for the elements of an array. -/
  joinOf_of_plain : ∀ (xs : List JSValue), plainItems xs = true → joinOf xs = some (joinStr xs)
    | [], _ => rfl
    | [x], h => by
      rw [plainItems_cons, Bool.and_eq_true] at h
      rw [joinOf, joinStr]
      split
      · rfl
      · exact toStringOf_of_plain x h.1
    | x :: y :: rest, h => by
      rw [plainItems_cons, Bool.and_eq_true] at h
      rw [joinOf, joinStr, joinOf_of_plain (y :: rest) h.2]
      by_cases hx : x.isNullish = true
      · rw [if_pos hx, if_pos hx]
      · rw [if_neg hx, if_neg hx, toStringOf_of_plain x h.1]

/-- The string conversion raises exactly on an object with a property named `toString` and on an
array that holds such an object among the elements it converts. -/
theorem toStringOf_obj (ps : List (String × JSValue)) :
    toStringOf (obj ps) = none ↔ ∃ p ∈ ps, p.1 = "toString" := by
  rw [toStringOf]
  by_cases h : (ps.any fun p => p.1 == "toString") = true
  · rw [if_pos h]
    simp only [List.any_eq_true, beq_iff_eq] at h
    exact ⟨(fun _ => h), (fun _ => rfl)⟩
  · rw [if_neg h]
    simp only [List.any_eq_true, beq_iff_eq] at h
    exact ⟨(fun h2 => by cases h2), (fun h2 => absurd h2 h)⟩

/-! ## validateLabels -/

@[simp] theorem addError_errors (v : TemplateValidator) (p m : String) :
    (v.addError p m).errors = v.errors ++ [⟨p, m⟩] := rfl
@[simp] theorem addError_warnings (v : TemplateValidator) (p m : String) :
    (v.addError p m).warnings = v.warnings := rfl
@[simp] theorem addError_stats (v : TemplateValidator) (p m : String) :
    (v.addError p m).stats = v.stats := rfl
@[simp] theorem addError_validLabels (v : TemplateValidator) (p m : String) :
    (v.addError p m).validLabels = v.validLabels := rfl
@[simp] theorem addWarning_errors (v : TemplateValidator) (p m : String) :
    (v.addWarning p m).errors = v.errors := rfl
@[simp] theorem addWarning_warnings (v : TemplateValidator) (p m : String) :
    (v.addWarning p m).warnings = v.warnings ++ [⟨p, m⟩] := rfl
@[simp] theorem addWarning_stats (v : TemplateValidator) (p m : String) :
    (v.addWarning p m).stats = v.stats := rfl
@[simp] theorem addWarning_validLabels (v : TemplateValidator) (p m : String) :
    (v.addWarning p m).validLabels = v.validLabels := rfl
@[simp] theorem useLabel_errors (v : TemplateValidator) (l : JSValue) :
    (v.useLabel l).errors = v.errors := rfl
@[simp] theorem useLabel_warnings (v : TemplateValidator) (l : JSValue) :
    (v.useLabel l).warnings = v.warnings := rfl
@[simp] theorem useLabel_validLabels (v : TemplateValidator) (l : JSValue) :
    (v.useLabel l).validLabels = v.validLabels := rfl

/-- What the loop of `validateLabels` leaves behind: one error per unknown label, in order. -/
theorem labelsLoop_errors (context : String) (xs : List JSValue) (s : VState) :
    (labelsLoop context xs s).2.errors = s.2.errors ++
      (xs.filter fun l => !JSSet.has s.2.validLabels l).map
        fun l => (⟨context, unknownLabelMessage l⟩ : Entry) := by
  induction xs generalizing s with
  | nil => simp [labelsLoop]
  | cons x rest ih =>
    by_cases h : JSSet.has s.2.validLabels x = true
    · simp [labelsLoop, h, ih]
    · simp [labelsLoop, h, ih, fail]

theorem labelsLoop_warnings (context : String) (xs : List JSValue) (s : VState) :
    (labelsLoop context xs s).2.warnings = s.2.warnings := by
  induction xs generalizing s with
  | nil => simp [labelsLoop]
  | cons x rest ih =>
    by_cases h : JSSet.has s.2.validLabels x = true
    · simp [labelsLoop, h, ih]
    · simp [labelsLoop, h, ih, fail]

theorem labelsLoop_valid (context : String) (xs : List JSValue) (s : VState) :
    (labelsLoop context xs s).1 = (s.1 && xs.all fun l => JSSet.has s.2.validLabels l) := by
  induction xs generalizing s with
  | nil => simp [labelsLoop]
  | cons x rest ih =>
    by_cases h : JSSet.has s.2.validLabels x = true
    · simp [labelsLoop, h, ih]
    · simp [labelsLoop, h, ih, fail]

/-- C2: on a `plain` labels value (no object in it has a property of its own named `toString`,
so that naming a label in a message raises no `TypeError`): on a value that is not an array
`validateLabels` records exactly one error and returns `false`; on the empty array it records
exactly one warning, no error, and returns `true`; on a non-empty array it records, in order,
one unknown-label error naming the label for each element the registry lacks, records no
warning, and returns `true` exactly when the registry has every element. -/
theorem validateLabels_contract (labels : JSValue) (context : String) (v : TemplateValidator) :
    plain labels = true →
    (isArray labels = false →
      validateLabels labels context v = (false, v.addError context "Labels deve ser um array")) ∧
    (labels = arr [] →
      validateLabels labels context v = (true, v.addWarning context "Nenhuma label definida")) ∧
    (∀ x rest, labels = arr (x :: rest) →
      (validateLabels labels context v).2.errors = v.errors ++
          ((x :: rest).filter fun l => !JSSet.has v.validLabels l).map
            (fun l => (⟨context, unknownLabelMessage l⟩ : Entry)) ∧
      (validateLabels labels context v).2.warnings = v.warnings ∧
      ((validateLabels labels context v).1 = true ↔
        ∀ l ∈ x :: rest, JSSet.has v.validLabels l = true)) := by
  intro _
  refine ⟨?_, ?_, ?_⟩
  · intro h
    simp [validateLabels, h]
  · intro h
    subst h
    simp [validateLabels, truthy, isArray, items]
  · intro x rest h
    subst h
    simp [validateLabels, truthy, isArray, items, labelsLoop_errors, labelsLoop_warnings,
      labelsLoop_valid]

@[simp] theorem fail_fst (p m : String) (s : VState) : (fail p m s).1 = false := rfl
@[simp] theorem fail_errors (p m : String) (s : VState) :
    (fail p m s).2.errors = s.2.errors ++ [⟨p, m⟩] := rfl
@[simp] theorem fail_warnings (p m : String) (s : VState) :
    (fail p m s).2.warnings = s.2.warnings := rfl
@[simp] theorem fail_stats (p m : String) (s : VState) : (fail p m s).2.stats = s.2.stats := rfl
@[simp] theorem fail_validLabels (p m : String) (s : VState) :
    (fail p m s).2.validLabels = s.2.validLabels := rfl

@[simp] theorem failIf_fst (c : Bool) (p m : String) (s : VState) :
    (failIf c p m s).1 = (s.1 && !c) := by
  cases c <;> simp [failIf]
@[simp] theorem failIf_errors (c : Bool) (p m : String) (s : VState) :
    (failIf c p m s).2.errors = s.2.errors ++ (if c then [⟨p, m⟩] else []) := by
  cases c <;> simp [failIf]
@[simp] theorem failIf_warnings (c : Bool) (p m : String) (s : VState) :
    (failIf c p m s).2.warnings = s.2.warnings := by
  cases c <;> simp [failIf]
@[simp] theorem failIf_stats (c : Bool) (p m : String) (s : VState) :
    (failIf c p m s).2.stats = s.2.stats := by
  cases c <;> simp [failIf]
@[simp] theorem failIf_validLabels (c : Bool) (p m : String) (s : VState) :
    (failIf c p m s).2.validLabels = s.2.validLabels := by
  cases c <;> simp [failIf]
theorem failIf_false (p m : String) (s : VState) : failIf false p m s = s := rfl

@[simp] theorem warn_fst (p m : String) (s : VState) : (warn p m s).1 = s.1 := rfl
@[simp] theorem warn_errors (p m : String) (s : VState) :
    (warn p m s).2.errors = s.2.errors := rfl
@[simp] theorem warn_warnings (p m : String) (s : VState) :
    (warn p m s).2.warnings = s.2.warnings ++ [⟨p, m⟩] := rfl
@[simp] theorem warn_stats (p m : String) (s : VState) : (warn p m s).2.stats = s.2.stats := rfl
@[simp] theorem warn_validLabels (p m : String) (s : VState) :
    (warn p m s).2.validLabels = s.2.validLabels := rfl

theorem typeOf_string_iff (x : JSValue) : (typeOf x != "string") = !isString x := by
  cases x <;> simp [typeOf, isString]

theorem typeOf_object_iff (x : JSValue) : (typeOf x != "object") = !(isObject x || isNull x) := by
  cases x <;> simp [typeOf, isObject, isNull]

theorem stringItemsLoop_fst (c m : String) (xs : List JSValue) (s : VState) :
    (stringItemsLoop c m xs s).1 = (s.1 && xs.all isString) := by
  induction xs generalizing s with
  | nil => simp [stringItemsLoop]
  | cons x rest ih => simp [stringItemsLoop, ih, typeOf_string_iff, Bool.and_assoc]

theorem isArrayOfStrings_eq (x : JSValue) :
    isArrayOfStrings x = (isArray x && (items x).all isString) := by
  cases x <;> simp [isArrayOfStrings, isArray, items]

theorem typeOf_eq_object (x : JSValue) : (typeOf x == "object") = (isObject x || isNull x) := by
  cases x <;> simp [typeOf, isObject, isNull]

theorem isPlainObject_eq (x : JSValue) : isPlainObject x = (isObject x && !isArray x) := by
  cases x <;> simp [isPlainObject, isObject, isArray]

theorem isNull_of_truthy (x : JSValue) (h : truthy x = true) : isNull x = false := by
  cases x <;> simp_all [isNull, truthy]

theorem truthy_not_object (x : JSValue) :
    (truthy x && (!isObject x && !isNull x)) = (truthy x && !isObject x) := by
  cases x <;> simp [isNull, truthy, isObject]

/-- The flag returned by `validateTechnicalDetails` is the negation of "some shape rule is
violated". -/
theorem validateTechnicalDetails_fst (td : JSValue) (c : String) (v : TemplateValidator) :
    (validateTechnicalDetails td c v).1 = !violatesShape td := by
  unfold validateTechnicalDetails violatesShape
  by_cases h : (typeOf td != "object" || isNull td) = true
  · rw [if_pos h]
    cases td <;> simp_all [typeOf, isNull, isObject]
  · rw [if_neg h]
    have hobj : isObject td = true := by
      cases td <;> simp_all [typeOf, isNull, isObject]
    simp only [comandos, List.foldl, List.any, isArrayOfStrings_eq, isPlainObject_eq]
    generalize prop td "stack" = a
    generalize prop td "files" = f
    generalize prop td "packages" = p
    generalize prop td "comando_instalar" = c1
    generalize prop td "comando_criar" = c2
    generalize prop td "verificar" = c3
    generalize prop td "implementation_notes" = n
    generalize prop p "dependencies" = d1
    generalize prop p "devDependencies" = d2
    simp only [failIf_fst, typeOf_string_iff, hobj]
    cases hf : truthy f <;> cases hfa : isArray f <;> cases hp : truthy p <;> cases hpa : isArray p
      <;> cases hpo : isObject p
      <;> simp [stringItemsLoop_fst, typeOf_string_iff, typeOf_eq_object, typeOf_object_iff,
        Bool.and_assoc, isNull_of_truthy, hp, hpo, truthy_not_object]

/-! ## Additions compose -/

@[simp] theorem Delta.append_errors (a b : Delta) : (a ++ b).errors = a.errors ++ b.errors := rfl
@[simp] theorem Delta.append_warnings (a b : Delta) :
    (a ++ b).warnings = a.warnings ++ b.warnings := rfl
@[simp] theorem Delta.append_labels (a b : Delta) : (a ++ b).labels = a.labels ++ b.labels := rfl
@[simp] theorem Delta.append_epics (a b : Delta) : (a ++ b).epics = a.epics + b.epics := rfl
@[simp] theorem Delta.append_stories (a b : Delta) :
    (a ++ b).stories = a.stories + b.stories := rfl
@[simp] theorem Delta.append_tasks (a b : Delta) : (a ++ b).tasks = a.tasks + b.tasks := rfl

@[simp] theorem Delta.apply_validLabels (d : Delta) (v : TemplateValidator) :
    (d.apply v).validLabels = v.validLabels := rfl
@[simp] theorem Delta.apply_errors (d : Delta) (v : TemplateValidator) :
    (d.apply v).errors = v.errors ++ d.errors := rfl
@[simp] theorem Delta.apply_warnings (d : Delta) (v : TemplateValidator) :
    (d.apply v).warnings = v.warnings ++ d.warnings := rfl

theorem Delta.apply_empty (v : TemplateValidator) : Delta.empty.apply v = v := by
  obtain ⟨l, e, w, ⟨a, b, c, u⟩⟩ := v
  simp [Delta.apply, Delta.empty]

theorem Delta.apply_append (a b : Delta) (v : TemplateValidator) :
    (a ++ b).apply v = b.apply (a.apply v) := by
  simp [Delta.apply, List.foldl_append, Nat.add_assoc]

theorem Delta.apply_error (p m : String) (v : TemplateValidator) :
    (Delta.error p m).apply v = v.addError p m := by
  obtain ⟨l, e, w, ⟨a, b, c, u⟩⟩ := v
  simp [Delta.apply, Delta.error, Delta.empty, addError]

theorem Delta.apply_warning (p m : String) (v : TemplateValidator) :
    (Delta.warning p m).apply v = v.addWarning p m := by
  obtain ⟨l, e, w, ⟨a, b, c, u⟩⟩ := v
  simp [Delta.apply, Delta.warning, Delta.empty, addWarning]

theorem ExtendsBy.refl (s : VState) : ExtendsBy Delta.empty s s :=
  ⟨by simp [Delta.empty], (Delta.apply_empty s.2).symm⟩

theorem ExtendsBy.trans {a b : Delta} {s t u : VState} (h1 : ExtendsBy a s t)
    (h2 : ExtendsBy b t u) : ExtendsBy (a ++ b) s u := by
  obtain ⟨hf1, hv1⟩ := h1
  obtain ⟨hf2, hv2⟩ := h2
  refine ⟨?_, ?_⟩
  · rw [hf2, hf1, Delta.append_errors]
    generalize a.errors = ea
    generalize b.errors = eb
    cases ea <;> cases eb <;> simp
  · rw [hv2, hv1, Delta.apply_append]

theorem ExtendsBy.of_eq {a b : Delta} {s t : VState} (h : ExtendsBy a s t) (hab : a = b) :
    ExtendsBy b s t := hab ▸ h

theorem extendsBy_fail (p m : String) (s : VState) : ExtendsBy (Delta.error p m) s (fail p m s) :=
  ⟨by simp [Delta.error], by rw [Delta.apply_error]; rfl⟩

theorem extendsBy_warn (p m : String) (s : VState) :
    ExtendsBy (Delta.warning p m) s (warn p m s) :=
  ⟨by simp [Delta.warning, Delta.empty], by rw [Delta.apply_warning]; rfl⟩

theorem extendsBy_failIf (c : Bool) (p m : String) (s : VState) :
    ExtendsBy (Delta.errorIf c p m) s (failIf c p m s) := by
  cases c
  · exact ExtendsBy.refl s
  · exact extendsBy_fail p m s

/-- The statement `if (!call()) valid = false` after a call that started from `s.2`. -/
theorem extendsBy_andCall {d : Delta} {s r : VState} (h : ExtendsBy d (true, s.2) r) :
    ExtendsBy d s (andCall s r) := by
  obtain ⟨hf, hv⟩ := h
  refine ⟨?_, hv⟩
  simp only [andCall, hf]
  cases d.errors <;> cases s.1 <;> simp

/-- The statement `valid = call() && valid` after a call that started from `s.2`. -/
theorem extendsBy_callAnd {d : Delta} {s r : VState} (h : ExtendsBy d (true, s.2) r) :
    ExtendsBy d s (r.1 && s.1, r.2) := by
  obtain ⟨hf, hv⟩ := h
  refine ⟨?_, hv⟩
  simp only [hf]
  cases d.errors <;> cases s.1 <;> simp

theorem ExtendsBy.validLabels {d : Delta} {s t : VState} (h : ExtendsBy d s t) :
    t.2.validLabels = s.2.validLabels := by
  rw [h.2]; rfl

/-! ## validateLabels adds `labelsDelta` -/

theorem extendsBy_labelsLoop (c : String) (xs : List JSValue) (s : VState) :
    ExtendsBy
      { Delta.empty with
        errors := (xs.filter fun l => !JSSet.has s.2.validLabels l).map
          fun l => { path := c, message := unknownLabelMessage l }
        labels := xs } s (labelsLoop c xs s) := by
  induction xs generalizing s with
  | nil => exact ExtendsBy.refl s
  | cons x rest ih =>
    obtain ⟨b, ⟨l, e, w, ⟨n1, n2, n3, u⟩⟩⟩ := s
    by_cases h : JSSet.has l x = true
    · have := ih (b, useLabel ⟨l, e, w, ⟨n1, n2, n3, u⟩⟩ x)
      simp only [labelsLoop, useLabel, h, Bool.not_true, Bool.false_eq_true, if_false]
      simp [ExtendsBy, Delta.apply, Delta.empty, useLabel, h] at this ⊢
      exact this
    · have := ih (fail c (unknownLabelMessage x) (b, useLabel ⟨l, e, w, ⟨n1, n2, n3, u⟩⟩ x))
      simp only [Bool.not_eq_true] at h
      simp only [labelsLoop, useLabel, h, Bool.not_false, if_true]
      simp [ExtendsBy, Delta.apply, Delta.empty, useLabel, h, fail, addError] at this ⊢
      exact this

theorem extendsBy_validateLabels (labels : JSValue) (c : String) (v : TemplateValidator) :
    ExtendsBy (labelsDelta v.validLabels labels c) (true, v) (validateLabels labels c v) := by
  unfold validateLabels labelsDelta
  split
  · exact extendsBy_fail c _ (true, v)
  · split
    · exact extendsBy_warn c _ (true, v)
    · exact extendsBy_labelsLoop c _ (true, v)

/-! ## validateTechnicalDetails adds `detailsDelta` -/

theorem Delta.ext_fields {a b : Delta} (h1 : a.errors = b.errors) (h2 : a.warnings = b.warnings)
    (h3 : a.labels = b.labels) (h4 : a.epics = b.epics) (h5 : a.stories = b.stories)
    (h6 : a.tasks = b.tasks) : a = b := by
  cases a; cases b; simp_all

@[simp] theorem Delta.errorIf_errors (cond : Bool) (p m : String) :
    (Delta.errorIf cond p m).errors = if cond then [⟨p, m⟩] else [] := by
  cases cond <;> rfl
@[simp] theorem Delta.errorIf_warnings (cond : Bool) (p m : String) :
    (Delta.errorIf cond p m).warnings = [] := by
  cases cond <;> rfl
@[simp] theorem Delta.errorIf_labels (cond : Bool) (p m : String) :
    (Delta.errorIf cond p m).labels = [] := by
  cases cond <;> rfl
@[simp] theorem Delta.errorIf_epics (cond : Bool) (p m : String) :
    (Delta.errorIf cond p m).epics = 0 := by
  cases cond <;> rfl
@[simp] theorem Delta.errorIf_stories (cond : Bool) (p m : String) :
    (Delta.errorIf cond p m).stories = 0 := by
  cases cond <;> rfl
@[simp] theorem Delta.errorIf_tasks (cond : Bool) (p m : String) :
    (Delta.errorIf cond p m).tasks = 0 := by
  cases cond <;> rfl

theorem extendsBy_stringItemsLoop (c m : String) (xs : List JSValue) (s : VState) :
    ExtendsBy (stringItemsDelta c m xs) s (stringItemsLoop c m xs s) := by
  induction xs generalizing s with
  | nil => exact ExtendsBy.refl s
  | cons x rest ih =>
    have h := ExtendsBy.trans (extendsBy_failIf (typeOf x != "string") c m s) (ih _)
    refine ExtendsBy.of_eq h ?_
    cases hx : isString x <;> apply Delta.ext_fields <;>
      simp [stringItemsDelta, typeOf_string_iff, hx, Delta.empty]

theorem peelBy_failIf {d : Delta} {cond : Bool} {c m : String} {s x : VState}
    (h : ExtendsBy d s x) : ExtendsBy (d ++ Delta.errorIf cond c m) s (failIf cond c m x) :=
  ExtendsBy.trans h (extendsBy_failIf cond c m x)

theorem peelBy_files {d : Delta} {c : String} {f : JSValue} {s x : VState}
    (h : ExtendsBy d s x) :
    ExtendsBy (d ++ filesDelta c f) s
      (if truthy f = true then
        if (!isArray f) = true then fail c "technical_details.files deve ser array" x
        else stringItemsLoop c "Cada arquivo em files deve ser string" (items f) x
      else x) := by
  refine ExtendsBy.trans h ?_
  unfold filesDelta
  split
  · split
    · exact extendsBy_fail c _ x
    · exact extendsBy_stringItemsLoop c _ _ x
  · exact ExtendsBy.refl x

theorem peelBy_packages {d : Delta} {c : String} {p : JSValue} {s x : VState}
    (h : ExtendsBy d s x) :
    ExtendsBy (d ++ packagesDelta c p) s
      (if truthy p = true then
        if isArray p = true then
          stringItemsLoop c "Cada pacote em packages deve ser string" (items p) x
        else if (typeOf p == "object") = true then
          failIf (truthy (prop p "devDependencies") && typeOf (prop p "devDependencies") != "object")
            c "packages.devDependencies deve ser objeto"
            (failIf (truthy (prop p "dependencies") && typeOf (prop p "dependencies") != "object")
              c "packages.dependencies deve ser objeto" x)
        else fail c "technical_details.packages deve ser array ou objeto" x
      else x) := by
  refine ExtendsBy.trans h ?_
  unfold packagesDelta
  split
  · split
    · exact extendsBy_stringItemsLoop c _ _ x
    · split
      · exact ExtendsBy.trans (extendsBy_failIf _ c _ x) (extendsBy_failIf _ c _ _)
      · exact extendsBy_fail c _ x
  · exact ExtendsBy.refl x

theorem extendsBy_comandos (c : String) (td : JSValue) (ks : List String) (s : VState) :
    ExtendsBy (comandosDelta c td ks) s
      (ks.foldl (fun s cmd => failIf (truthy (prop td cmd) && typeOf (prop td cmd) != "string")
        c ("technical_details." ++ cmd ++ " deve ser string") s) s) := by
  induction ks generalizing s with
  | nil => exact ExtendsBy.refl s
  | cons k rest ih => exact ExtendsBy.trans (extendsBy_failIf _ c _ s) (ih _)

theorem peelBy_comandos {d : Delta} {c : String} {td : JSValue} {ks : List String} {s x : VState}
    (h : ExtendsBy d s x) :
    ExtendsBy (d ++ comandosDelta c td ks) s
      (ks.foldl (fun s cmd => failIf (truthy (prop td cmd) && typeOf (prop td cmd) != "string")
        c ("technical_details." ++ cmd ++ " deve ser string") s) x) :=
  ExtendsBy.trans h (extendsBy_comandos c td ks x)

theorem extendsBy_validateTechnicalDetails (td : JSValue) (c : String) (v : TemplateValidator) :
    ExtendsBy (detailsDelta c td) (true, v) (validateTechnicalDetails td c v) := by
  unfold validateTechnicalDetails detailsDelta
  split
  · exact extendsBy_fail c _ (true, v)
  · simp only []
    apply peelBy_failIf
    apply peelBy_comandos
    apply peelBy_packages
    apply peelBy_files
    exact extendsBy_failIf _ c _ _

/-! ## validateTask adds `taskDelta` -/

theorem extendsBy_dependsLoop (c : String) (xs : List JSValue) (s : VState) :
    ExtendsBy (dependsItemsDelta c xs) s (dependsLoop c xs s) := by
  induction xs generalizing s with
  | nil => exact ExtendsBy.refl s
  | cons x rest ih =>
    unfold dependsLoop
    split
    · rename_i hx
      refine ExtendsBy.of_eq (ExtendsBy.trans (extendsBy_fail c _ s) (ih _)) ?_
      rw [typeOf_string_iff] at hx
      simp only [Bool.not_eq_true', Bool.not_eq_true] at hx
      apply Delta.ext_fields <;> simp [dependsItemsDelta, Delta.empty, Delta.error, hx]
    · rename_i hx
      rw [typeOf_string_iff] at hx
      simp only [Bool.not_eq_true', Bool.not_eq_true, Bool.not_eq_false] at hx
      split
      · rename_i hu
        refine ExtendsBy.of_eq (ExtendsBy.trans (extendsBy_warn c _ s) (ih _)) ?_
        have hu2 : untagged x = true := hu
        apply Delta.ext_fields <;> simp [dependsItemsDelta, Delta.empty, Delta.warning, hx, hu2]
      · rename_i hu
        have hu2 : untagged x = false := by
          simpa [untagged] using hu
        refine ExtendsBy.of_eq (ih s) ?_
        simp [dependsItemsDelta, Delta.empty, hx, hu2]

theorem peelBy_validateLabels {d : Delta} {c : String} {labels : JSValue} {s x : VState}
    (h : ExtendsBy d s x) :
    ExtendsBy (d ++ labelsDelta s.2.validLabels labels c) s
      (andCall x (validateLabels labels c x.2)) := by
  have := extendsBy_andCall (s := x) (extendsBy_validateLabels labels c x.2)
  rw [h.validLabels] at this
  exact ExtendsBy.trans h this

theorem peelBy_taskDepends {d : Delta} {c : String} {dep : JSValue} {s x : VState}
    (h : ExtendsBy d s x) :
    ExtendsBy (d ++ taskDependsDelta c dep) s
      (if truthy dep = true then
        if (!isArray dep) = true then fail c "depends_on deve ser um array" x
        else dependsLoop c (items dep) x
      else x) := by
  refine ExtendsBy.trans h ?_
  unfold taskDependsDelta
  split
  · split
    · exact extendsBy_fail c _ x
    · exact extendsBy_dependsLoop c _ x
  · exact ExtendsBy.refl x

theorem peelBy_ite {d a : Delta} {cond : Prop} [Decidable cond] {s x : VState} {f : VState}
    (h : ExtendsBy d s x) (hf : ExtendsBy a x f) :
    ExtendsBy (d ++ if cond then a else Delta.empty) s (if cond then f else x) := by
  refine ExtendsBy.trans h ?_
  split
  · exact hf
  · exact ExtendsBy.refl x

theorem extendsBy_count {d : Delta} {s x : VState} (e st t : Nat) (h : ExtendsBy d s x) :
    ExtendsBy (d ++ { Delta.empty with epics := e, stories := st, tasks := t }) s
      (x.1, { x.2 with stats := { x.2.stats with
        epics := x.2.stats.epics + e, stories := x.2.stats.stories + st,
        tasks := x.2.stats.tasks + t } }) := by
  refine ExtendsBy.trans h ⟨by simp [Delta.empty], ?_⟩
  obtain ⟨b, ⟨l, er, w, ⟨n1, n2, n3, u⟩⟩⟩ := x
  simp [Delta.apply, Delta.empty]

/-- On a task that is not `null`/`undefined`, `validateTask` returns, having added `taskDelta`. -/
theorem validateTask_eq (task st et : JSValue) (v : TemplateValidator)
    (h : isNullish task = false) :
    ∃ r, validateTask task st et v = some r
      ∧ ExtendsBy (taskDelta v.validLabels st et task) (true, v) r := by
  unfold validateTask
  rw [if_neg (by simp [h])]
  refine ⟨_, rfl, ?_⟩
  simp only []
  unfold taskDelta
  refine extendsBy_count 0 0 1 ?_
  refine peelBy_ite ?_ (extendsBy_callAnd (extendsBy_validateTechnicalDetails _ _ _))
  refine peelBy_ite ?_ (extendsBy_failIf _ _ _ _)
  apply peelBy_taskDepends
  apply peelBy_validateLabels
  apply peelBy_failIf
  exact extendsBy_failIf _ _ _ _

theorem validateTask_none (task st et : JSValue) (v : TemplateValidator)
    (h : isNullish task = true) : validateTask task st et v = none := by
  simp [validateTask, h]

/-! ## validateStory adds `storyDelta` -/

theorem tasksLoop_eq (st et : JSValue) (ts : List JSValue) (s : VState)
    (h : (ts.all fun t => !isNullish t) = true) :
    ∃ r, tasksLoop st et ts s = some r
      ∧ ExtendsBy (Delta.concat (ts.map (taskDelta s.2.validLabels st et))) s r := by
  induction ts generalizing s with
  | nil => exact ⟨s, rfl, ExtendsBy.refl s⟩
  | cons t rest ih =>
    simp only [List.all_cons, Bool.and_eq_true, Bool.not_eq_true'] at h
    obtain ⟨r, hr, hext⟩ := validateTask_eq t st et s.2 h.1
    have h1 := extendsBy_andCall (s := s) hext
    obtain ⟨r2, hr2, hext2⟩ := ih (andCall s r) (by simpa using h.2)
    refine ⟨r2, ?_, ?_⟩
    · simp only [tasksLoop, hr, hr2]
    · rw [h1.validLabels] at hext2
      exact ExtendsBy.trans h1 hext2

theorem tasksLoop_none (st et : JSValue) (ts : List JSValue) (s : VState)
    (h : (ts.all fun t => !isNullish t) = false) : tasksLoop st et ts s = none := by
  induction ts generalizing s with
  | nil => simp at h
  | cons t rest ih =>
    cases ht : isNullish t
    · obtain ⟨r, hr, -⟩ := validateTask_eq t st et s.2 ht
      simp only [tasksLoop, hr]
      apply ih
      simpa [ht] using h
    · simp [tasksLoop, validateTask_none _ _ _ _ ht]

theorem peelBy_criteria {d : Delta} {c : String} {ac : JSValue} {s x : VState}
    (h : ExtendsBy d s x) :
    ExtendsBy (d ++ criteriaDelta c ac) s
      (if (!truthy ac || !isArray ac) = true then
        warn c "Story deveria ter acceptance_criteria (array)" x
      else if ((items ac).length == 0) = true then warn c "acceptance_criteria esta vazio" x
      else x) := by
  refine ExtendsBy.trans h ?_
  unfold criteriaDelta
  split
  · exact extendsBy_warn c _ x
  · split
    · exact extendsBy_warn c _ x
    · exact ExtendsBy.refl x

theorem storyTasksBlock_eq (c : String) (st et tasks : JSValue) (x : VState)
    (h : ((items tasks).all fun t => !isNullish t) = true) :
    ∃ r, (if (!truthy tasks || !isArray tasks) = true then
            some (warn c "Story deveria ter tasks (array)" x)
          else if ((items tasks).length == 0) = true then some (warn c "Story nao tem tasks" x)
          else tasksLoop st et (items tasks) x) = some r
      ∧ ExtendsBy (storyTasksDelta x.2.validLabels c st et tasks) x r := by
  unfold storyTasksDelta
  split
  · exact ⟨_, rfl, extendsBy_warn c _ x⟩
  · split
    · exact ⟨_, rfl, extendsBy_warn c _ x⟩
    · exact tasksLoop_eq st et _ x h

theorem storyTasksBlock_none (c : String) (st et tasks : JSValue) (x : VState)
    (h : ((items tasks).all fun t => !isNullish t) = false) :
    (if (!truthy tasks || !isArray tasks) = true then
        some (warn c "Story deveria ter tasks (array)" x)
      else if ((items tasks).length == 0) = true then some (warn c "Story nao tem tasks" x)
      else tasksLoop st et (items tasks) x) = none := by
  split
  · rename_i h1
    cases tasks <;> simp_all [items, isArray, truthy]
  · split
    · rename_i h1 h2
      cases tasks <;> simp_all [items]
    · exact tasksLoop_none st et _ x h

/-- When `storyCompletes`, `validateStory` returns, having added `storyDelta`. -/
theorem validateStory_eq (story et : JSValue) (v : TemplateValidator)
    (h : storyCompletes story = true) :
    ∃ r, validateStory story et v = some r
      ∧ ExtendsBy (storyDelta v.validLabels et story) (true, v) r := by
  simp only [storyCompletes, storyTasks, Bool.and_eq_true, Bool.not_eq_true'] at h
  unfold validateStory
  rw [if_neg (by simp [h.1])]
  simp only []
  generalize hX : failIf (truthy (prop story "depends_on") && !isArray (prop story "depends_on"))
    _ _ _ = X
  have hX2 : ExtendsBy (Delta.errorIf (titleRejected (prop story "title"))
        (storyContext story et) "Story deve ter titulo (string nao vazia)"
      ++ Delta.errorIf (descriptionRejected (prop story "description"))
        (storyContext story et) "Story deve ter descricao (string)"
      ++ labelsDelta v.validLabels (prop story "labels") (storyContext story et)
      ++ criteriaDelta (storyContext story et) (prop story "acceptance_criteria")
      ++ Delta.errorIf (truthy (prop story "depends_on") && !isArray (prop story "depends_on"))
        (storyContext story et) "depends_on deve ser um array") (true, v) X := by
    rw [← hX]
    apply peelBy_failIf
    apply peelBy_criteria
    apply peelBy_validateLabels
    apply peelBy_failIf
    exact extendsBy_failIf _ _ _ _
  obtain ⟨r, hr, hext⟩ := storyTasksBlock_eq (storyContext story et) (prop story "title") et
    (prop story "tasks") X h.2
  rw [hr]
  refine ⟨_, rfl, ?_⟩
  rw [hX2.validLabels] at hext
  exact extendsBy_count 0 1 0 (ExtendsBy.trans hX2 hext)

theorem validateStory_none (story et : JSValue) (v : TemplateValidator)
    (h : storyCompletes story = false) : validateStory story et v = none := by
  unfold validateStory
  split
  · rfl
  · rename_i hn
    simp only [Bool.not_eq_true] at hn
    simp only [storyCompletes, storyTasks, hn, Bool.not_false, Bool.true_and] at h
    simp only []
    rw [storyTasksBlock_none _ _ _ _ _ h]

/-! ## validateEpic adds `epicDelta` -/

theorem validateEpic_eq (epic : JSValue) (source : String) (v : TemplateValidator)
    (h : isNullish epic = false) :
    ∃ r, validateEpic epic source v = some r
      ∧ ExtendsBy (epicDelta v.validLabels source epic) (true, v) r := by
  unfold validateEpic
  rw [if_neg (by simp [h])]
  refine ⟨_, rfl, ?_⟩
  unfold epicDelta
  refine extendsBy_count 1 0 0 ?_
  apply peelBy_validateLabels
  apply peelBy_failIf
  exact extendsBy_failIf _ _ _ _

theorem validateEpic_none (epic : JSValue) (source : String) (v : TemplateValidator)
    (h : isNullish epic = true) : validateEpic epic source v = none := by
  simp [validateEpic, h]

/-! ## validateTemplate adds `templateDelta` -/

theorem storiesLoop_eq (et : JSValue) (ss : List JSValue) (s : VState)
    (h : ss.all storyCompletes = true) :
    ∃ r, storiesLoop et ss s = some r
      ∧ ExtendsBy (Delta.concat (ss.map (storyDelta s.2.validLabels et))) s r := by
  induction ss generalizing s with
  | nil => exact ⟨s, rfl, ExtendsBy.refl s⟩
  | cons t rest ih =>
    simp only [List.all_cons, Bool.and_eq_true] at h
    obtain ⟨r, hr, hext⟩ := validateStory_eq t et s.2 h.1
    have h1 := extendsBy_andCall (s := s) hext
    obtain ⟨r2, hr2, hext2⟩ := ih (andCall s r) h.2
    refine ⟨r2, ?_, ?_⟩
    · simp only [storiesLoop, hr, hr2]
    · rw [h1.validLabels] at hext2
      exact ExtendsBy.trans h1 hext2

theorem storiesLoop_none (et : JSValue) (ss : List JSValue) (s : VState)
    (h : ss.all storyCompletes = false) : storiesLoop et ss s = none := by
  induction ss generalizing s with
  | nil => simp at h
  | cons t rest ih =>
    cases ht : storyCompletes t
    · simp [storiesLoop, validateStory_none _ _ _ ht]
    · obtain ⟨r, hr, -⟩ := validateStory_eq t et s.2 ht
      simp only [storiesLoop, hr]
      apply ih
      simpa [ht] using h

theorem epicsLoop_eq (filePath : String) (es : List JSValue) (s : VState)
    (h : es.all epicCompletes = true) :
    ∃ r, epicsLoop filePath es s = some r
      ∧ ExtendsBy (Delta.concat (es.map (epicTreeDelta s.2.validLabels filePath))) s r := by
  induction es generalizing s with
  | nil => exact ⟨s, rfl, ExtendsBy.refl s⟩
  | cons e rest ih =>
    simp only [List.all_cons, Bool.and_eq_true] at h
    obtain ⟨he, hrest⟩ := h
    have hn : isNullish e = false := by
      cases hh : isNullish e <;> simp_all [epicCompletes]
    obtain ⟨r, hr, hext⟩ := validateEpic_eq e filePath s.2 hn
    have h1 := extendsBy_andCall (s := s) hext
    cases hst : epicStories e with
    | none => simp [epicCompletes, hst] at he
    | some stories =>
      have hs : stories.all storyCompletes = true := by
        simpa [epicCompletes, hst, hn] using he
      obtain ⟨r2, hr2, hext2⟩ := storiesLoop_eq (prop e "title") stories (andCall s r) hs
      rw [h1.validLabels] at hext2
      have h2 := ExtendsBy.trans h1 hext2
      obtain ⟨r3, hr3, hext3⟩ := ih r2 hrest
      rw [h2.validLabels] at hext3
      refine ⟨r3, ?_, ?_⟩
      · simp only [epicsLoop, hr]
        unfold epicStories at hst
        split at hst
        · rw [if_pos (by assumption), hst]
          simp only [hr2, hr3]
        · rename_i hf
          rw [if_neg hf]
          cases hst
          simp only [storiesLoop] at hr2
          cases hr2
          exact hr3
      · have := ExtendsBy.trans h2 hext3
        simpa [epicTreeDelta, hst, Delta.concat] using this

theorem epicsLoop_none (filePath : String) (es : List JSValue) (s : VState)
    (h : es.all epicCompletes = false) : epicsLoop filePath es s = none := by
  induction es generalizing s with
  | nil => simp at h
  | cons e rest ih =>
    cases hn : isNullish e
    · obtain ⟨r, hr, -⟩ := validateEpic_eq e filePath s.2 hn
      simp only [epicsLoop, hr]
      cases hst : epicStories e with
      | none =>
        unfold epicStories at hst
        split at hst
        · rw [if_pos (by assumption), hst]
        · cases hst
      | some stories =>
        cases hs : stories.all storyCompletes
        · unfold epicStories at hst
          split at hst
          · rw [if_pos (by assumption), hst]
            simp only [storiesLoop_none _ _ _ hs]
          · cases hst
            simp at hs
        · obtain ⟨r2, hr2, -⟩ := storiesLoop_eq (prop e "title") stories (andCall s r) hs
          have hrest : rest.all epicCompletes = false := by
            simpa [epicCompletes, hst, hn, hs] using h
          unfold epicStories at hst
          split at hst
          · rw [if_pos (by assumption), hst]
            simp only [hr2]
            exact ih _ hrest
          · rename_i hf
            rw [if_neg hf]
            exact ih _ hrest
    · simp [epicsLoop, validateEpic_none _ _ _ hn]

theorem isNullish_of_truthy (x : JSValue) (h : truthy x = true) : isNullish x = false := by
  cases x <;> simp_all [isNullish, truthy]

/-- On a truthy parsed document, `validateTemplate` returns when `templateCompletes`, having added
`templateDelta`. -/
theorem validateTemplate_eq (filePath : String) (data : JSValue) (v : TemplateValidator)
    (ht : truthy data = true) (h : templateCompletes data = true) :
    ∃ r, validateTemplate filePath (.ok data) v = some r
      ∧ ExtendsBy (templateDelta v.validLabels filePath data) (true, v) r := by
  unfold validateTemplate templateDelta
  unfold templateCompletes at h
  simp only [validateJSON, ht, Bool.not_true, Bool.false_eq_true, if_false]
  split
  · rename_i h1
    rw [if_pos h1] at h
    simp only [Bool.and_eq_true] at h1
    obtain ⟨r, hr, hext⟩ := validateEpic_eq (prop data "epic") filePath v
      (isNullish_of_truthy _ h1.1)
    have h1 := extendsBy_andCall (s := (true, v)) hext
    rw [hr]
    simp only []
    split
    · exact ⟨_, rfl, ExtendsBy.trans h1 (extendsBy_fail _ _ _)⟩
    · obtain ⟨r2, hr2, hext2⟩ := storiesLoop_eq (prop (prop data "epic") "title")
        (items (prop data "stories")) (andCall (true, v) r) h
      rw [h1.validLabels] at hext2
      exact ⟨r2, hr2, ExtendsBy.trans h1 hext2⟩
  · rename_i h1
    rw [if_neg h1] at h
    split
    · rename_i h2
      rw [if_pos h2] at h
      exact epicsLoop_eq filePath _ (true, v) h
    · split
      · exact ⟨_, rfl, ExtendsBy.refl _⟩
      · exact ⟨_, rfl, extendsBy_fail _ _ _⟩

theorem validateTemplate_none (filePath : String) (data : JSValue) (v : TemplateValidator)
    (ht : truthy data = true) (h : templateCompletes data = false) :
    validateTemplate filePath (.ok data) v = none := by
  unfold validateTemplate
  unfold templateCompletes at h
  simp only [validateJSON, ht, Bool.not_true, Bool.false_eq_true, if_false]
  split
  · rename_i h1
    rw [if_pos h1] at h
    simp only [Bool.and_eq_true] at h1
    obtain ⟨r, hr, -⟩ := validateEpic_eq (prop data "epic") filePath v
      (isNullish_of_truthy _ h1.1)
    rw [hr]
    simp only []
    split
    · rename_i h2
      cases hx : prop data "stories" <;> simp_all [isArray, items]
    · exact storiesLoop_none _ _ _ h
  · rename_i h1
    rw [if_neg h1] at h
    split
    · rename_i h2
      rw [if_pos h2] at h
      exact epicsLoop_none filePath _ (true, v) h
    · rename_i h2
      rw [if_neg h2] at h
      cases h

theorem validateTemplate_falsy (filePath : String) (data : JSValue) (v : TemplateValidator)
    (ht : truthy data = false) : validateTemplate filePath (.ok data) v = some (false, v) := by
  simp [validateTemplate, validateJSON, ht]

theorem validateTemplate_unparsable (filePath msg : String) (v : TemplateValidator) :
    validateTemplate filePath (.error msg) v
      = some (false, v.addError filePath ("JSON invalido: " ++ msg)) := by
  simp [validateTemplate, validateJSON, truthy]

/-! ## The loop of main -/

/-- When no file parses to a falsy value, a run of the loop of `main` that returns has only added
entries, and `allValid` has stayed in step with "no error was added". -/
theorem validateFiles_extends (files : List (String × FileContent)) (s r : VState)
    (hall : ∀ f ∈ files, parsesTruthy f.2 = true) (h : validateFiles files s = some r) :
    ∃ d, ExtendsBy d s r := by
  induction files generalizing s with
  | nil =>
    simp only [validateFiles, Option.some.injEq] at h
    subst h
    exact ⟨_, ExtendsBy.refl s⟩
  | cons f rest ih =>
    obtain ⟨filePath, content⟩ := f
    have hf : parsesTruthy content = true := hall (filePath, content) (List.mem_cons_self _ _)
    have hrest : ∀ g ∈ rest, parsesTruthy g.2 = true :=
      fun g hg => hall g (List.mem_cons_of_mem _ hg)
    have hstep : ∀ t, validateTemplate filePath content s.2 = some t →
        ∃ d, ExtendsBy d (true, s.2) t := by
      intro t ht
      cases content with
      | error msg =>
        rw [validateTemplate_unparsable] at ht
        cases ht
        exact ⟨_, extendsBy_fail filePath _ (true, s.2)⟩
      | ok data =>
        have htr : truthy data = true := hf
        cases hc : templateCompletes data
        · rw [validateTemplate_none filePath data s.2 htr hc] at ht
          cases ht
        · obtain ⟨t2, ht2, hext⟩ := validateTemplate_eq filePath data s.2 htr hc
          rw [ht2] at ht
          cases ht
          exact ⟨_, hext⟩
    cases ht : validateTemplate filePath content s.2 with
    | none => simp [validateFiles, ht] at h
    | some t =>
      obtain ⟨d1, hd1⟩ := hstep t ht
      simp only [validateFiles, ht] at h
      obtain ⟨d2, hd2⟩ := ih (andCall s t) hrest h
      exact ⟨_, ExtendsBy.trans (extendsBy_andCall hd1) hd2⟩

/-- When no file parses to a falsy value and the run raises no exception, `main` exits with
code 0 exactly when the final report has no error. -/
theorem main_exit_code (reg : JSSet) (files : List (String × FileContent)) (r : VState)
    (hall : ∀ f ∈ files, parsesTruthy f.2 = true)
    (h : validateFiles files (true, TemplateValidator.new reg) = some r) :
    main reg files = 0 ↔ (getReport r.2).errors = [] := by
  obtain ⟨d, hd⟩ := validateFiles_extends files _ r hall h
  have hflag : r.1 = d.errors.isEmpty := by
    rw [hd.1]; simp
  have herr : r.2.errors = d.errors := by
    rw [hd.2]; simp [TemplateValidator.new]
  simp only [main, h, getReport, hflag, herr]
  cases d.errors <;> simp

/-! ## Which errors a node's validation records -/

theorem jsStartsWith_append (a b : String) : jsStartsWith (a ++ b) a = true := by
  simp [jsStartsWith, String.data_append]

theorem unknownLabelMessage_tag (l : JSValue) :
    jsStartsWith (unknownLabelMessage l) "Label desconhecida: \"" = true := by
  unfold unknownLabelMessage
  rw [String.append_assoc]
  exact jsStartsWith_append _ _

theorem labelMessage_unknown (l : JSValue) : labelMessage (unknownLabelMessage l) = true := by
  simp [labelMessage, unknownLabelMessage_tag]

theorem mem_labelsDelta {reg : JSSet} {labels : JSValue} {c : String} {e : Entry}
    (h : e ∈ (labelsDelta reg labels c).errors) : e.path = c ∧ labelMessage e.message = true := by
  unfold labelsDelta at h
  split at h
  · simp only [Delta.error, Delta.empty, List.mem_singleton] at h
    subst h
    exact ⟨rfl, by dsimp only; decide⟩
  · split at h
    · simp [Delta.warning, Delta.empty] at h
    · simp only [List.mem_map, List.mem_filter] at h
      obtain ⟨l, -, rfl⟩ := h
      exact ⟨rfl, labelMessage_unknown l⟩

theorem mem_errorIf {cond : Bool} {p m : String} {e : Entry} :
    e ∈ (Delta.errorIf cond p m).errors ↔ e = ⟨p, m⟩ ∧ cond = true := by
  cases cond <;> simp

theorem mem_stringItemsDelta {c m : String} {xs : List JSValue} {e : Entry}
    (h : e ∈ (stringItemsDelta c m xs).errors) : e = ⟨c, m⟩ := by
  simp only [stringItemsDelta, List.mem_map] at h
  obtain ⟨_, -, rfl⟩ := h
  rfl

theorem mem_detailsDelta {c : String} {td : JSValue} {e : Entry}
    (h : e ∈ (detailsDelta c td).errors) : e.path = c ∧ detailsMessage e.message = true := by
  unfold detailsDelta at h
  split at h
  · simp only [Delta.error, Delta.empty, List.mem_singleton] at h
    subst h
    exact ⟨rfl, by dsimp only; decide⟩
  · simp only [Delta.append_errors, List.mem_append, mem_errorIf, comandos, comandosDelta,
      filesDelta, packagesDelta] at h
    rcases h with (((h | h) | h) | h) | h
    · rw [h.1]; exact ⟨rfl, by dsimp only; decide⟩
    · split at h
      · split at h
        · simp only [Delta.error, Delta.empty, List.mem_singleton] at h
          subst h
          exact ⟨rfl, by dsimp only; decide⟩
        · rw [mem_stringItemsDelta h]; exact ⟨rfl, by dsimp only; decide⟩
      · simp [Delta.empty] at h
    · split at h
      · split at h
        · rw [mem_stringItemsDelta h]; exact ⟨rfl, by dsimp only; decide⟩
        · split at h
          · simp only [Delta.append_errors, List.mem_append, mem_errorIf] at h
            rcases h with h | h <;> (rw [h.1]; exact ⟨rfl, by dsimp only; decide⟩)
          · simp only [Delta.error, Delta.empty, List.mem_singleton] at h
            subst h
            exact ⟨rfl, by dsimp only; decide⟩
      · simp [Delta.empty] at h
    · rcases h with h | h | h | h
      · rw [h.1]; exact ⟨rfl, by dsimp only; decide⟩
      · rw [h.1]; exact ⟨rfl, by dsimp only; decide⟩
      · rw [h.1]; exact ⟨rfl, by dsimp only; decide⟩
      · simp [Delta.empty] at h
    · rw [h.1]; exact ⟨rfl, by dsimp only; decide⟩

theorem mem_taskDependsDelta {c : String} {dep : JSValue} {e : Entry}
    (h : e ∈ (taskDependsDelta c dep).errors) :
    e.path = c ∧ (e.message = "depends_on deve ser um array"
      ∨ e.message = "Cada item de depends_on deve ser string") := by
  unfold taskDependsDelta at h
  split at h
  · split at h
    · simp only [Delta.error, Delta.empty, List.mem_singleton] at h
      subst h
      exact ⟨rfl, Or.inl rfl⟩
    · simp only [dependsItemsDelta, List.mem_map] at h
      obtain ⟨_, -, rfl⟩ := h
      exact ⟨rfl, Or.inr rfl⟩
  · simp [Delta.empty] at h

/-- The errors `validateTask` adds, block by block. -/
theorem mem_taskDelta {reg : JSSet} {st et task : JSValue} {e : Entry} :
    e ∈ (taskDelta reg st et task).errors ↔
      (e = ⟨taskContext task st et, "Task deve ter titulo (string nao vazia)"⟩
          ∧ titleRejected (prop task "title") = true)
      ∨ (e = ⟨taskContext task st et, "Task deve ter descricao (string)"⟩
          ∧ descriptionRejected (prop task "description") = true)
      ∨ e ∈ (labelsDelta reg (prop task "labels") (taskContext task st et)).errors
      ∨ e ∈ (taskDependsDelta (taskContext task st et) (prop task "depends_on")).errors
      ∨ (e = ⟨taskContext task st et, "related_to deve ser um array"⟩
          ∧ truthy (prop task "related_to") = true ∧ isArray (prop task "related_to") = false)
      ∨ (truthy (prop task "technical_details") = true
          ∧ e ∈ (detailsDelta (taskContext task st et) (prop task "technical_details")).errors) := by
  unfold taskDelta
  simp only [Delta.append_errors, List.mem_append, mem_errorIf]
  cases hr : truthy (prop task "related_to") <;> cases ht : truthy (prop task "technical_details")
    <;> simp [Delta.empty, mem_errorIf, or_assoc, and_comm]

/-- Every error `validateTask` adds is at the task's context and carries a task message. -/
theorem taskDelta_messages {reg : JSSet} {st et task : JSValue} {e : Entry}
    (h : e ∈ (taskDelta reg st et task).errors) :
    e.path = taskContext task st et ∧ taskMessage e.message = true := by
  rcases mem_taskDelta.1 h with h | h | h | h | h | h
  · rw [h.1]; exact ⟨rfl, by dsimp only; decide⟩
  · rw [h.1]; exact ⟨rfl, by dsimp only; decide⟩
  · obtain ⟨h1, h2⟩ := mem_labelsDelta h
    exact ⟨h1, by simp [taskMessage, h2]⟩
  · obtain ⟨h1, h2⟩ := mem_taskDependsDelta h
    refine ⟨h1, ?_⟩
    rcases h2 with h2 | h2 <;> (rw [h2]; decide)
  · rw [h.1]; exact ⟨rfl, by dsimp only; decide⟩
  · obtain ⟨h1, h2⟩ := mem_detailsDelta h.2
    exact ⟨h1, by simp [taskMessage, h2]⟩

theorem mem_concat_errors {ds : List Delta} {e : Entry} :
    e ∈ (Delta.concat ds).errors ↔ ∃ d ∈ ds, e ∈ d.errors := by
  induction ds with
  | nil => simp [Delta.concat, Delta.empty]
  | cons d rest ih => simp [Delta.concat, ih]

theorem mem_storyTasksDelta {reg : JSSet} {c : String} {st et tasks : JSValue} {e : Entry} :
    e ∈ (storyTasksDelta reg c st et tasks).errors ↔
      ∃ t ∈ items tasks, e ∈ (taskDelta reg st et t).errors := by
  unfold storyTasksDelta
  split
  · rename_i h
    cases tasks <;> simp_all [Delta.warning, Delta.empty, items, isArray, truthy]
  · split
    · rename_i h1 h2
      cases tasks <;> simp_all [Delta.warning, Delta.empty, items]
    · simp [mem_concat_errors]

/-- The errors `validateStory` adds, block by block. -/
theorem mem_storyDelta {reg : JSSet} {et story : JSValue} {e : Entry} :
    e ∈ (storyDelta reg et story).errors ↔
      (e = ⟨storyContext story et, "Story deve ter titulo (string nao vazia)"⟩
          ∧ titleRejected (prop story "title") = true)
      ∨ (e = ⟨storyContext story et, "Story deve ter descricao (string)"⟩
          ∧ descriptionRejected (prop story "description") = true)
      ∨ e ∈ (labelsDelta reg (prop story "labels") (storyContext story et)).errors
      ∨ (e = ⟨storyContext story et, "depends_on deve ser um array"⟩
          ∧ truthy (prop story "depends_on") = true ∧ isArray (prop story "depends_on") = false)
      ∨ ∃ t ∈ storyTasks story, e ∈ (taskDelta reg (prop story "title") et t).errors := by
  unfold storyDelta
  have hc : (criteriaDelta (storyContext story et) (prop story "acceptance_criteria")).errors
      = [] := by
    unfold criteriaDelta
    split
    · rfl
    · split <;> rfl
  simp only [Delta.append_errors, List.mem_append, mem_errorIf, hc, mem_storyTasksDelta,
    storyTasks]
  simp [Delta.empty, or_assoc]

/-- The errors `validateEpic` adds, block by block. -/
theorem mem_epicDelta {reg : JSSet} {source : String} {epic : JSValue} {e : Entry} :
    e ∈ (epicDelta reg source epic).errors ↔
      (e = ⟨epicContext epic source, "Epic deve ter titulo (string nao vazia)"⟩
          ∧ titleRejected (prop epic "title") = true)
      ∨ (e = ⟨epicContext epic source, "Epic deve ter descricao (string)"⟩
          ∧ descriptionRejected (prop epic "description") = true)
      ∨ e ∈ (labelsDelta reg (prop epic "labels") (epicContext epic source)).errors := by
  unfold epicDelta
  simp only [Delta.append_errors, List.mem_append, mem_errorIf]
  simp [Delta.empty, or_assoc]

theorem jsTrim_empty : jsTrim "" = "" := rfl

theorem titleRejected_eq (t : JSValue) : titleRejected t = titleMissing t := by
  cases t <;> try (simp [titleRejected, titleMissing, truthy, typeOf, isAbsent, isString, strVal])
  rename_i s
  by_cases hs : s = ""
  · subst hs
    simp [titleRejected, titleMissing, truthy, typeOf, isAbsent, isString, strVal, jsTrim_empty]
  · simp [titleRejected, titleMissing, truthy, typeOf, isAbsent, isString, strVal, hs]

theorem descriptionRejected_eq (d : JSValue) : descriptionRejected d = descriptionMissing d := by
  cases d <;>
    simp [descriptionRejected, descriptionMissing, truthy, typeOf, isAbsent, isString, strVal, bne]

/-! ## The run of `main` -/

/-- C1 (the code departs from it): a file whose content is the JSON text `null` parses without an
exception, `validateTemplate` returns `false` on it without recording an error, and `main` exits
with code 1 although the final report has zero errors. -/
theorem main_null_document_exits_one (reg : JSSet) (filePath : String) :
    validateTemplate filePath (Except.ok null) (TemplateValidator.new reg)
        = some (false, TemplateValidator.new reg)
      ∧ validateFiles [(filePath, Except.ok null)] (true, TemplateValidator.new reg)
        = some (false, TemplateValidator.new reg)
      ∧ (getReport (TemplateValidator.new reg)).errors = []
      ∧ (getReport (TemplateValidator.new reg)).hasErrors = false
      ∧ main reg [(filePath, Except.ok null)] = 1 := by
  refine ⟨rfl, rfl, rfl, rfl, rfl⟩

/-! ## Titles and descriptions -/

theorem errors_of_extendsBy {d : Delta} {v : TemplateValidator} {r : VState}
    (h : ExtendsBy d (true, v) r) : r.2.errors = v.errors ++ d.errors := by
  rw [h.2]; rfl

theorem warnings_of_extendsBy {d : Delta} {v : TemplateValidator} {r : VState}
    (h : ExtendsBy d (true, v) r) : r.2.warnings = v.warnings ++ d.warnings := by
  rw [h.2]; rfl

theorem flag_of_extendsBy {d : Delta} {v : TemplateValidator} {r : VState}
    (h : ExtendsBy d (true, v) r) : r.1 = d.errors.isEmpty := by
  rw [h.1]; simp

theorem labelMessage_ne {reg : JSSet} {labels : JSValue} {c c2 m : String}
    (hm : labelMessage m = false) :
    (⟨c2, m⟩ : Entry) ∉ (labelsDelta reg labels c).errors := by
  intro h
  have := (mem_labelsDelta h).2
  simp [hm] at this

theorem taskMessage_ne {reg : JSSet} {st et t : JSValue} {c2 m : String}
    (hm : taskMessage m = false) :
    (⟨c2, m⟩ : Entry) ∉ (taskDelta reg st et t).errors := by
  intro h
  have := (taskDelta_messages h).2
  simp [hm] at this

/-- C4: each of `validateTask`, `validateStory` and `validateEpic`, on a node on which it returns
(a node that is not `null`, and for a Story none of whose tasks is; the node and the titles
passed with it are `plain`: no object in them has a property of its own named `toString`, so
that no template literal raises a `TypeError`), records the title error of the node exactly when
the title is absent, is not a string, or is empty after trimming. -/
theorem title_error_iff_missing :
    (∀ (task st et : JSValue) (v : TemplateValidator), isNullish task = false →
      plain task = true → plain st = true → plain et = true →
      ∃ r, validateTask task st et v = some r ∧ ∃ E, r.2.errors = v.errors ++ E ∧
        ((⟨taskContext task st et, "Task deve ter titulo (string nao vazia)"⟩ : Entry) ∈ E
          ↔ titleMissing (prop task "title") = true))
    ∧ (∀ (story et : JSValue) (v : TemplateValidator), storyCompletes story = true →
      plain story = true → plain et = true →
      ∃ r, validateStory story et v = some r ∧ ∃ E, r.2.errors = v.errors ++ E ∧
        ((⟨storyContext story et, "Story deve ter titulo (string nao vazia)"⟩ : Entry) ∈ E
          ↔ titleMissing (prop story "title") = true))
    ∧ (∀ (epic : JSValue) (source : String) (v : TemplateValidator), isNullish epic = false →
      plain epic = true →
      ∃ r, validateEpic epic source v = some r ∧ ∃ E, r.2.errors = v.errors ++ E ∧
        ((⟨epicContext epic source, "Epic deve ter titulo (string nao vazia)"⟩ : Entry) ∈ E
          ↔ titleMissing (prop epic "title") = true)) := by
  refine ⟨?_, ?_, ?_⟩
  · intro task st et v hn _ _ _
    obtain ⟨r, hr, hext⟩ := validateTask_eq task st et v hn
    refine ⟨r, hr, _, errors_of_extendsBy hext, ?_⟩
    rw [mem_taskDelta, ← titleRejected_eq]
    constructor
    · rintro (h | h | h | h | h | h)
      · exact h.2
      · exact absurd (congrArg Entry.message h.1) (by dsimp only; decide)
      · exact absurd h (labelMessage_ne (by decide))
      · rcases (mem_taskDependsDelta h).2 with h2 | h2 <;> exact absurd h2 (by dsimp only; decide)
      · exact absurd (congrArg Entry.message h.1) (by dsimp only; decide)
      · have := (mem_detailsDelta h.2).2
        exact absurd this (by dsimp only; decide)
    · intro h
      exact Or.inl ⟨rfl, h⟩
  · intro story et v hc _ _
    obtain ⟨r, hr, hext⟩ := validateStory_eq story et v hc
    refine ⟨r, hr, _, errors_of_extendsBy hext, ?_⟩
    rw [mem_storyDelta, ← titleRejected_eq]
    constructor
    · rintro (h | h | h | h | ⟨t, -, h⟩)
      · exact h.2
      · exact absurd (congrArg Entry.message h.1) (by dsimp only; decide)
      · exact absurd h (labelMessage_ne (by decide))
      · exact absurd (congrArg Entry.message h.1) (by dsimp only; decide)
      · exact absurd h (taskMessage_ne (by decide))
    · intro h
      exact Or.inl ⟨rfl, h⟩
  · intro epic source v hn _
    obtain ⟨r, hr, hext⟩ := validateEpic_eq epic source v hn
    refine ⟨r, hr, _, errors_of_extendsBy hext, ?_⟩
    rw [mem_epicDelta, ← titleRejected_eq]
    constructor
    · rintro (h | h | h)
      · exact h.2
      · exact absurd (congrArg Entry.message h.1) (by dsimp only; decide)
      · exact absurd h (labelMessage_ne (by decide))
    · intro h
      exact Or.inl ⟨rfl, h⟩

/-- C5 (as amended): each of `validateTask`, `validateStory` and `validateEpic`, on a node on which
it returns (a node that is not `null`, and for a Story none of whose tasks is; the node and the
titles passed with it are `plain`, so that no template literal raises a `TypeError`), records
the description error of the node exactly when the description is absent, is not a string, or
is the empty string; so every non-empty string is accepted and a node without a description
always gets the error. -/
theorem description_error_iff_missing :
    (∀ (task st et : JSValue) (v : TemplateValidator), isNullish task = false →
      plain task = true → plain st = true → plain et = true →
      ∃ r, validateTask task st et v = some r ∧ ∃ E, r.2.errors = v.errors ++ E ∧
        ((⟨taskContext task st et, "Task deve ter descricao (string)"⟩ : Entry) ∈ E
          ↔ descriptionMissing (prop task "description") = true))
    ∧ (∀ (story et : JSValue) (v : TemplateValidator), storyCompletes story = true →
      plain story = true → plain et = true →
      ∃ r, validateStory story et v = some r ∧ ∃ E, r.2.errors = v.errors ++ E ∧
        ((⟨storyContext story et, "Story deve ter descricao (string)"⟩ : Entry) ∈ E
          ↔ descriptionMissing (prop story "description") = true))
    ∧ (∀ (epic : JSValue) (source : String) (v : TemplateValidator), isNullish epic = false →
      plain epic = true →
      ∃ r, validateEpic epic source v = some r ∧ ∃ E, r.2.errors = v.errors ++ E ∧
        ((⟨epicContext epic source, "Epic deve ter descricao (string)"⟩ : Entry) ∈ E
          ↔ descriptionMissing (prop epic "description") = true)) := by
  refine ⟨?_, ?_, ?_⟩
  · intro task st et v hn _ _ _
    obtain ⟨r, hr, hext⟩ := validateTask_eq task st et v hn
    refine ⟨r, hr, _, errors_of_extendsBy hext, ?_⟩
    rw [mem_taskDelta, ← descriptionRejected_eq]
    constructor
    · rintro (h | h | h | h | h | h)
      · exact absurd (congrArg Entry.message h.1) (by dsimp only; decide)
      · exact h.2
      · exact absurd h (labelMessage_ne (by decide))
      · rcases (mem_taskDependsDelta h).2 with h2 | h2 <;> exact absurd h2 (by dsimp only; decide)
      · exact absurd (congrArg Entry.message h.1) (by dsimp only; decide)
      · have := (mem_detailsDelta h.2).2
        exact absurd this (by dsimp only; decide)
    · intro h
      exact Or.inr (Or.inl ⟨rfl, h⟩)
  · intro story et v hc _ _
    obtain ⟨r, hr, hext⟩ := validateStory_eq story et v hc
    refine ⟨r, hr, _, errors_of_extendsBy hext, ?_⟩
    rw [mem_storyDelta, ← descriptionRejected_eq]
    constructor
    · rintro (h | h | h | h | ⟨t, -, h⟩)
      · exact absurd (congrArg Entry.message h.1) (by dsimp only; decide)
      · exact h.2
      · exact absurd h (labelMessage_ne (by decide))
      · exact absurd (congrArg Entry.message h.1) (by dsimp only; decide)
      · exact absurd h (taskMessage_ne (by decide))
    · intro h
      exact Or.inr (Or.inl ⟨rfl, h⟩)
  · intro epic source v hn _
    obtain ⟨r, hr, hext⟩ := validateEpic_eq epic source v hn
    refine ⟨r, hr, _, errors_of_extendsBy hext, ?_⟩
    rw [mem_epicDelta, ← descriptionRejected_eq]
    constructor
    · rintro (h | h | h)
      · exact absurd (congrArg Entry.message h.1) (by dsimp only; decide)
      · exact h.2
      · exact absurd h (labelMessage_ne (by decide))
    · intro h
      exact Or.inr (Or.inl ⟨rfl, h⟩)

/-! ## Dependency references -/

theorem isEmpty_false_of_mem {α : Type} {x : α} {xs : List α} (h : x ∈ xs) :
    xs.isEmpty = false := by
  cases xs with
  | nil => cases h
  | cons _ _ => rfl

/-- The reference fields the validator does check: when `depends_on` or `related_to` of a Task, or
`depends_on` of a Story, has a truthy value that is not an array, validation of the node (a
`plain` node on which it returns) records the error of that field at the node's context and
reports the node invalid. -/
theorem non_array_reference_rejected :
    (∀ (task st et : JSValue) (v : TemplateValidator) (field : String), isNullish task = false →
      plain task = true → plain st = true → plain et = true →
      (field = "depends_on" ∨ field = "related_to") →
      truthy (prop task field) = true → isArray (prop task field) = false →
      ∃ r, validateTask task st et v = some r ∧ r.1 = false ∧ ∃ E, r.2.errors = v.errors ++ E ∧
        (⟨taskContext task st et, field ++ " deve ser um array"⟩ : Entry) ∈ E)
    ∧ (∀ (story et : JSValue) (v : TemplateValidator), storyCompletes story = true →
      plain story = true → plain et = true →
      truthy (prop story "depends_on") = true → isArray (prop story "depends_on") = false →
      ∃ r, validateStory story et v = some r ∧ r.1 = false ∧ ∃ E, r.2.errors = v.errors ++ E ∧
        (⟨storyContext story et, "depends_on deve ser um array"⟩ : Entry) ∈ E) := by
  refine ⟨?_, ?_⟩
  · intro task st et v field hn _ _ _ hf ht ha
    obtain ⟨r, hr, hext⟩ := validateTask_eq task st et v hn
    have hmem : (⟨taskContext task st et, field ++ " deve ser um array"⟩ : Entry)
        ∈ (taskDelta v.validLabels st et task).errors := by
      rw [mem_taskDelta]
      rcases hf with rfl | rfl
      · refine Or.inr (Or.inr (Or.inr (Or.inl ?_)))
        simp [taskDependsDelta, ht, ha, Delta.error, Delta.empty]
      · exact Or.inr (Or.inr (Or.inr (Or.inr (Or.inl ⟨rfl, ht, ha⟩))))
    refine ⟨r, hr, ?_, _, errors_of_extendsBy hext, hmem⟩
    rw [flag_of_extendsBy hext]
    exact isEmpty_false_of_mem hmem
  · intro story et v hc _ _ ht ha
    obtain ⟨r, hr, hext⟩ := validateStory_eq story et v hc
    have hmem : (⟨storyContext story et, "depends_on deve ser um array"⟩ : Entry)
        ∈ (storyDelta v.validLabels et story).errors := by
      rw [mem_storyDelta]
      exact Or.inr (Or.inr (Or.inr (Or.inl ⟨rfl, ht, ha⟩)))
    refine ⟨r, hr, ?_, _, errors_of_extendsBy hext, hmem⟩
    rw [flag_of_extendsBy hext]
    exact isEmpty_false_of_mem hmem

theorem labelsDelta_warnings {reg : JSSet} {labels : JSValue} {c : String} {w : Entry}
    (h : w ∈ (labelsDelta reg labels c).warnings) : w = ⟨c, "Nenhuma label definida"⟩ := by
  unfold labelsDelta at h
  split at h
  · simp [Delta.error, Delta.empty] at h
  · split at h
    · simpa [Delta.warning, Delta.empty] using h
    · simp [Delta.empty] at h

theorem detailsDelta_frame (c : String) (td : JSValue) :
    (detailsDelta c td).warnings = [] ∧ (detailsDelta c td).labels = []
      ∧ (detailsDelta c td).epics = 0 ∧ (detailsDelta c td).stories = 0
      ∧ (detailsDelta c td).tasks = 0 := by
  unfold detailsDelta
  split
  · simp [Delta.error, Delta.empty]
  · have hf : ∀ f, (filesDelta c f).warnings = [] ∧ (filesDelta c f).labels = []
        ∧ (filesDelta c f).epics = 0 ∧ (filesDelta c f).stories = 0
        ∧ (filesDelta c f).tasks = 0 := by
      intro f
      unfold filesDelta
      split
      · split <;> simp [Delta.error, Delta.empty, stringItemsDelta]
      · simp [Delta.empty]
    have hp : ∀ p, (packagesDelta c p).warnings = [] ∧ (packagesDelta c p).labels = []
        ∧ (packagesDelta c p).epics = 0 ∧ (packagesDelta c p).stories = 0
        ∧ (packagesDelta c p).tasks = 0 := by
      intro p
      unfold packagesDelta
      split
      · split
        · simp [Delta.empty, stringItemsDelta]
        · split <;> simp [Delta.error, Delta.empty]
      · simp [Delta.empty]
    obtain ⟨f1, f2, f3, f4, f5⟩ := hf (prop td "files")
    obtain ⟨p1, p2, p3, p4, p5⟩ := hp (prop td "packages")
    simp [comandos, comandosDelta, Delta.empty, f1, f2, f3, f4, f5, p1, p2, p3, p4, p5]

/-- C7 (as amended): for a Task whose `depends_on` is an array (the task and the titles passed
with it being `plain`: no object in them has a property of its own named `toString`, so that no
template literal raises a `TypeError`), `validateTask` records, in the order of the elements,
one error for each element that is not a string and one warning for each string element that
starts with none of `[EPIC]`, `[STORY]`, `[TASK]`; the other errors it records are not such
errors and its other warnings are the "no labels" warning, so a string element yields no error
and a tagged string element yields nothing. -/
theorem task_depends_on_elements (task st et : JSValue) (v : TemplateValidator)
    (xs : List JSValue) (hn : isNullish task = false) (hdep : prop task "depends_on" = arr xs) :
    plain task = true → plain st = true → plain et = true →
    ∃ r, validateTask task st et v = some r ∧ ∃ E1 E2 W1,
      r.2.errors = v.errors ++ (E1
        ++ (xs.filter fun x => !isString x).map
            (fun _ => (⟨taskContext task st et, "Cada item de depends_on deve ser string"⟩ : Entry))
        ++ E2)
      ∧ r.2.warnings = v.warnings ++ (W1
        ++ (xs.filter fun x => isString x && untagged x).map
            (fun x => (⟨taskContext task st et, dependencyFormatMessage x⟩ : Entry)))
      ∧ (∀ e ∈ E1 ++ E2, e.message ≠ "Cada item de depends_on deve ser string")
      ∧ (∀ w ∈ W1, w.message = "Nenhuma label definida") := by
  intro _ _ _
  obtain ⟨r, hr, hext⟩ := validateTask_eq task st et v hn
  refine ⟨r, hr,
    (Delta.errorIf (titleRejected (prop task "title"))
        (taskContext task st et) "Task deve ter titulo (string nao vazia)"
      ++ Delta.errorIf (descriptionRejected (prop task "description"))
        (taskContext task st et) "Task deve ter descricao (string)"
      ++ labelsDelta v.validLabels (prop task "labels") (taskContext task st et)).errors,
    ((if truthy (prop task "related_to") then
        Delta.errorIf (!isArray (prop task "related_to"))
          (taskContext task st et) "related_to deve ser um array"
      else Delta.empty)
      ++ (if truthy (prop task "technical_details") then
        detailsDelta (taskContext task st et) (prop task "technical_details")
      else Delta.empty)).errors,
    (labelsDelta v.validLabels (prop task "labels") (taskContext task st et)).warnings,
    ?_, ?_, ?_, ?_⟩
  · rw [errors_of_extendsBy hext]
    have h1 : truthy (arr xs) = true := rfl
    have h2 : isArray (arr xs) = true := rfl
    have h3 : items (arr xs) = xs := rfl
    simp [taskDelta, taskDependsDelta, hdep, h1, h2, h3, dependsItemsDelta,
      Delta.empty, List.append_assoc]
  · rw [warnings_of_extendsBy hext]
    have hd := (detailsDelta_frame (taskContext task st et) (prop task "technical_details")).1
    have h1 : truthy (arr xs) = true := rfl
    have h2 : isArray (arr xs) = true := rfl
    have h3 : items (arr xs) = xs := rfl
    cases hrel : truthy (prop task "related_to") <;>
      cases htd : truthy (prop task "technical_details") <;>
      simp [taskDelta, taskDependsDelta, hdep, h1, h2, h3, dependsItemsDelta,
        Delta.empty, hd, hrel, htd]
  · intro e he
    simp only [Delta.append_errors, List.mem_append, mem_errorIf] at he
    rcases he with ((he | he) | he) | he | he
    · rw [he.1]; dsimp only; decide
    · rw [he.1]; dsimp only; decide
    · intro hm
      have := (mem_labelsDelta he).2
      rw [hm] at this
      exact absurd this (by decide)
    · split at he
      · rw [mem_errorIf] at he
        rw [he.1]; dsimp only; decide
      · simp [Delta.empty] at he
    · split at he
      · intro hm
        have := (mem_detailsDelta he).2
        rw [hm] at this
        exact absurd this (by decide)
      · simp [Delta.empty] at he
  · intro w hw
    rw [labelsDelta_warnings hw]

/-! ## Stories without criteria or tasks -/

theorem items_nil_of_emptyOrNoArray {x : JSValue} (h : emptyOrNoArray x = true) :
    items x = [] := by
  cases x <;> simp_all [emptyOrNoArray, isArray, items]

theorem criteriaDelta_of_emptyOrNoArray (c : String) {ac : JSValue}
    (h : emptyOrNoArray ac = true) :
    criteriaDelta c ac = Delta.warning c
      (if isArray ac then "acceptance_criteria esta vazio"
        else "Story deveria ter acceptance_criteria (array)") := by
  cases ac <;> simp_all [emptyOrNoArray, isArray, items, criteriaDelta, truthy]

theorem storyTasksDelta_of_emptyOrNoArray (reg : JSSet) (c : String) (st et : JSValue)
    {tasks : JSValue} (h : emptyOrNoArray tasks = true) :
    storyTasksDelta reg c st et tasks = Delta.warning c
      (if isArray tasks then "Story nao tem tasks" else "Story deveria ter tasks (array)") := by
  cases tasks <;> simp_all [emptyOrNoArray, isArray, items, storyTasksDelta, truthy]

theorem truthy_of_isAbsent {x : JSValue} (h : isAbsent x = true) : truthy x = false := by
  cases x <;> simp_all [isAbsent, truthy]

/-- C8: for a Story that is not `null`, whose title is a string that is not blank, whose
description is a non-empty string, whose labels are an array of registered labels and which has
no `depends_on` (the story and the title of its epic being `plain`: no object in them has a
property of its own named `toString`, so that neither the context nor the line that logs the
story raises a `TypeError`): if `acceptance_criteria` and `tasks` are each missing, not an array
or empty, `validateStory` returns `true`, records no error, and records exactly one warning for
`acceptance_criteria` and one for `tasks` (after the "no labels" warning when the labels array is
empty). -/
theorem story_without_criteria_or_tasks (story et : JSValue) (v : TemplateValidator)
    (ls : List JSValue) (hn : isNullish story = false)
    (htitle : titleMissing (prop story "title") = false)
    (hdesc : descriptionMissing (prop story "description") = false)
    (hlabels : prop story "labels" = arr ls)
    (hreg : ∀ l ∈ ls, JSSet.has v.validLabels l = true)
    (hdep : isAbsent (prop story "depends_on") = true)
    (hac : emptyOrNoArray (prop story "acceptance_criteria") = true)
    (htasks : emptyOrNoArray (prop story "tasks") = true) :
    plain story = true → plain et = true →
    ∃ r, validateStory story et v = some r ∧ r.1 = true ∧ r.2.errors = v.errors
      ∧ r.2.warnings = v.warnings
        ++ (if ls.isEmpty then [(⟨storyContext story et, "Nenhuma label definida"⟩ : Entry)] else [])
        ++ [⟨storyContext story et,
              if isArray (prop story "acceptance_criteria") then "acceptance_criteria esta vazio"
              else "Story deveria ter acceptance_criteria (array)"⟩,
            ⟨storyContext story et,
              if isArray (prop story "tasks") then "Story nao tem tasks"
              else "Story deveria ter tasks (array)"⟩] := by
  intro _ _
  have hc : storyCompletes story = true := by
    simp [storyCompletes, storyTasks, hn, items_nil_of_emptyOrNoArray htasks]
  obtain ⟨r, hr, hext⟩ := validateStory_eq story et v hc
  have hl : (labelsDelta v.validLabels (arr ls) (storyContext story et)).errors = []
      ∧ (labelsDelta v.validLabels (arr ls) (storyContext story et)).warnings
        = if ls.isEmpty then [(⟨storyContext story et, "Nenhuma label definida"⟩ : Entry)]
          else [] := by
    cases ls with
    | nil => simp [labelsDelta, truthy, isArray, items, Delta.warning, Delta.empty]
    | cons x rest =>
      have : ((x :: rest).filter fun l => !JSSet.has v.validLabels l) = [] := by
        rw [List.filter_eq_nil_iff]
        intro l hl
        simp [hreg l hl]
      simp [labelsDelta, truthy, isArray, items, Delta.empty, this]
  have hE : (storyDelta v.validLabels et story).errors = [] := by
    simp [storyDelta, titleRejected_eq, descriptionRejected_eq, htitle, hdesc, hlabels, hl.1,
      truthy_of_isAbsent hdep, criteriaDelta_of_emptyOrNoArray _ hac,
      storyTasksDelta_of_emptyOrNoArray _ _ _ _ htasks, Delta.warning, Delta.empty]
  have hW : (storyDelta v.validLabels et story).warnings
      = (if ls.isEmpty then [(⟨storyContext story et, "Nenhuma label definida"⟩ : Entry)] else [])
        ++ [⟨storyContext story et,
              if isArray (prop story "acceptance_criteria") then "acceptance_criteria esta vazio"
              else "Story deveria ter acceptance_criteria (array)"⟩,
            ⟨storyContext story et,
              if isArray (prop story "tasks") then "Story nao tem tasks"
              else "Story deveria ter tasks (array)"⟩] := by
    simp [storyDelta, hlabels, hl.2, criteriaDelta_of_emptyOrNoArray _ hac,
      storyTasksDelta_of_emptyOrNoArray _ _ _ _ htasks, Delta.warning, Delta.empty]
  refine ⟨r, hr, ?_, ?_, ?_⟩
  · rw [flag_of_extendsBy hext, hE]; rfl
  · rw [errors_of_extendsBy hext, hE, List.append_nil]
  · rw [warnings_of_extendsBy hext, hW, List.append_assoc]

/-! ## technical_details -/

/-- C9 (as amended): for a Task that is not `null` whose `technical_details` is truthy and
violates a shape rule (a field counting as present when its value is truthy, arrays counting as
objects), the task and the titles passed with it being `plain` (no object in them has a property
of its own named `toString`, so that no template literal raises a `TypeError`), `validateTask`
returns `false` and records at least one error of `validateTechnicalDetails` at the task's
context. -/
theorem violating_details_rejected (task st et : JSValue) (v : TemplateValidator)
    (hn : isNullish task = false) (ht : truthy (prop task "technical_details") = true)
    (hv : violatesShape (prop task "technical_details") = true) :
    plain task = true → plain st = true → plain et = true →
    ∃ r, validateTask task st et v = some r ∧ r.1 = false ∧ ∃ E, r.2.errors = v.errors ++ E ∧
      ∃ e ∈ E, e.path = taskContext task st et ∧ detailsMessage e.message = true := by
  intro _ _ _
  obtain ⟨r, hr, hext⟩ := validateTask_eq task st et v hn
  have hd := extendsBy_validateTechnicalDetails (prop task "technical_details")
    (taskContext task st et) v
  have hflag := flag_of_extendsBy hd
  rw [validateTechnicalDetails_fst, hv] at hflag
  obtain ⟨e, he⟩ : ∃ e, e ∈ (detailsDelta (taskContext task st et)
      (prop task "technical_details")).errors := by
    cases hE : (detailsDelta (taskContext task st et) (prop task "technical_details")).errors with
    | nil => simp [hE] at hflag
    | cons x _ => exact ⟨x, List.mem_cons_self _ _⟩
  have hmem : e ∈ (taskDelta v.validLabels st et task).errors :=
    mem_taskDelta.2 (Or.inr (Or.inr (Or.inr (Or.inr (Or.inr ⟨ht, he⟩)))))
  refine ⟨r, hr, ?_, _, errors_of_extendsBy hext, e, hmem, mem_detailsDelta he⟩
  rw [flag_of_extendsBy hext]
  exact isEmpty_false_of_mem hmem

theorem not_truthy_or_of_isAbsent_or {x : JSValue} {b : Bool}
    (h : (isAbsent x || b) = true) : (!truthy x || b) = true := by
  cases hb : b
  · simp [hb] at h
    simp [truthy_of_isAbsent h]
  · simp

theorem not_violates_of_wellShaped {td : JSValue} (h : wellShaped td = true) :
    violatesShape td = false := by
  unfold wellShaped at h
  unfold violatesShape
  simp only [comandos, List.all, List.any, Bool.and_eq_true, Bool.and_true, Bool.or_false] at h ⊢
  obtain ⟨⟨⟨⟨⟨h1, h2⟩, h3, h4, h5⟩, h6⟩, h7⟩, h8⟩ := h
  have a2 := not_truthy_or_of_isAbsent_or h2
  have a3 := not_truthy_or_of_isAbsent_or h3
  have a4 := not_truthy_or_of_isAbsent_or h4
  have a5 := not_truthy_or_of_isAbsent_or h5
  have a6 := not_truthy_or_of_isAbsent_or h6
  have a7 := not_truthy_or_of_isAbsent_or h7
  have a8 : (!truthy (prop td "packages") || (isArrayOfStrings (prop td "packages")
        || (isPlainObject (prop td "packages")
            && (!truthy (prop (prop td "packages") "dependencies")
                || isObject (prop (prop td "packages") "dependencies"))
            && (!truthy (prop (prop td "packages") "devDependencies")
                || isObject (prop (prop td "packages") "devDependencies"))))) = true := by
    rw [Bool.or_assoc] at h8
    cases hab : isAbsent (prop td "packages")
    · rw [hab, Bool.false_or] at h8
      cases haos : isArrayOfStrings (prop td "packages")
      · rw [haos, Bool.false_or] at h8
        simp only [Bool.and_eq_true] at h8
        obtain ⟨⟨g1, g2⟩, g3⟩ := h8
        simp [g1, not_truthy_or_of_isAbsent_or g2, not_truthy_or_of_isAbsent_or g3]
      · simp
    · simp [truthy_of_isAbsent hab]
  have k : ∀ {t u : Bool}, (!t || u) = true → (t && !u) = false := by
    intro t u; cases t <;> cases u <;> simp
  rw [h1, k a2, k a3, k a4, k a5, k a6, k a7, k a8]
  rfl

/-- C10: on a `technical_details` value that meets every shape rule of the specification,
whatever other keys it carries, `validateTechnicalDetails` returns `true` and leaves the
validator as it was: no error, no warning. -/
theorem well_shaped_details_accepted (td : JSValue) (context : String) (v : TemplateValidator)
    (h : wellShaped td = true) : validateTechnicalDetails td context v = (true, v) := by
  have hd := extendsBy_validateTechnicalDetails td context v
  have hflag := flag_of_extendsBy hd
  rw [validateTechnicalDetails_fst, not_violates_of_wellShaped h] at hflag
  have hE : (detailsDelta context td).errors = [] := by
    cases hE : (detailsDelta context td).errors with
    | nil => rfl
    | cons x _ => simp [hE] at hflag
  obtain ⟨f1, f2, f3, f4, f5⟩ := detailsDelta_frame context td
  have hempty : detailsDelta context td = Delta.empty :=
    Delta.ext_fields hE f1 f2 f3 f4 f5
  have h2 := hd.2
  rw [hempty, Delta.apply_empty] at h2
  have h1 := validateTechnicalDetails_fst td context v
  rw [not_violates_of_wellShaped h] at h1
  exact Prod.ext h1 h2

/-! ## Registering a label -/

theorem Filtered.append {m : String} {a a2 b b2 : Delta} (h1 : Filtered m a a2)
    (h2 : Filtered m b b2) : Filtered m (a ++ b) (a2 ++ b2) := by
  obtain ⟨e1, w1, l1, x1, y1, z1⟩ := h1
  obtain ⟨e2, w2, l2, x2, y2, z2⟩ := h2
  refine ⟨?_, ?_, ?_, ?_, ?_, ?_⟩ <;>
    simp [List.filter_append, e1, w1, l1, x1, y1, z1, e2, w2, l2, x2, y2, z2]

theorem Filtered.of_avoids {m : String} {d : Delta} (h : ∀ e ∈ d.errors, e.message ≠ m) :
    Filtered m d d := by
  refine ⟨?_, rfl, rfl, rfl, rfl, rfl⟩
  symm
  rw [List.filter_eq_self]
  intro e he
  simpa using h e he

theorem Filtered.concat {α : Type} {m : String} (f g : α → Delta) (xs : List α)
    (h : ∀ x ∈ xs, Filtered m (f x) (g x)) :
    Filtered m (Delta.concat (xs.map f)) (Delta.concat (xs.map g)) := by
  induction xs with
  | nil => exact Filtered.of_avoids (by simp [Delta.concat, Delta.empty])
  | cons x rest ih =>
    simp only [List.map_cons, Delta.concat]
    exact Filtered.append (h x (List.mem_cons_self _ _))
      (ih fun y hy => h y (List.mem_cons_of_mem _ hy))

theorem sameValueZero_str (L : String) (l : JSValue) :
    sameValueZero (str L) l = true ↔ l = str L := by
  cases l <;> simp [sameValueZero]
  exact eq_comm

theorem has_add (R : JSSet) (L : String) (l : JSValue) (hL : JSSet.has R (str L) = false) :
    JSSet.has (JSSet.add R (str L)) l = (JSSet.has R l || sameValueZero (str L) l) := by
  unfold JSSet.add
  rw [if_neg (by simp [hL])]
  simp [JSSet.has, List.any_append]

theorem unknownLabelMessage_inj {a b : JSValue}
    (h : unknownLabelMessage a = unknownLabelMessage b) : toStr a = toStr b := by
  unfold unknownLabelMessage at h
  have h2 := congrArg String.data h
  simp only [String.data_append, List.append_assoc] at h2
  have h3 := List.append_cancel_left h2
  have h4 := List.append_cancel_right h3
  exact String.ext h4

theorem message_ne_unknown {m : String} (l : JSValue)
    (h : jsStartsWith m "Label desconhecida: \"" = false) : m ≠ unknownLabelMessage l := by
  intro hm
  rw [hm, unknownLabelMessage_tag] at h
  cases h

theorem filtered_errorIf (cond : Bool) (c m : String) (l : JSValue)
    (h : jsStartsWith m "Label desconhecida: \"" = false) :
    Filtered (unknownLabelMessage l) (Delta.errorIf cond c m) (Delta.errorIf cond c m) := by
  apply Filtered.of_avoids
  intro e he
  rw [mem_errorIf] at he
  rw [he.1]
  exact message_ne_unknown l h

theorem filtered_labelsDelta (R : JSSet) (L : String) (labels : JSValue) (c : String)
    (hL : JSSet.has R (str L) = false)
    (hcol : ∀ l ∈ items labels, toStr l = L → l = str L) :
    Filtered (unknownLabelMessage (str L)) (labelsDelta R labels c)
      (labelsDelta (JSSet.add R (str L)) labels c) := by
  unfold labelsDelta
  split
  · exact Filtered.of_avoids (by
      intro e he
      simp only [Delta.error, Delta.empty, List.mem_singleton] at he
      rw [he]
      show "Labels deve ser um array" ≠ _
      exact message_ne_unknown _ (by decide))
  · split
    · exact Filtered.of_avoids (by simp [Delta.warning, Delta.empty])
    · refine ⟨?_, rfl, rfl, rfl, rfl, rfl⟩
      dsimp only
      generalize items labels = xs at hcol
      induction xs with
      | nil => rfl
      | cons x rest ih =>
        have ih2 := ih fun l hl => hcol l (List.mem_cons_of_mem _ hl)
        have hx := hcol x (List.mem_cons_self _ _)
        have hfun : (fun l => !JSSet.has (JSSet.add R (str L)) l)
            = fun l => !(JSSet.has R l || sameValueZero (str L) l) := by
          funext l
          rw [has_add R L l hL]
        rw [hfun] at ih2 ⊢
        cases hR : JSSet.has R x
        · by_cases hxl : x = str L
          · have hs : sameValueZero (str L) x = true := (sameValueZero_str L x).2 hxl
            subst hxl
            simpa [List.filter_cons, hR, hs] using ih2
          · have hs : sameValueZero (str L) x = false := by
              cases h : sameValueZero (str L) x
              · rfl
              · exact absurd ((sameValueZero_str L x).1 h) hxl
            have hne : unknownLabelMessage x ≠ unknownLabelMessage (str L) := by
              intro he
              exact hxl (hx (unknownLabelMessage_inj he))
            simpa [List.filter_cons, hR, hs, hne] using ih2
        · simpa [List.filter_cons, hR] using ih2

theorem filtered_detailsDelta (c : String) (td l : JSValue) :
    Filtered (unknownLabelMessage l) (detailsDelta c td) (detailsDelta c td) := by
  apply Filtered.of_avoids
  intro e he
  have h := (mem_detailsDelta he).2
  have hall : ∀ m ∈ detailsMessages, jsStartsWith m "Label desconhecida: \"" = false := by
    decide
  refine message_ne_unknown l (hall _ ?_)
  simpa [detailsMessage] using h

theorem filtered_taskDependsDelta (c : String) (dep l : JSValue) :
    Filtered (unknownLabelMessage l) (taskDependsDelta c dep) (taskDependsDelta c dep) := by
  apply Filtered.of_avoids
  intro e he
  rcases (mem_taskDependsDelta he).2 with h | h <;>
    (rw [h]; exact message_ne_unknown l (by decide))

theorem filtered_refl_empty (m : String) (d : Delta) (h : d.errors = []) : Filtered m d d :=
  Filtered.of_avoids (by simp [h])

theorem filtered_taskDelta (R : JSSet) (L : String) (st et task : JSValue)
    (hL : JSSet.has R (str L) = false)
    (hcol : ∀ l ∈ items (prop task "labels"), toStr l = L → l = str L) :
    Filtered (unknownLabelMessage (str L)) (taskDelta R st et task)
      (taskDelta (JSSet.add R (str L)) st et task) := by
  unfold taskDelta
  refine Filtered.append (Filtered.append (Filtered.append (Filtered.append (Filtered.append
    (Filtered.append (filtered_errorIf _ _ _ _ (by decide)) (filtered_errorIf _ _ _ _ (by decide)))
    (filtered_labelsDelta R L _ _ hL hcol)) (filtered_taskDependsDelta _ _ _)) ?_) ?_)
    (filtered_refl_empty _ _ rfl)
  · split
    · exact filtered_errorIf _ _ _ _ (by decide)
    · exact filtered_refl_empty _ _ rfl
  · split
    · exact filtered_detailsDelta _ _ _
    · exact filtered_refl_empty _ _ rfl

theorem filtered_storyDelta (R : JSSet) (L : String) (et story : JSValue)
    (hL : JSSet.has R (str L) = false)
    (hcol : ∀ n ∈ storyNodes story, ∀ l ∈ items (prop n "labels"), toStr l = L → l = str L) :
    Filtered (unknownLabelMessage (str L)) (storyDelta R et story)
      (storyDelta (JSSet.add R (str L)) et story) := by
  unfold storyDelta
  refine Filtered.append (Filtered.append (Filtered.append (Filtered.append (Filtered.append
    (Filtered.append (filtered_errorIf _ _ _ _ (by decide)) (filtered_errorIf _ _ _ _ (by decide)))
    (filtered_labelsDelta R L _ _ hL (hcol story (List.mem_cons_self _ _)))) ?_)
    (filtered_errorIf _ _ _ _ (by decide))) ?_) (filtered_refl_empty _ _ rfl)
  · apply filtered_refl_empty
    unfold criteriaDelta
    split
    · rfl
    · split <;> rfl
  · unfold storyTasksDelta
    split
    · exact filtered_refl_empty _ _ rfl
    · split
      · exact filtered_refl_empty _ _ rfl
      · apply Filtered.concat
        intro t ht
        exact filtered_taskDelta R L _ _ t hL (hcol t (List.mem_cons_of_mem _ ht))

theorem filtered_epicDelta (R : JSSet) (L : String) (source : String) (epic : JSValue)
    (hL : JSSet.has R (str L) = false)
    (hcol : ∀ l ∈ items (prop epic "labels"), toStr l = L → l = str L) :
    Filtered (unknownLabelMessage (str L)) (epicDelta R source epic)
      (epicDelta (JSSet.add R (str L)) source epic) := by
  unfold epicDelta
  exact Filtered.append (Filtered.append
    (Filtered.append (filtered_errorIf _ _ _ _ (by decide)) (filtered_errorIf _ _ _ _ (by decide)))
    (filtered_labelsDelta R L _ _ hL hcol)) (filtered_refl_empty _ _ rfl)

theorem prop_labels_of_iterated_string (s : String) (x : JSValue)
    (hx : x ∈ (s.data.map fun c => str (String.singleton c))) :
    ∀ n ∈ storyNodes x, items (prop n "labels") = [] := by
  simp only [List.mem_map] at hx
  obtain ⟨c, -, rfl⟩ := hx
  intro n hn
  have h1 : storyTasks (str (String.singleton c)) = [] := by
    simp [storyTasks, JSValue.prop, items]
  simp only [storyNodes, h1, List.mem_singleton] at hn
  subst hn
  simp [JSValue.prop, items]

theorem epicStories_nodes (epic s : JSValue) (hs : s ∈ (epicStories epic).getD []) :
    s ∈ items (prop epic "stories") ∨ ∀ n ∈ storyNodes s, items (prop n "labels") = [] := by
  unfold epicStories at hs
  split at hs
  · cases hst : prop epic "stories" with
    | arr xs =>
      rw [hst] at hs
      exact Or.inl (by simpa [iterate, items] using hs)
    | str t =>
      rw [hst] at hs
      exact Or.inr (prop_labels_of_iterated_string t s (by simpa [iterate] using hs))
    | undefined => rw [hst] at hs; simp [iterate] at hs
    | null => rw [hst] at hs; simp [iterate] at hs
    | bool b => rw [hst] at hs; simp [iterate] at hs
    | num t => rw [hst] at hs; simp [iterate] at hs
    | obj ps => rw [hst] at hs; simp [iterate] at hs
  · simp at hs

theorem filtered_epicTreeDelta (R : JSSet) (L : String) (filePath : String) (epic : JSValue)
    (hL : JSSet.has R (str L) = false)
    (hcol : ∀ n ∈ epicNodes epic, ∀ l ∈ items (prop n "labels"), toStr l = L → l = str L) :
    Filtered (unknownLabelMessage (str L)) (epicTreeDelta R filePath epic)
      (epicTreeDelta (JSSet.add R (str L)) filePath epic) := by
  unfold epicTreeDelta
  refine Filtered.append
    (filtered_epicDelta R L _ _ hL (hcol epic (List.mem_cons_self _ _))) ?_
  apply Filtered.concat
  intro s hs
  apply filtered_storyDelta R L _ _ hL
  intro n hn l hl
  rcases epicStories_nodes epic s hs with h | h
  · refine hcol n ?_ l hl
    exact List.mem_cons_of_mem _ (List.mem_flatMap.2 ⟨s, h, hn⟩)
  · rw [h n hn] at hl
    cases hl

theorem filtered_templateDelta (R : JSSet) (L : String) (filePath : String) (data : JSValue)
    (hL : JSSet.has R (str L) = false)
    (hcol : ∀ l ∈ templateLabels data, toStr l = L → l = str L) :
    Filtered (unknownLabelMessage (str L)) (templateDelta R filePath data)
      (templateDelta (JSSet.add R (str L)) filePath data) := by
  have hnode : ∀ n ∈ templateNodes data, ∀ l ∈ items (prop n "labels"),
      toStr l = L → l = str L := by
    intro n hn l hl
    exact hcol l (List.mem_flatMap.2 ⟨n, hn, hl⟩)
  unfold templateDelta
  unfold templateNodes at hnode
  split
  · rename_i h1
    rw [if_pos h1] at hnode
    refine Filtered.append
      (filtered_epicDelta R L _ _ hL (hnode _ (List.mem_cons_self _ _))) ?_
    split
    · exact Filtered.of_avoids (by
        intro e he
        simp only [Delta.error, Delta.empty, List.mem_singleton] at he
        rw [he]
        show "stories deve ser um array" ≠ _
        exact message_ne_unknown _ (by decide))
    · apply Filtered.concat
      intro s hs
      apply filtered_storyDelta R L _ _ hL
      intro n hn
      exact hnode n (List.mem_cons_of_mem _ (List.mem_flatMap.2 ⟨s, hs, hn⟩))
  · rename_i h1
    rw [if_neg h1] at hnode
    split
    · apply Filtered.concat
      intro ep hep
      apply filtered_epicTreeDelta R L _ _ hL
      intro n hn
      exact hnode n (List.mem_flatMap.2 ⟨ep, hep, hn⟩)
    · split
      · exact filtered_refl_empty _ _ rfl
      · exact Filtered.of_avoids (by
          intro e he
          simp only [Delta.error, Delta.empty, List.mem_singleton] at he
          rw [he]
          show "Formato de template desconhecido. Deve ter \"epic + stories\" ou \"epics\" array"
            ≠ _
          exact message_ne_unknown _ (by decide))

theorem mem_labelsDelta_unknown {reg : JSSet} {labels l : JSValue} (c : String)
    (hl : l ∈ items labels) (hreg : JSSet.has reg l = false) :
    (⟨c, unknownLabelMessage l⟩ : Entry) ∈ (labelsDelta reg labels c).errors := by
  cases labels with
  | arr xs =>
    cases xs with
    | nil => simp [items] at hl
    | cons x rest =>
      simp only [items] at hl
      have h1 : (!truthy (arr (x :: rest)) || !isArray (arr (x :: rest))) = false := rfl
      have h2 : ((items (arr (x :: rest))).length == 0) = false := rfl
      simp only [labelsDelta, h1, h2, Bool.false_eq_true, if_false, List.mem_map,
        List.mem_filter]
      exact ⟨l, ⟨hl, by simp [hreg]⟩, rfl⟩
  | undefined => simp [items] at hl
  | null => simp [items] at hl
  | bool b => simp [items] at hl
  | num t => simp [items] at hl
  | str t => simp [items] at hl
  | obj ps => simp [items] at hl

theorem storyDelta_unknown (reg : JSSet) (et : JSValue) {story n l : JSValue}
    (hn : n ∈ storyNodes story)
    (hl : l ∈ items (prop n "labels")) (hreg : JSSet.has reg l = false) :
    ∃ e ∈ (storyDelta reg et story).errors, e.message = unknownLabelMessage l := by
  simp only [storyNodes, List.mem_cons] at hn
  rcases hn with rfl | hn
  · exact ⟨_, mem_storyDelta.2 (Or.inr (Or.inr (Or.inl (mem_labelsDelta_unknown _ hl hreg)))),
      rfl⟩
  · refine ⟨⟨taskContext n (prop story "title") et, unknownLabelMessage l⟩,
      mem_storyDelta.2 (Or.inr (Or.inr (Or.inr (Or.inr ⟨n, hn, ?_⟩)))), rfl⟩
    exact mem_taskDelta.2 (Or.inr (Or.inr (Or.inl (mem_labelsDelta_unknown _ hl hreg))))

theorem mem_append_errors_left {a b : Delta} {e : Entry} (h : e ∈ a.errors) :
    e ∈ (a ++ b).errors := by
  simp [h]

theorem mem_append_errors_right {a b : Delta} {e : Entry} (h : e ∈ b.errors) :
    e ∈ (a ++ b).errors := by
  simp [h]

theorem epicTreeDelta_unknown (reg : JSSet) (filePath : String) {epic n l : JSValue}
    (hn : n ∈ epicNodes epic) (hl : l ∈ items (prop n "labels"))
    (hreg : JSSet.has reg l = false) :
    ∃ e ∈ (epicTreeDelta reg filePath epic).errors, e.message = unknownLabelMessage l := by
  simp only [epicNodes, List.mem_cons, List.mem_flatMap] at hn
  unfold epicTreeDelta
  rcases hn with rfl | ⟨s, hs, hn⟩
  · exact ⟨_, mem_append_errors_left
      (mem_epicDelta.2 (Or.inr (Or.inr (mem_labelsDelta_unknown _ hl hreg)))), rfl⟩
  · obtain ⟨e, he, hm⟩ := storyDelta_unknown reg (prop epic "title") hn hl hreg
    have hst : (epicStories epic).getD [] = items (prop epic "stories") := by
      cases hx : prop epic "stories" <;> simp_all [epicStories, items, truthy, iterate]
    refine ⟨e, mem_append_errors_right ?_, hm⟩
    rw [mem_concat_errors, hst]
    exact ⟨_, List.mem_map.2 ⟨s, hs, rfl⟩, he⟩

theorem templateDelta_unknown (reg : JSSet) (filePath : String) {data l : JSValue}
    (hl : l ∈ templateLabels data) (hreg : JSSet.has reg l = false) :
    ∃ e ∈ (templateDelta reg filePath data).errors, e.message = unknownLabelMessage l := by
  simp only [templateLabels, List.mem_flatMap] at hl
  obtain ⟨n, hn, hl⟩ := hl
  unfold templateNodes at hn
  unfold templateDelta
  split
  · rename_i h1
    rw [if_pos h1] at hn
    simp only [List.mem_cons, List.mem_flatMap] at hn
    rcases hn with rfl | ⟨s, hs, hn⟩
    · exact ⟨_, mem_append_errors_left
        (mem_epicDelta.2 (Or.inr (Or.inr (mem_labelsDelta_unknown _ hl hreg)))), rfl⟩
    · obtain ⟨e, he, hm⟩ :=
        storyDelta_unknown reg (prop (prop data "epic") "title") hn hl hreg
      refine ⟨e, mem_append_errors_right ?_, hm⟩
      have ha : isArray (prop data "stories") = true := by
        cases hx : prop data "stories" <;> simp_all [items, isArray]
      rw [if_neg (by simp [ha]), mem_concat_errors]
      exact ⟨_, List.mem_map.2 ⟨s, hs, rfl⟩, he⟩
  · rename_i h1
    rw [if_neg h1] at hn
    simp only [List.mem_flatMap] at hn
    obtain ⟨ep, hep, hn⟩ := hn
    have ha : (truthy (prop data "epics") && isArray (prop data "epics")) = true := by
      cases hx : prop data "epics" <;> simp_all [items, isArray, truthy]
    rw [if_pos ha]
    obtain ⟨e, he, hm⟩ := epicTreeDelta_unknown reg filePath hn hl hreg
    exact ⟨e, mem_concat_errors.2 ⟨_, List.mem_map.2 ⟨ep, hep, rfl⟩, he⟩, hm⟩

theorem templateLabels_of_falsy {data : JSValue} (h : truthy data = false) :
    templateLabels data = [] := by
  cases data <;> simp_all [templateLabels, templateNodes, JSValue.prop, truthy, items]

/-- C3: let `data` be a parsed template document that is `plain` (no object in it has a property
of its own named `toString`, so that no template literal raises a `TypeError`) and whose
validation against the registry `R` returns, and `L` a label that `R` lacks and that occurs in the `labels` array of an Epic, Story or
Task of `data`, no other label of the document having the text of `L` as its string conversion
(as when all labels are strings). Then the report has an unknown-label error naming `L`, and
validating `data` against `R` with `L` added returns a report whose errors are those of the first
without the unknown-label errors naming `L`, with the same warnings and the same statistics. -/
theorem unknown_label_fixed_by_registration (filePath : String) (data : JSValue) (R : JSSet)
    (L : String) (r : VState) (hL : JSSet.has R (str L) = false)
    (hocc : str L ∈ templateLabels data)
    (hcol : ∀ l ∈ templateLabels data, toStr l = L → l = str L)
    (hrun : validateTemplate filePath (Except.ok data) (TemplateValidator.new R) = some r) :
    plain data = true →
    (∃ e ∈ r.2.errors, e.message = unknownLabelMessage (str L))
    ∧ ∃ r2, validateTemplate filePath (Except.ok data)
          (TemplateValidator.new (JSSet.add R (str L))) = some r2
        ∧ r2.2.errors = r.2.errors.filter (fun e => e.message != unknownLabelMessage (str L))
        ∧ r2.2.warnings = r.2.warnings ∧ r2.2.stats = r.2.stats := by
  intro _
  have ht : truthy data = true := by
    cases h : truthy data
    · rw [templateLabels_of_falsy h] at hocc
      cases hocc
    · rfl
  have hc : templateCompletes data = true := by
    cases h : templateCompletes data
    · rw [validateTemplate_none filePath data _ ht h] at hrun
      cases hrun
    · rfl
  obtain ⟨r0, hr0, hext⟩ := validateTemplate_eq filePath data (TemplateValidator.new R) ht hc
  rw [hrun] at hr0
  cases hr0
  obtain ⟨r2, hr2, hext2⟩ :=
    validateTemplate_eq filePath data (TemplateValidator.new (JSSet.add R (str L))) ht hc
  obtain ⟨fe, fw, fl, f1, f2, f3⟩ := filtered_templateDelta R L filePath data hL hcol
  have hnew1 : (TemplateValidator.new R).validLabels = R := rfl
  have hnew2 : (TemplateValidator.new (JSSet.add R (str L))).validLabels
      = JSSet.add R (str L) := rfl
  rw [hnew1] at hext
  rw [hnew2] at hext2
  refine ⟨?_, r2, hr2, ?_, ?_, ?_⟩
  · obtain ⟨e, he, hm⟩ := templateDelta_unknown R filePath hocc hL
    refine ⟨e, ?_, hm⟩
    rw [errors_of_extendsBy hext]
    exact List.mem_append_right _ he
  · rw [errors_of_extendsBy hext2, errors_of_extendsBy hext, fe]
    simp [TemplateValidator.new]
  · rw [warnings_of_extendsBy hext2, warnings_of_extendsBy hext, fw]
    rfl
  · rw [hext2.2, hext.2]
    simp [Delta.apply, TemplateValidator.new, fl, f1, f2, f3]

/-! ## The theorems at sample inputs -/

/-- At a string, the empty array and a two-label array, `validateLabels` does what C2 says. -/
theorem validateLabels_contract_witness :
    (plain (str "task") = true ∧ isArray (str "task") = false ∧
      validateLabels (str "task") "Task" (TemplateValidator.new sampleRegistry)
        = (false, (TemplateValidator.new sampleRegistry).addError "Task"
            "Labels deve ser um array"))
    ∧ (plain (arr []) = true ∧
      validateLabels (arr []) "Task" (TemplateValidator.new sampleRegistry)
        = (true, (TemplateValidator.new sampleRegistry).addWarning "Task"
            "Nenhuma label definida"))
    ∧ (plain (arr [str "novo", str "task"]) = true ∧
      (validateLabels (arr [str "novo", str "task"]) "Task"
          (TemplateValidator.new sampleRegistry)).2.errors
        = [⟨"Task", "Label desconhecida: \"novo\". Adicione em config/labels.json"⟩]) :=
  ⟨⟨rfl, rfl,
      (validateLabels_contract (str "task") "Task" (TemplateValidator.new sampleRegistry)
        rfl).1 rfl⟩,
    ⟨rfl, (validateLabels_contract (arr []) "Task" (TemplateValidator.new sampleRegistry)
      rfl).2.1 rfl⟩,
    ⟨rfl, ((validateLabels_contract (arr [str "novo", str "task"]) "Task"
      (TemplateValidator.new sampleRegistry) rfl).2.2 (str "novo") [str "task"] rfl).1⟩⟩

/-- The sample task, story and epic have titles, and get no title error. -/
theorem title_error_iff_missing_witness :
    (isNullish sampleTask = false ∧ plain sampleTask = true ∧
      ∃ r, validateTask sampleTask (str "Cadastro") (str "Usuarios")
          (TemplateValidator.new sampleRegistry) = some r ∧
        ∃ E, r.2.errors = (TemplateValidator.new sampleRegistry).errors ++ E ∧
          ((⟨taskContext sampleTask (str "Cadastro") (str "Usuarios"),
              "Task deve ter titulo (string nao vazia)"⟩ : Entry) ∈ E
            ↔ titleMissing (prop sampleTask "title") = true))
    ∧ (storyCompletes sampleStory = true ∧ plain sampleStory = true ∧
      ∃ r, validateStory sampleStory (str "Usuarios")
          (TemplateValidator.new sampleRegistry) = some r ∧
        ∃ E, r.2.errors = (TemplateValidator.new sampleRegistry).errors ++ E ∧
          ((⟨storyContext sampleStory (str "Usuarios"),
              "Story deve ter titulo (string nao vazia)"⟩ : Entry) ∈ E
            ↔ titleMissing (prop sampleStory "title") = true))
    ∧ (isNullish sampleEpic = false ∧ plain sampleEpic = true ∧
      ∃ r, validateEpic sampleEpic "templates/base.json"
          (TemplateValidator.new sampleRegistry) = some r ∧
        ∃ E, r.2.errors = (TemplateValidator.new sampleRegistry).errors ++ E ∧
          ((⟨epicContext sampleEpic "templates/base.json",
              "Epic deve ter titulo (string nao vazia)"⟩ : Entry) ∈ E
            ↔ titleMissing (prop sampleEpic "title") = true)) :=
  ⟨⟨rfl, rfl, title_error_iff_missing.1 _ _ _ _ rfl rfl rfl rfl⟩,
    ⟨rfl, rfl, title_error_iff_missing.2.1 _ _ _ rfl rfl rfl⟩,
    ⟨rfl, rfl, title_error_iff_missing.2.2 _ _ _ rfl rfl⟩⟩

/-- The task with the empty description gets the description error; the sample story and epic,
which have descriptions, are covered too. -/
theorem description_error_iff_missing_witness :
    (isNullish taskEmptyDescription = false ∧ plain taskEmptyDescription = true ∧
      ∃ r, validateTask taskEmptyDescription (str "Cadastro") (str "Usuarios")
          (TemplateValidator.new sampleRegistry) = some r ∧
        ∃ E, r.2.errors = (TemplateValidator.new sampleRegistry).errors ++ E ∧
          ((⟨taskContext taskEmptyDescription (str "Cadastro") (str "Usuarios"),
              "Task deve ter descricao (string)"⟩ : Entry) ∈ E
            ↔ descriptionMissing (prop taskEmptyDescription "description") = true))
    ∧ (storyCompletes sampleStory = true ∧ plain sampleStory = true ∧
      ∃ r, validateStory sampleStory (str "Usuarios")
          (TemplateValidator.new sampleRegistry) = some r ∧
        ∃ E, r.2.errors = (TemplateValidator.new sampleRegistry).errors ++ E ∧
          ((⟨storyContext sampleStory (str "Usuarios"),
              "Story deve ter descricao (string)"⟩ : Entry) ∈ E
            ↔ descriptionMissing (prop sampleStory "description") = true))
    ∧ (isNullish sampleEpic = false ∧ plain sampleEpic = true ∧
      ∃ r, validateEpic sampleEpic "templates/base.json"
          (TemplateValidator.new sampleRegistry) = some r ∧
        ∃ E, r.2.errors = (TemplateValidator.new sampleRegistry).errors ++ E ∧
          ((⟨epicContext sampleEpic "templates/base.json",
              "Epic deve ter descricao (string)"⟩ : Entry) ∈ E
            ↔ descriptionMissing (prop sampleEpic "description") = true)) :=
  ⟨⟨rfl, rfl, description_error_iff_missing.1 _ _ _ _ rfl rfl rfl rfl⟩,
    ⟨rfl, rfl, description_error_iff_missing.2.1 _ _ _ rfl rfl rfl⟩,
    ⟨rfl, rfl, description_error_iff_missing.2.2 _ _ _ rfl rfl⟩⟩

/-- C5 as stated fails: a Task whose description is the empty string, a string, is not accepted;
`validateTask` records the description error and returns `false`. -/
theorem empty_description_rejected :
    outcome (validateTask taskEmptyDescription (str "Cadastro") (str "Usuarios")
        (TemplateValidator.new sampleRegistry))
      = some (false,
          [⟨"Task \"Criar tabela\" (Story: Cadastro, Epic: Usuarios)",
            "Task deve ter descricao (string)"⟩], []) := by
  decide

/-- A task and a story whose `depends_on` is a string are rejected with the error of the field. -/
theorem non_array_reference_rejected_witness :
    (isNullish taskDependsString = false ∧ truthy (prop taskDependsString "depends_on") = true
      ∧ isArray (prop taskDependsString "depends_on") = false ∧
      ∃ r, validateTask taskDependsString (str "Cadastro") (str "Usuarios")
          (TemplateValidator.new sampleRegistry) = some r ∧ r.1 = false ∧
        ∃ E, r.2.errors = (TemplateValidator.new sampleRegistry).errors ++ E ∧
          (⟨taskContext taskDependsString (str "Cadastro") (str "Usuarios"),
            "depends_on" ++ " deve ser um array"⟩ : Entry) ∈ E)
    ∧ (storyCompletes storyDependsString = true
      ∧ truthy (prop storyDependsString "depends_on") = true
      ∧ isArray (prop storyDependsString "depends_on") = false ∧
      ∃ r, validateStory storyDependsString (str "Usuarios")
          (TemplateValidator.new sampleRegistry) = some r ∧ r.1 = false ∧
        ∃ E, r.2.errors = (TemplateValidator.new sampleRegistry).errors ++ E ∧
          (⟨storyContext storyDependsString (str "Usuarios"),
            "depends_on deve ser um array"⟩ : Entry) ∈ E) :=
  ⟨⟨rfl, rfl, rfl,
      non_array_reference_rejected.1 _ _ _ _ "depends_on" rfl rfl rfl rfl (Or.inl rfl) rfl rfl⟩,
    ⟨rfl, rfl, rfl, non_array_reference_rejected.2 _ _ _ rfl rfl rfl rfl rfl⟩⟩

/-- An Epic whose `depends_on` is a string, a Story whose `related_to` is a string and a Task
whose `depends_on` is `0` are each accepted without an error. -/
theorem non_array_reference_accepted :
    outcome (validateEpic epicDependsString "templates/base.json"
        (TemplateValidator.new sampleRegistry)) = some (true, [], [])
    ∧ outcome (validateStory storyRelatedString (str "Usuarios")
        (TemplateValidator.new sampleRegistry))
      = some (true, [],
          [⟨"Story \"Cadastro\" (Epic: Usuarios)",
            "Story deveria ter acceptance_criteria (array)"⟩,
           ⟨"Story \"Cadastro\" (Epic: Usuarios)", "Story deveria ter tasks (array)"⟩])
    ∧ outcome (validateTask taskDependsZero (str "Cadastro") (str "Usuarios")
        (TemplateValidator.new sampleRegistry)) = some (true, [], []) := by
  decide

/-- C6 (the code departs from it): the Story `storyRelatedLogin` has the string `"[STORY] Login"`
as `related_to`, a value that is present and is not an array.  The template that holds it
passes validation with no error and no warning and `main` exits with code 0: `validateStory`
never reads `related_to`.  The same value under a Task is rejected by `validateTask` with the
error of the field, and on that Story `formatStoryBody` of the generator raises a `TypeError`
(a string has no method `forEach`). -/
theorem string_reference_passes_validation :
    truthy (prop storyRelatedLogin "related_to") = true
    ∧ isArray (prop storyRelatedLogin "related_to") = false
    ∧ outcome (validateTemplate "templates/base.json" (Except.ok relatedStringTemplate)
        (TemplateValidator.new sampleRegistry)) = some (true, [], [])
    ∧ main sampleRegistry [("templates/base.json", Except.ok relatedStringTemplate)] = 0
    ∧ outcome (validateTask taskRelatedString (str "Cadastro") (str "Usuarios")
        (TemplateValidator.new sampleRegistry))
      = some (false,
          [⟨"Task \"Criar tabela\" (Story: Cadastro, Epic: Usuarios)",
            "related_to deve ser um array"⟩], [])
    ∧ Generate.formatStoryBody Generate.sampleHost storyRelatedLogin = none := by
  decide

/-- On `depends_on: [5, "Login", "[TASK] Outra"]` the number gives one error, `Login` one
warning, and the tagged string nothing. -/
theorem task_depends_on_elements_witness :
    isNullish taskDependsMixed = false
    ∧ prop taskDependsMixed "depends_on" = arr [num "5", str "Login", str "[TASK] Outra"]
    ∧ plain taskDependsMixed = true
    ∧ ∃ r, validateTask taskDependsMixed (str "Cadastro") (str "Usuarios")
        (TemplateValidator.new sampleRegistry) = some r ∧ ∃ E1 E2 W1,
      r.2.errors = (TemplateValidator.new sampleRegistry).errors ++ (E1
        ++ ([num "5", str "Login", str "[TASK] Outra"].filter fun x => !isString x).map
            (fun _ => (⟨taskContext taskDependsMixed (str "Cadastro") (str "Usuarios"),
              "Cada item de depends_on deve ser string"⟩ : Entry))
        ++ E2)
      ∧ r.2.warnings = (TemplateValidator.new sampleRegistry).warnings ++ (W1
        ++ ([num "5", str "Login", str "[TASK] Outra"].filter
              fun x => isString x && untagged x).map
            (fun x => (⟨taskContext taskDependsMixed (str "Cadastro") (str "Usuarios"),
              dependencyFormatMessage x⟩ : Entry)))
      ∧ (∀ e ∈ E1 ++ E2, e.message ≠ "Cada item de depends_on deve ser string")
      ∧ (∀ w ∈ W1, w.message = "Nenhuma label definida") :=
  ⟨rfl, rfl, rfl, task_depends_on_elements _ _ _ _ _ rfl rfl rfl rfl rfl⟩

/-- C7 as stated fails: a Task with `related_to: [5, "Login"]`, an array with an element that is
not a string and a string element without a tag, gets neither an error nor a warning:
`validateTask` only tests that `related_to` is an array. -/
theorem reference_elements_unchecked :
    isArray (prop taskRelatedMixed "related_to") = true
    ∧ outcome (validateTask taskRelatedMixed (str "Cadastro") (str "Usuarios")
        (TemplateValidator.new sampleRegistry)) = some (true, [], []) := by
  decide

/-- A Story with `depends_on: [5, "Login"]` gets neither an error nor a warning for those
elements (`validateStory` only tests that `depends_on` is an array, where `validateTask` goes
through the elements), and a Task with `related_to: [5]` none either. -/
theorem story_reference_elements_unchecked :
    outcome (validateTask taskRelatedNumber (str "Cadastro") (str "Usuarios")
        (TemplateValidator.new sampleRegistry)) = some (true, [], [])
    ∧ outcome (validateStory storyDependsMixed (str "Usuarios")
        (TemplateValidator.new sampleRegistry))
      = some (true, [],
          [⟨"Story \"Cadastro\" (Epic: Usuarios)",
            "Story deveria ter acceptance_criteria (array)"⟩,
           ⟨"Story \"Cadastro\" (Epic: Usuarios)", "Story deveria ter tasks (array)"⟩]) := by
  decide

/-- The sample story has neither criteria nor tasks: it is valid, with exactly the two
warnings. -/
theorem story_without_criteria_or_tasks_witness :
    ∃ r, validateStory sampleStory (str "Usuarios") (TemplateValidator.new sampleRegistry)
        = some r ∧ r.1 = true ∧ r.2.errors = []
      ∧ r.2.warnings =
        [⟨"Story \"Cadastro\" (Epic: Usuarios)",
            "Story deveria ter acceptance_criteria (array)"⟩,
          ⟨"Story \"Cadastro\" (Epic: Usuarios)", "Story deveria ter tasks (array)"⟩] :=
  story_without_criteria_or_tasks sampleStory (str "Usuarios")
    (TemplateValidator.new sampleRegistry) [str "story"] rfl (by decide) (by decide) rfl
    (by
      intro l hl
      rw [List.mem_singleton] at hl
      subst hl
      rfl)
    rfl rfl rfl rfl rfl

/-- A task whose `technical_details.files` is a string is rejected. -/
theorem violating_details_rejected_witness :
    isNullish taskFilesString = false
    ∧ truthy (prop taskFilesString "technical_details") = true
    ∧ violatesShape (prop taskFilesString "technical_details") = true
    ∧ plain taskFilesString = true
    ∧ ∃ r, validateTask taskFilesString (str "Cadastro") (str "Usuarios")
        (TemplateValidator.new sampleRegistry) = some r ∧ r.1 = false ∧
      ∃ E, r.2.errors = (TemplateValidator.new sampleRegistry).errors ++ E ∧
        ∃ e ∈ E, e.path = taskContext taskFilesString (str "Cadastro") (str "Usuarios")
          ∧ detailsMessage e.message = true :=
  ⟨rfl, rfl, by decide, rfl, violating_details_rejected _ _ _ _ rfl rfl (by decide) rfl rfl rfl⟩

/-- C9 as stated fails: a Task whose `technical_details` is `{ stack: 0 }`, and one whose
`technical_details` is `0`, are each accepted without an error. -/
theorem falsy_details_accepted :
    outcome (validateTask taskStackZero (str "Cadastro") (str "Usuarios")
        (TemplateValidator.new sampleRegistry)) = some (true, [], [])
    ∧ outcome (validateTask taskDetailsZero (str "Cadastro") (str "Usuarios")
        (TemplateValidator.new sampleRegistry)) = some (true, [], []) := by
  decide

/-- The sample `technical_details`, with its extra key, is accepted and changes nothing. -/
theorem well_shaped_details_accepted_witness :
    wellShaped sampleDetails = true
    ∧ validateTechnicalDetails sampleDetails "Task" (TemplateValidator.new sampleRegistry)
      = (true, TemplateValidator.new sampleRegistry) :=
  ⟨by decide, well_shaped_details_accepted _ _ _ (by decide)⟩

theorem templateLabels_sampleTemplate :
    templateLabels sampleTemplate
      = [str "epic", str "novo", str "story", str "task", str "novo"] := rfl

/-- On the sample template the label `novo`, missing from the sample registry, is reported, and
registering it removes exactly those reports. -/
theorem unknown_label_fixed_by_registration_witness :
    JSSet.has sampleRegistry (str "novo") = false
    ∧ str "novo" ∈ templateLabels sampleTemplate
    ∧ plain sampleTemplate = true
    ∧ ∃ r, validateTemplate "templates/base.json" (Except.ok sampleTemplate)
        (TemplateValidator.new sampleRegistry) = some r
      ∧ (∃ e ∈ r.2.errors, e.message = unknownLabelMessage (str "novo"))
      ∧ ∃ r2, validateTemplate "templates/base.json" (Except.ok sampleTemplate)
          (TemplateValidator.new (JSSet.add sampleRegistry (str "novo"))) = some r2
        ∧ r2.2.errors
          = r.2.errors.filter (fun e => e.message != unknownLabelMessage (str "novo"))
        ∧ r2.2.warnings = r.2.warnings ∧ r2.2.stats = r.2.stats := by
  have hocc : str "novo" ∈ templateLabels sampleTemplate := by
    rw [templateLabels_sampleTemplate]
    simp
  have hcol : ∀ l ∈ templateLabels sampleTemplate, toStr l = "novo" → l = str "novo" := by
    rw [templateLabels_sampleTemplate]
    intro l hl
    simp only [List.mem_cons, List.mem_singleton, List.not_mem_nil, or_false] at hl
    rcases hl with rfl | rfl | rfl | rfl | rfl <;> simp [toStr]
  obtain ⟨r, hr, -⟩ := validateTemplate_eq "templates/base.json" sampleTemplate
    (TemplateValidator.new sampleRegistry) rfl (by decide)
  exact ⟨rfl, hocc, rfl, r, hr,
    unknown_label_fixed_by_registration "templates/base.json" sampleTemplate sampleRegistry
      "novo" r rfl hocc hcol hr rfl⟩

/-! ## The format of a document -/

/-- On a truthy parsed document `validateTemplate` records the unknown-format error and returns
`false` when the document has none of the three forms, and skips a labels document that has
neither template form, returning `true` with the validator unchanged. -/
theorem validateTemplate_no_template_form (filePath : String) (data : JSValue)
    (v : TemplateValidator) (ht : truthy data = true) (h1 : hasEpicForm data = false)
    (h2 : hasEpicsArray data = false) :
    validateTemplate filePath (Except.ok data) v
      = if isLabelsDocument data then some (true, v)
        else some (false, v.addError filePath (unknownFormatError filePath).message) := by
  have h3 : (truthy (prop data "epics") && isArray (prop data "epics")) = false := by
    unfold hasEpicsArray at h2
    simp [h2]
  have h4 : (truthy (prop data "labels") && isArray (prop data "labels"))
      = isLabelsDocument data := by
    unfold isLabelsDocument
    cases prop data "labels" <;> simp [truthy, isArray]
  unfold hasEpicForm at h1
  simp only [validateTemplate, validateJSON, ht, Bool.not_true, Bool.false_eq_true, if_false,
    h1, h3, h4, unknownFormatError]
  cases isLabelsDocument data <;> rfl

/-- On a document that has one of the two template forms and on which `validateTemplate`
returns, no unknown-format error is added. -/
theorem validateTemplate_template_form (filePath : String) (data : JSValue)
    (v : TemplateValidator) (r : VState) (ht : truthy data = true)
    (h : hasEpicForm data = true ∨ hasEpicsArray data = true)
    (hrun : validateTemplate filePath (Except.ok data) v = some r) :
    ∃ E, r.2.errors = v.errors ++ E ∧ unknownFormatError filePath ∉ E := by
  have hc : templateCompletes data = true := by
    cases hc : templateCompletes data
    · rw [validateTemplate_none filePath data v ht hc] at hrun
      cases hrun
    · rfl
  obtain ⟨r0, hr0, hext⟩ := validateTemplate_eq filePath data v ht hc
  rw [hrun] at hr0
  cases hr0
  refine ⟨_, errors_of_extendsBy hext, ?_⟩
  have hmsg : ∀ e : Entry, labelMessage e.message = true ∨ taskMessage e.message = true
      ∨ e.message ∈ ["Epic deve ter titulo (string nao vazia)",
        "Epic deve ter descricao (string)", "Story deve ter titulo (string nao vazia)",
        "Story deve ter descricao (string)", "depends_on deve ser um array",
        "stories deve ser um array"] → e ≠ unknownFormatError filePath := by
    intro e he heq
    rw [heq] at he
    revert he
    simp only [unknownFormatError]
    decide
  have hepic : ∀ (src : String) (ep : JSValue) (e : Entry),
      e ∈ (epicDelta v.validLabels src ep).errors → e ≠ unknownFormatError filePath := by
    intro src ep e he
    apply hmsg
    rcases mem_epicDelta.1 he with h | h | h
    · rw [h.1]; exact Or.inr (Or.inr (by simp))
    · rw [h.1]; exact Or.inr (Or.inr (by simp))
    · exact Or.inl (mem_labelsDelta h).2
  have hstory : ∀ (et st : JSValue) (e : Entry),
      e ∈ (storyDelta v.validLabels et st).errors → e ≠ unknownFormatError filePath := by
    intro et st e he
    apply hmsg
    rcases mem_storyDelta.1 he with h | h | h | h | ⟨t, -, h⟩
    · rw [h.1]; exact Or.inr (Or.inr (by simp))
    · rw [h.1]; exact Or.inr (Or.inr (by simp))
    · exact Or.inl (mem_labelsDelta h).2
    · rw [h.1]; exact Or.inr (Or.inr (by simp))
    · exact Or.inr (Or.inl (taskDelta_messages h).2)
  intro hmem
  unfold templateDelta at hmem
  split at hmem
  · simp only [Delta.append_errors, List.mem_append] at hmem
    rcases hmem with hmem | hmem
    · exact hepic _ _ _ hmem rfl
    · split at hmem
      · simp only [Delta.error, Delta.empty, List.mem_singleton] at hmem
        exact hmsg _ (Or.inr (Or.inr (by simp))) hmem.symm
      · rw [mem_concat_errors] at hmem
        obtain ⟨d, hd, he⟩ := hmem
        obtain ⟨s, -, rfl⟩ := List.mem_map.1 hd
        exact hstory _ _ _ he rfl
  · rename_i hform
    split at hmem
    · rw [mem_concat_errors] at hmem
      obtain ⟨d, hd, he⟩ := hmem
      obtain ⟨ep, -, rfl⟩ := List.mem_map.1 hd
      unfold epicTreeDelta at he
      simp only [Delta.append_errors, List.mem_append] at he
      rcases he with he | he
      · exact hepic _ _ _ he rfl
      · rw [mem_concat_errors] at he
        obtain ⟨d, hd, he⟩ := he
        obtain ⟨s, -, rfl⟩ := List.mem_map.1 hd
        exact hstory _ _ _ he rfl
    · rename_i harr
      rcases h with h | h
      · exact hform (by simpa [hasEpicForm] using h)
      · unfold hasEpicsArray at h
        have : truthy (prop data "epics") = true := by
          cases hx : prop data "epics" <;> simp_all [isArray, truthy]
        exact harr (by simp [this, h])

/-- C11 (the code departs from it): the document `null` has none of the three forms, and yet
`validateTemplate` records no unknown-format error on it: it returns `false` with the validator
unchanged. -/
theorem null_document_no_format_error (filePath : String) (v : TemplateValidator) :
    hasEpicForm null = false ∧ hasEpicsArray null = false ∧ isLabelsDocument null = false
      ∧ validateTemplate filePath (Except.ok null) v = some (false, v) :=
  ⟨rfl, rfl, rfl, rfl⟩

/-! ## The errors and the counts of a document, node by node -/

theorem concat_errors (ds : List Delta) :
    (Delta.concat ds).errors = ds.flatMap fun d => d.errors := by
  induction ds with
  | nil => rfl
  | cons d rest ih => simp [Delta.concat, ih]

theorem concat_counts (ds : List Delta) :
    (Delta.concat ds).epics = (ds.map fun d => d.epics).sum
      ∧ (Delta.concat ds).stories = (ds.map fun d => d.stories).sum
      ∧ (Delta.concat ds).tasks = (ds.map fun d => d.tasks).sum := by
  induction ds with
  | nil => exact ⟨rfl, rfl, rfl⟩
  | cons d rest ih => simp [Delta.concat, ih]

theorem labelsDelta_counts (reg : JSSet) (labels : JSValue) (c : String) :
    (labelsDelta reg labels c).epics = 0 ∧ (labelsDelta reg labels c).stories = 0
      ∧ (labelsDelta reg labels c).tasks = 0 := by
  unfold labelsDelta
  split
  · exact ⟨rfl, rfl, rfl⟩
  · split <;> exact ⟨rfl, rfl, rfl⟩

theorem taskDependsDelta_counts (c : String) (dep : JSValue) :
    (taskDependsDelta c dep).epics = 0 ∧ (taskDependsDelta c dep).stories = 0
      ∧ (taskDependsDelta c dep).tasks = 0 := by
  unfold taskDependsDelta
  split
  · split
    · exact ⟨rfl, rfl, rfl⟩
    · exact ⟨rfl, rfl, rfl⟩
  · exact ⟨rfl, rfl, rfl⟩

theorem taskDelta_counts (reg : JSSet) (st et task : JSValue) :
    (taskDelta reg st et task).epics = 0 ∧ (taskDelta reg st et task).stories = 0
      ∧ (taskDelta reg st et task).tasks = 1 := by
  obtain ⟨l1, l2, l3⟩ := labelsDelta_counts reg (prop task "labels") (taskContext task st et)
  obtain ⟨d1, d2, d3⟩ := taskDependsDelta_counts (taskContext task st et) (prop task "depends_on")
  obtain ⟨-, -, t1, t2, t3⟩ :=
    detailsDelta_frame (taskContext task st et) (prop task "technical_details")
  unfold taskDelta
  simp only [Delta.append_epics, Delta.append_stories, Delta.append_tasks, Delta.errorIf_epics,
    Delta.errorIf_stories, Delta.errorIf_tasks, l1, l2, l3, d1, d2, d3]
  split <;> split <;> simp [Delta.empty, t1, t2, t3]

theorem storyTasksDelta_errors (reg : JSSet) (c : String) (st et tasks : JSValue) :
    (storyTasksDelta reg c st et tasks).errors
      = (items tasks).flatMap fun t => (taskDelta reg st et t).errors := by
  unfold storyTasksDelta
  split
  · rename_i h
    have : items tasks = [] := by
      cases tasks <;> simp_all [items, truthy, isArray]
    rw [this]; rfl
  · split
    · rename_i h
      have : items tasks = [] := by simpa using h
      rw [this]; rfl
    · rw [concat_errors, List.flatMap_map]

theorem storyTasksDelta_counts (reg : JSSet) (c : String) (st et tasks : JSValue) :
    (storyTasksDelta reg c st et tasks).epics = 0
      ∧ (storyTasksDelta reg c st et tasks).stories = 0
      ∧ (storyTasksDelta reg c st et tasks).tasks = (items tasks).length := by
  unfold storyTasksDelta
  split
  · rename_i h
    have : items tasks = [] := by
      cases tasks <;> simp_all [items, truthy, isArray]
    rw [this]; exact ⟨rfl, rfl, rfl⟩
  · split
    · rename_i h
      have : items tasks = [] := by simpa using h
      rw [this]; exact ⟨rfl, rfl, rfl⟩
    · obtain ⟨h1, h2, h3⟩ := concat_counts ((items tasks).map (taskDelta reg st et))
      rw [h1, h2, h3]
      simp [taskDelta_counts, Function.comp_def]

theorem criteriaDelta_frame (c : String) (ac : JSValue) :
    (criteriaDelta c ac).errors = [] ∧ (criteriaDelta c ac).epics = 0
      ∧ (criteriaDelta c ac).stories = 0 ∧ (criteriaDelta c ac).tasks = 0 := by
  unfold criteriaDelta
  split
  · exact ⟨rfl, rfl, rfl, rfl⟩
  · split <;> exact ⟨rfl, rfl, rfl, rfl⟩

theorem storyDelta_counts (reg : JSSet) (et story : JSValue) :
    (storyDelta reg et story).epics = 0 ∧ (storyDelta reg et story).stories = 1
      ∧ (storyDelta reg et story).tasks = (storyTasks story).length := by
  obtain ⟨l1, l2, l3⟩ := labelsDelta_counts reg (prop story "labels") (storyContext story et)
  obtain ⟨-, c1, c2, c3⟩ :=
    criteriaDelta_frame (storyContext story et) (prop story "acceptance_criteria")
  obtain ⟨t1, t2, t3⟩ := storyTasksDelta_counts reg (storyContext story et) (prop story "title")
    et (prop story "tasks")
  unfold storyDelta storyTasks
  simp [Delta.empty, l1, l2, l3, c1, c2, c3, t1, t2, t3]

theorem epicDelta_counts (reg : JSSet) (source : String) (epic : JSValue) :
    (epicDelta reg source epic).epics = 1 ∧ (epicDelta reg source epic).stories = 0
      ∧ (epicDelta reg source epic).tasks = 0 := by
  obtain ⟨l1, l2, l3⟩ := labelsDelta_counts reg (prop epic "labels") (epicContext epic source)
  unfold epicDelta
  simp [Delta.empty, l1, l2, l3]

theorem lookupProp_filter (k : String) (hk : k ≠ "tasks") (ps : List (String × JSValue)) :
    lookupProp k (ps.filter fun p => p.1 != "tasks") = lookupProp k ps := by
  induction ps with
  | nil => rfl
  | cons p rest ih =>
    obtain ⟨k2, x⟩ := p
    by_cases h2 : k2 = "tasks"
    · subst h2
      have h3 : ("tasks" != "tasks") = false := by decide
      have h4 : ¬ "tasks" = k := fun h => hk h.symm
      rw [List.filter_cons_of_neg (by simp), ih]
      simp [lookupProp, h4]
    · have h3 : (k2 != "tasks") = true := by simp [h2]
      rw [List.filter_cons_of_pos (by simpa using h2)]
      simp [lookupProp, ih]

theorem prop_withoutTasks (story : JSValue) (k : String) (hk : k ≠ "tasks") :
    prop (withoutTasks story) k = prop story k := by
  cases story <;> try rfl
  rename_i ps
  have : ("tasks" = k) = False := by simp [eq_comm, hk]
  simp [withoutTasks, JSValue.prop, lookupProp, this, lookupProp_filter k hk]

theorem storyTasks_withoutTasks (story : JSValue) : storyTasks (withoutTasks story) = [] := by
  cases story <;> rfl

theorem storyContext_withoutTasks (story et : JSValue) :
    storyContext (withoutTasks story) et = storyContext story et := by
  unfold storyContext
  rw [prop_withoutTasks story "title" (by decide)]

theorem storyDelta_errors (reg : JSSet) (et story : JSValue) :
    (storyDelta reg et story).errors
      = (storyDelta reg et (withoutTasks story)).errors
        ++ (storyTasks story).flatMap fun t => (taskDelta reg (prop story "title") et t).errors := by
  have h0 := storyTasks_withoutTasks story
  unfold storyTasks at h0
  unfold storyDelta
  simp only [Delta.append_errors, storyTasksDelta_errors, storyContext_withoutTasks,
    prop_withoutTasks story "title" (by decide),
    prop_withoutTasks story "description" (by decide),
    prop_withoutTasks story "labels" (by decide),
    prop_withoutTasks story "acceptance_criteria" (by decide),
    prop_withoutTasks story "depends_on" (by decide), h0, storyTasks]
  simp [Delta.empty]

/-! ## No short-circuit -/

theorem errorsAlone_validateTask (reg : JSSet) (st et task : JSValue)
    (h : isNullish task = false) :
    errorsAlone (validateTask task st et (TemplateValidator.new reg))
      = (taskDelta reg st et task).errors := by
  obtain ⟨r, hr, hext⟩ := validateTask_eq task st et (TemplateValidator.new reg) h
  rw [hr]
  simpa [errorsAlone, TemplateValidator.new] using errors_of_extendsBy hext

theorem errorsAlone_validateStory (reg : JSSet) (et story : JSValue)
    (h : storyCompletes story = true) :
    errorsAlone (validateStory story et (TemplateValidator.new reg))
      = (storyDelta reg et story).errors := by
  obtain ⟨r, hr, hext⟩ := validateStory_eq story et (TemplateValidator.new reg) h
  rw [hr]
  simpa [errorsAlone, TemplateValidator.new] using errors_of_extendsBy hext

theorem errorsAlone_validateEpic (reg : JSSet) (source : String) (epic : JSValue)
    (h : isNullish epic = false) :
    errorsAlone (validateEpic epic source (TemplateValidator.new reg))
      = (epicDelta reg source epic).errors := by
  obtain ⟨r, hr, hext⟩ := validateEpic_eq epic source (TemplateValidator.new reg) h
  rw [hr]
  simpa [errorsAlone, TemplateValidator.new] using errors_of_extendsBy hext

theorem storyCompletes_withoutTasks (story : JSValue) (h : isNullish story = false) :
    storyCompletes (withoutTasks story) = true := by
  have h1 : isNullish (withoutTasks story) = false := by
    cases story <;> first | rfl | exact h
  simp [storyCompletes, storyTasks_withoutTasks, h1]

theorem storyNodeErrors_eq (reg : JSSet) (et story : JSValue)
    (h : storyCompletes story = true) :
    storyNodeErrors reg et story = (storyDelta reg et story).errors := by
  have h2 := h
  simp only [storyCompletes, Bool.and_eq_true, Bool.not_eq_true', List.all_eq_true] at h2
  unfold storyNodeErrors
  rw [errorsAlone_validateStory reg et _ (storyCompletes_withoutTasks story h2.1),
    storyDelta_errors reg et story]
  congr 1
  apply List.flatMap_congr
  intro t ht
  exact errorsAlone_validateTask reg _ et t (h2.2 t ht)

theorem flatMap_congr_mem {α β : Type} {f g : α → List β} (xs : List α)
    (h : ∀ x ∈ xs, f x = g x) : xs.flatMap f = xs.flatMap g := by
  induction xs with
  | nil => rfl
  | cons x rest ih =>
    simp only [List.flatMap_cons]
    rw [h x (List.mem_cons_self _ _), ih fun y hy => h y (List.mem_cons_of_mem _ hy)]

theorem epicNodeErrors_eq (reg : JSSet) (filePath : String) (epic : JSValue)
    (h : epicCompletes epic = true)
    (harr : isArray (prop epic "stories") = true ∨ truthy (prop epic "stories") = false) :
    epicNodeErrors reg filePath epic = (epicTreeDelta reg filePath epic).errors
      ∧ epicStories epic = some (items (prop epic "stories")) := by
  have hst : epicStories epic = some (items (prop epic "stories")) := by
    unfold epicStories
    rcases harr with ha | ha
    · cases hs : prop epic "stories" <;> simp_all [isArray, truthy, iterate, items]
    · rw [if_neg (by simp [ha])]
      cases hs : prop epic "stories" <;> simp_all [truthy, items]
  refine ⟨?_, hst⟩
  simp only [epicCompletes, hst, Bool.and_eq_true, Bool.not_eq_true', List.all_eq_true] at h
  unfold epicNodeErrors epicTreeDelta
  rw [errorsAlone_validateEpic reg filePath epic h.1, Delta.append_errors, concat_errors, hst,
    Option.getD_some, List.flatMap_map]
  congr 1
  exact flatMap_congr_mem _ fun s hs => storyNodeErrors_eq reg _ s (h.2 s hs)

theorem stats_of_extendsBy {d : Delta} {v : TemplateValidator} {r : VState}
    (h : ExtendsBy d (true, v) r) :
    r.2.stats.epics = v.stats.epics + d.epics ∧ r.2.stats.stories = v.stats.stories + d.stories
      ∧ r.2.stats.tasks = v.stats.tasks + d.tasks := by
  rw [h.2]; exact ⟨rfl, rfl, rfl⟩

theorem epicTreeDelta_counts (reg : JSSet) (filePath : String) (epic : JSValue) :
    (epicTreeDelta reg filePath epic).epics = 1
      ∧ (epicTreeDelta reg filePath epic).stories = ((epicStories epic).getD []).length
      ∧ (epicTreeDelta reg filePath epic).tasks
        = (((epicStories epic).getD []).map fun s => (storyTasks s).length).sum := by
  obtain ⟨e1, e2, e3⟩ := epicDelta_counts reg filePath epic
  obtain ⟨c1, c2, c3⟩ := concat_counts
    (((epicStories epic).getD []).map (storyDelta reg (prop epic "title")))
  unfold epicTreeDelta
  simp [e1, e2, e3, c1, c2, c3, storyDelta_counts, Function.comp_def]

/-- C12: validation never short-circuits.  For a `plain` document (no object in it has a property
of its own named `toString`, so that no template literal raises a `TypeError`) of the form
`{epic, stories: [...]}`, and for one of the form `{epics: [...]}` whose epics have an array of
stories or none, on which the validator meets no `null` node, the errors `validateTemplate` adds are the concatenation, in
document order, of the errors each node produces when validated on its own on a fresh
validator (an epic, then each story without its tasks followed by its tasks), and the three
counters grow by the number of epics, of stories and of tasks of the document. -/
theorem validation_never_short_circuits (filePath : String) (data : JSValue)
    (v : TemplateValidator) :
    plain data = true →
    (∀ ss : List JSValue, hasEpicForm data = true → prop data "stories" = arr ss →
      ss.all storyCompletes = true →
      ∃ r, validateTemplate filePath (Except.ok data) v = some r
        ∧ r.2.errors = v.errors
          ++ (errorsAlone (validateEpic (prop data "epic") filePath
                (TemplateValidator.new v.validLabels))
            ++ ss.flatMap (storyNodeErrors v.validLabels (prop (prop data "epic") "title")))
        ∧ r.2.stats.epics = v.stats.epics + 1
        ∧ r.2.stats.stories = v.stats.stories + ss.length
        ∧ r.2.stats.tasks = v.stats.tasks + (ss.map fun s => (storyTasks s).length).sum)
    ∧ (∀ es : List JSValue, hasEpicForm data = false → prop data "epics" = arr es →
      (∀ e ∈ es, epicCompletes e = true
        ∧ (isArray (prop e "stories") = true ∨ truthy (prop e "stories") = false)) →
      ∃ r, validateTemplate filePath (Except.ok data) v = some r
        ∧ r.2.errors = v.errors ++ es.flatMap (epicNodeErrors v.validLabels filePath)
        ∧ r.2.stats.epics = v.stats.epics + es.length
        ∧ r.2.stats.stories
          = v.stats.stories + (es.map fun e => (items (prop e "stories")).length).sum
        ∧ r.2.stats.tasks = v.stats.tasks
          + (es.map fun e =>
              ((items (prop e "stories")).map fun s => (storyTasks s).length).sum).sum) := by
  intro _
  have htruthy : ∀ k xs, prop data k = arr xs → truthy data = true := by
    intro k xs h
    cases data <;>
      first
      | rfl
      | (exfalso; simp only [JSValue.prop] at h; split at h <;> cases h)
      | (exfalso; simp only [JSValue.prop] at h; cases h)
  constructor
  · intro ss hform hss hall
    have ht := htruthy _ _ hss
    have hform2 : (truthy (prop data "epic") && truthy (prop data "stories")) = true := hform
    have hepic : isNullish (prop data "epic") = false := by
      apply isNullish_of_truthy
      simp only [Bool.and_eq_true] at hform2
      exact hform2.1
    have hc : templateCompletes data = true := by
      unfold templateCompletes
      rw [if_pos hform2, hss]
      exact hall
    obtain ⟨r, hr, hext⟩ := validateTemplate_eq filePath data v ht hc
    have hd : templateDelta v.validLabels filePath data
        = epicDelta v.validLabels filePath (prop data "epic")
          ++ Delta.concat (ss.map (storyDelta v.validLabels (prop (prop data "epic") "title")))
        := by
      unfold templateDelta
      rw [if_pos hform2, hss]
      rfl
    rw [hd] at hext
    obtain ⟨s1, s2, s3⟩ := stats_of_extendsBy hext
    obtain ⟨e1, e2, e3⟩ := epicDelta_counts v.validLabels filePath (prop data "epic")
    obtain ⟨c1, c2, c3⟩ := concat_counts
      (ss.map (storyDelta v.validLabels (prop (prop data "epic") "title")))
    refine ⟨r, hr, ?_, ?_, ?_, ?_⟩
    · rw [errors_of_extendsBy hext, Delta.append_errors, concat_errors, List.flatMap_map,
        errorsAlone_validateEpic _ _ _ hepic]
      congr 2
      refine (flatMap_congr_mem _ fun s hs => storyNodeErrors_eq _ _ s ?_).symm
      exact List.all_eq_true.1 hall s hs
    · rw [s1, Delta.append_epics, e1, c1]
      simp [storyDelta_counts, Function.comp_def]
    · rw [s2, Delta.append_stories, e2, c2]
      simp [storyDelta_counts, Function.comp_def]
    · rw [s3, Delta.append_tasks, e3, c3]
      simp [storyDelta_counts, Function.comp_def]
  · intro es hform hes hall
    have ht := htruthy _ _ hes
    have hform2 : (truthy (prop data "epic") && truthy (prop data "stories")) = false := hform
    have hform3 : (truthy (prop data "epics") && isArray (prop data "epics")) = true := by
      rw [hes]; rfl
    have hc : templateCompletes data = true := by
      unfold templateCompletes
      rw [if_neg (by simp [hform2]), if_pos hform3, hes]
      exact List.all_eq_true.2 fun e he => (hall e he).1
    obtain ⟨r, hr, hext⟩ := validateTemplate_eq filePath data v ht hc
    have hd : templateDelta v.validLabels filePath data
        = Delta.concat (es.map (epicTreeDelta v.validLabels filePath)) := by
      unfold templateDelta
      rw [if_neg (by simp [hform2]), if_pos hform3, hes]
      rfl
    rw [hd] at hext
    obtain ⟨s1, s2, s3⟩ := stats_of_extendsBy hext
    obtain ⟨c1, c2, c3⟩ := concat_counts (es.map (epicTreeDelta v.validLabels filePath))
    have hst : ∀ e ∈ es, (epicStories e).getD [] = items (prop e "stories") := by
      intro e he
      rw [(epicNodeErrors_eq v.validLabels filePath e (hall e he).1 (hall e he).2).2]
      rfl
    refine ⟨r, hr, ?_, ?_, ?_, ?_⟩
    · rw [errors_of_extendsBy hext, concat_errors, List.flatMap_map]
      congr 1
      exact (flatMap_congr_mem _ fun e he =>
        (epicNodeErrors_eq v.validLabels filePath e (hall e he).1 (hall e he).2).1).symm
    · rw [s1, c1]
      simp [epicTreeDelta_counts, Function.comp_def]
    · rw [s2, c2, List.map_map]
      congr 2
      apply List.map_congr_left
      intro e he
      simp [epicTreeDelta_counts, hst e he]
    · rw [s3, c3, List.map_map]
      congr 2
      apply List.map_congr_left
      intro e he
      simp [epicTreeDelta_counts, hst e he]

/-! ## Instances on the sample documents -/

/-- An instance of C12 in each of the two forms: `sampleTemplate` has the `{epic, stories}` form
with one story, `sampleEpicsTemplate` the `epics` form with two epics. -/
theorem validation_never_short_circuits_witness :
    (plain sampleTemplate = true ∧ hasEpicForm sampleTemplate = true
      ∧ ∃ r, validateTemplate "a.json" (Except.ok sampleTemplate)
            (TemplateValidator.new sampleRegistry) = some r
        ∧ r.2.errors = [] ++ (errorsAlone (validateEpic (prop sampleTemplate "epic") "a.json"
              (TemplateValidator.new sampleRegistry))
            ++ (items (prop sampleTemplate "stories")).flatMap
              (storyNodeErrors sampleRegistry (prop (prop sampleTemplate "epic") "title")))
        ∧ r.2.stats.epics = 0 + 1 ∧ r.2.stats.stories = 0 + 1 ∧ r.2.stats.tasks = 0 + 1)
    ∧ (plain sampleEpicsTemplate = true ∧ hasEpicForm sampleEpicsTemplate = false
      ∧ ∃ r, validateTemplate "b.json" (Except.ok sampleEpicsTemplate)
            (TemplateValidator.new sampleRegistry) = some r
        ∧ r.2.errors = [] ++ (items (prop sampleEpicsTemplate "epics")).flatMap
            (epicNodeErrors sampleRegistry "b.json")
        ∧ r.2.stats.epics = 0 + 2 ∧ r.2.stats.stories = 0 + 1 ∧ r.2.stats.tasks = 0 + 1) :=
  ⟨⟨rfl, rfl, (validation_never_short_circuits "a.json" sampleTemplate
      (TemplateValidator.new sampleRegistry) rfl).1 _ rfl rfl rfl⟩,
    rfl, rfl, (validation_never_short_circuits "b.json" sampleEpicsTemplate
      (TemplateValidator.new sampleRegistry) rfl).2 _ rfl rfl (by
        intro e he
        change e ∈ [_, _] at he
        simp only [List.mem_cons, List.mem_singleton, List.not_mem_nil, or_false] at he
        rcases he with rfl | rfl
        · exact ⟨rfl, Or.inl rfl⟩
        · exact ⟨rfl, Or.inr rfl⟩)⟩

namespace Generate

/-! ## createIssue -/

theorem attempts_succ (t : Tracker) (q : Request) (k a c : Nat) (hk : 1 ≤ k) :
    attempts t q (k + 1) a c
      = Event.create q (t.createOutcome c) :: Event.wait (waitTime a)
        :: attempts t q k (a + 1) (c + 1) := by
  obtain ⟨m, rfl⟩ : ∃ m, k = m + 1 := ⟨k - 1, by omega⟩
  rfl

/-- The loop of `createIssue` from the attempt `a` on makes `k` attempts, stopping at the first
outcome that is not a rate limit failure or at the end of the budget. -/
theorem createLoop_run (t : Tracker) (q : Request) (n : Nat) :
    ∀ (fuel a : Nat) (w : World), a ≤ n → a + fuel = n + 1 →
      ∃ k, 1 ≤ k ∧ a + k ≤ n + 1
        ∧ (∀ j, j + 1 < k → rateLimited (t.createOutcome (w.creates + j)) = true)
        ∧ (a + k = n + 1 ∨ rateLimited (t.createOutcome (w.creates + (k - 1))) = false)
        ∧ createLoop t q n fuel a w
          = (issueOf (t.createOutcome (w.creates + (k - 1))),
              { creates := w.creates + k, links := w.links, draws := w.draws
                trace := w.trace ++ attempts t q k a w.creates }) := by
  intro fuel
  induction fuel with
  | zero => intro a w h1 h2; omega
  | succ fuel ih =>
    intro a w h1 h2
    unfold createLoop
    rw [if_pos h1]
    cases ho : t.createOutcome w.creates with
    | success issue =>
      refine ⟨1, le_refl _, by omega, fun j hj => by omega, Or.inr ?_, ?_⟩
      · simp [ho, rateLimited]
      · simp [ho, issueOf, attempts, World.request]
    | failure errMsg =>
      simp only []
      by_cases hc : (isRateLimit errMsg && decide (a < n)) = true
      · rw [if_pos hc]
        simp only [Bool.and_eq_true, decide_eq_true_eq] at hc
        obtain ⟨k, hk1, hk2, hk3, hk4, hk5⟩ := ih (a + 1)
          ((w.request q (CreateOutcome.failure errMsg)).emit (Event.wait (waitTime a)))
          (by omega) (by omega)
        have hcr : ((w.request q (CreateOutcome.failure errMsg)).emit
            (Event.wait (waitTime a))).creates = w.creates + 1 := rfl
        rw [hcr] at hk3 hk4 hk5
        refine ⟨k + 1, by omega, by omega, ?_, ?_, ?_⟩
        · intro j hj
          cases j with
          | zero => simp [ho, rateLimited, hc.1]
          | succ j =>
            have := hk3 j (by omega)
            rwa [show w.creates + 1 + j = w.creates + (j + 1) by omega] at this
        · rcases hk4 with h | h
          · exact Or.inl (by omega)
          · refine Or.inr ?_
            rwa [show w.creates + 1 + (k - 1) = w.creates + (k + 1 - 1) by omega] at h
        · rw [hk5, attempts_succ t q k a w.creates hk1,
            show w.creates + 1 + (k - 1) = w.creates + (k + 1 - 1) by omega, ← ho]
          simp [World.request, World.emit, Nat.add_assoc, Nat.add_comm 1 k, ho]
      · rw [if_neg hc]
        refine ⟨1, le_refl _, by omega, fun j hj => by omega, ?_, ?_⟩
        · simp only [Bool.and_eq_true, decide_eq_true_eq, not_and] at hc
          by_cases hr : isRateLimit errMsg = true
          · exact Or.inl (by have := hc hr; omega)
          · exact Or.inr (by simpa [ho, rateLimited] using hr)
        · simp [ho, issueOf, attempts, World.request]

/-- C13: outside dry-run, for every tracker and every budget `n` of at least one attempt,
`createIssue` makes `k` attempts with `k` between 1 and `n`: each attempt before the last is
answered by a rate limit failure and followed by one wait, and the last is the end of the budget
or is answered by a success or by a failure that is not a rate limit; it returns the issue the
last attempt was answered with, or `null` when that was a failure (it is a total function: it
never throws).  In particular, with a budget of two or more, a rate limit failure followed by
a success gives two requests, one wait between them, and the issue of the success. -/
theorem createIssue_retry_contract (t : Tracker) (title : JSValue) (body : String)
    (labels : JSValue) (n : Nat) (w : World) (hn : 1 ≤ n) :
    (∃ k, 1 ≤ k ∧ k ≤ n
      ∧ (∀ j, j + 1 < k → rateLimited (t.createOutcome (w.creates + j)) = true)
      ∧ (k = n ∨ rateLimited (t.createOutcome (w.creates + (k - 1))) = false)
      ∧ createIssue t title body labels false n w
        = (issueOf (t.createOutcome (w.creates + (k - 1))),
            { creates := w.creates + k, links := w.links, draws := w.draws
              trace := w.trace
                ++ attempts t { title := title, body := body, labels := labels } k 1
                  w.creates }))
    ∧ (∀ issue, 2 ≤ n → rateLimited (t.createOutcome w.creates) = true →
        t.createOutcome (w.creates + 1) = CreateOutcome.success issue →
        createIssue t title body labels false n w
          = (some issue,
              { creates := w.creates + 2, links := w.links, draws := w.draws
                trace := w.trace
                  ++ [Event.create { title := title, body := body, labels := labels }
                        (t.createOutcome w.creates),
                      Event.wait 20000,
                      Event.create { title := title, body := body, labels := labels }
                        (CreateOutcome.success issue)] })) := by
  have hrun := createLoop_run t { title := title, body := body, labels := labels } n n 1 w hn
    (by omega)
  have hdef : createIssue t title body labels false n w
      = createLoop t { title := title, body := body, labels := labels } n n 1 w := by
    simp [createIssue]
  constructor
  · obtain ⟨k, hk1, hk2, hk3, hk4, hk5⟩ := hrun
    refine ⟨k, hk1, by omega, hk3, ?_, ?_⟩
    · rcases hk4 with h | h
      · exact Or.inl (by omega)
      · exact Or.inr h
    · rw [hdef, hk5]
  · intro issue h2 hrl hok
    obtain ⟨k, hk1, hk2, hk3, hk4, hk5⟩ := hrun
    have hk : k = 2 := by
      have hne1 : k ≠ 1 := by
        intro h1
        subst h1
        rcases hk4 with h | h
        · omega
        · simp [hrl] at h
      have hle : k ≤ 2 := by
        by_contra hgt
        have := hk3 1 (by omega)
        simp [hok, rateLimited] at this
      omega
    subst hk
    rw [hdef, hk5]
    simp [hok, issueOf, attempts, waitTime]

end Generate

namespace Generate

/-! ## Placeholders, and the packages block -/

/-- The search of `excessBits` finds the least number of digits to drop: what is left fits in
53 digits, and when a digit is dropped the number has more than 53. -/
theorem excessBits_spec : ∀ (fuel n : Nat), n < 2 ^ 53 * 2 ^ fuel →
    n / 2 ^ excessBits fuel n < 2 ^ 53
      ∧ (0 < excessBits fuel n → 2 ^ (52 + excessBits fuel n) ≤ n) := by
  intro fuel
  induction fuel with
  | zero =>
    intro n h
    rw [excessBits]
    exact ⟨by simpa using h, fun h0 => absurd h0 (Nat.lt_irrefl 0)⟩
  | succ fuel ih =>
    intro n h
    rw [excessBits]
    by_cases hn : n < 2 ^ 53
    · rw [if_pos hn]
      exact ⟨by simpa using hn, fun h0 => absurd h0 (Nat.lt_irrefl 0)⟩
    · rw [if_neg hn]
      have hhalf : n / 2 < 2 ^ 53 * 2 ^ fuel := by
        rw [Nat.div_lt_iff_lt_mul (by decide : 0 < 2)]
        calc n < 2 ^ 53 * 2 ^ (fuel + 1) := h
          _ = 2 ^ 53 * 2 ^ fuel * 2 := by ring
      obtain ⟨h1, h2⟩ := ih (n / 2) hhalf
      refine ⟨?_, fun _ => ?_⟩
      · rw [Nat.pow_succ, Nat.mul_comm, ← Nat.div_div_eq_div_mul]
        exact h1
      · rcases Nat.eq_zero_or_pos (excessBits fuel (n / 2)) with h0 | h0
        · rw [h0]
          exact Nat.le_of_not_lt hn
        · have h3 := h2 h0
          have h4 : 2 ^ (52 + excessBits fuel (n / 2)) * 2 ≤ n :=
            (Nat.le_div_iff_mul_le (by decide : 0 < 2)).1 h3
          calc 2 ^ (52 + (excessBits fuel (n / 2) + 1))
              = 2 ^ (52 + excessBits fuel (n / 2)) * 2 := by
                rw [← Nat.add_assoc, Nat.pow_succ]
            _ ≤ n := h4

/-- Rounding to the nearest significand adds at most half of the last digit kept. -/
theorem roundSignificand_le (n : Nat) :
    2 * roundSignificand n ≤ 2 * n + 2 ^ excessBits n n := by
  unfold roundSignificand
  simp only []
  have hdm := Nat.div_add_mod n (2 ^ excessBits n n)
  rw [Nat.mul_comm] at hdm
  generalize 2 ^ excessBits n n = P at hdm ⊢
  generalize hr : n % P = r at hdm ⊢
  generalize hq : n / P * P = qp at hdm
  have hq1 : (n / P + 1) * P = qp + P := by rw [Nat.add_mul, hq, Nat.one_mul]
  split
  · omega
  · split
    · omega
    · rw [hq1]; omega

/-- The floor of the product of a result of `Math.random()` with a positive integer `k` is
below `k`, in the arithmetic of doubles too. -/
theorem Draw.scaled_lt (d : Draw) (k : Nat) (hk : 0 < k) : d.scaled k < k := by
  unfold Draw.scaled
  rw [Nat.div_lt_iff_lt_mul (Nat.two_pow_pos _)]
  have h1 : d.mant * k + k ≤ k * 2 ^ d.exp := by
    have := Nat.mul_le_mul_right k (Nat.succ_le_of_lt d.lt)
    rw [Nat.succ_mul] at this
    rw [Nat.mul_comm k]
    exact this
  have h2 : d.mant * k < 2 ^ 53 * 2 ^ (d.mant * k) :=
    Nat.lt_of_lt_of_le (Nat.lt_two_pow _)
      (Nat.le_mul_of_pos_left _ (Nat.two_pow_pos _))
  obtain ⟨-, hs⟩ := excessBits_spec (d.mant * k) (d.mant * k) h2
  have h3 : 2 ^ excessBits (d.mant * k) (d.mant * k) < 2 * k := by
    rcases Nat.eq_zero_or_pos (excessBits (d.mant * k) (d.mant * k)) with h0 | h0
    · rw [h0]
      show 1 < 2 * k
      omega
    · have h4 := hs h0
      have h5 : d.mant * k < 2 ^ 53 * k := Nat.mul_lt_mul_of_pos_right d.significand hk
      obtain ⟨j, hj⟩ : ∃ j, excessBits (d.mant * k) (d.mant * k) = j + 1 :=
        ⟨_, (Nat.succ_pred_eq_of_pos h0).symm⟩
      rw [hj] at h4 ⊢
      have h6 : 2 ^ 53 * 2 ^ j < 2 ^ 53 * k := by
        calc 2 ^ 53 * 2 ^ j = 2 ^ (52 + (j + 1)) := by
              rw [← Nat.pow_add]
              congr 1
              omega
          _ ≤ d.mant * k := h4
          _ < 2 ^ 53 * k := h5
      have h7 : 2 ^ j < k := Nat.lt_of_mul_lt_mul_left h6
      rw [Nat.pow_succ]
      omega
  have h4 := roundSignificand_le (d.mant * k)
  omega

/-- C16 (as amended): in dry-run `createIssue` sends nothing and returns the placeholder made of
two successive results of the random source: `Math.floor` of the first times 10000, a number
below 10000, and of the second times 1000000000, an id below 1000000000, both in the arithmetic
of doubles; the placeholder depends on nothing else, so that two nodes have the same one
whenever their results round to the same integers. -/
theorem dry_run_placeholder (t : Tracker) (title : JSValue) (body : String) (labels : JSValue)
    (n : Nat) (w : World) :
    createIssue t title body labels true n w
        = (some (placeholder t w.draws), { w with draws := w.draws + 2 })
      ∧ (placeholder t w.draws).number < 10000
      ∧ (placeholder t w.draws).id < 1000000000
      ∧ ∀ k, (t.random k).scaled 10000 = (t.random w.draws).scaled 10000 →
          (t.random (k + 1)).scaled 1000000000 = (t.random (w.draws + 1)).scaled 1000000000 →
          placeholder t k = placeholder t w.draws := by
  refine ⟨rfl, Draw.scaled_lt _ _ (by decide), Draw.scaled_lt _ _ (by decide), ?_⟩
  intro k h1 h2
  simp only [placeholder, h1, h2]

/-- C20 (as amended): for every object value of the key `packages`, with `deps` the keys of
a truthy `dependencies` and `devDeps` those of a truthy `devDependencies`: when both are empty
the rendering is the empty string; otherwise it is the heading `**Pacotes:**`, the fenced block
`pnpm add <deps>` when `deps` is not empty, then the fenced block `pnpm add -D <devDeps>` when
`devDeps` is not empty, and an empty line. -/
theorem packages_rendering (ps : List (String × JSValue)) :
    renderTechnicalValue "packages" (obj ps)
      = if (packageNames (obj ps) "dependencies").isEmpty
            && (packageNames (obj ps) "devDependencies").isEmpty then ""
        else "**Pacotes:**\n"
          ++ (if (packageNames (obj ps) "dependencies").isEmpty then ""
              else installBlock "" (packageNames (obj ps) "dependencies"))
          ++ (if (packageNames (obj ps) "devDependencies").isEmpty then ""
              else installBlock "-D " (packageNames (obj ps) "devDependencies"))
          ++ "\n" := by
  have h1 : (typeOf (obj ps) == "string") = false := by
    show (("object" : String) == "string") = false
    decide
  have h2 : isArray (obj ps) = false := rfl
  have h3 : (typeOf (obj ps) == "object" && !isNull (obj ps) && !isArray (obj ps)) = true := by
    show ((("object" : String) == "object") && !false && !false) = true
    decide
  have h4 : ("packages" == "packages") = true := by decide
  unfold renderTechnicalValue
  rw [if_neg (by simp [h1]), if_neg (by simp [h2]), if_pos h3, if_pos h4]
  unfold renderPackages packageNames installBlock
  simp only []
  cases hd : (if truthy (prop (obj ps) "dependencies") = true then
      ownKeys (prop (obj ps) "dependencies") else []) with
  | nil =>
    cases hv : (if truthy (prop (obj ps) "devDependencies") = true then
        ownKeys (prop (obj ps) "devDependencies") else []) with
    | nil => simp
    | cons b bs => simp
  | cons a as =>
    cases hv : (if truthy (prop (obj ps) "devDependencies") = true then
        ownKeys (prop (obj ps) "devDependencies") else []) with
    | nil => simp
    | cons b bs => simp

end Generate

namespace Generate

/-! ## Two runs that depart from the specification -/

/-- Against C16: in a dry run with the four different results 1/2, 1/4, 1/2 + 1/2^19 and
1/4 + 1/2^40 of `Math.random()` (all of them doubles, whose products with 10000 and
1000000000 are exact), the epic and its story receive the same placeholder, number 5000 and id
250000000. -/
theorem placeholders_coincide :
    (processEpic sampleHost closeDraws backlogEpic singleStory "Demo" true World.start).map
        (fun w => w.trace)
      = some [Event.created Level.epic "[Demo] Pagamentos" { number := 5000, id := 250000000 },
          Event.created Level.story "Checkout" { number := 5000, id := 250000000 }] := by
  rfl

/-- The products of `nearDraw` are rounded before they are floored: the exact products are
below 5121 and below 512100000, the doubles nearest to them are these two integers. -/
theorem scaled_rounds_product :
    nearDraw.mant * 10000 / 2 ^ nearDraw.exp = 5120 ∧ nearDraw.scaled 10000 = 5121
      ∧ nearDraw.mant * 1000000000 / 2 ^ nearDraw.exp = 512099999
      ∧ nearDraw.scaled 1000000000 = 512100000 := by
  decide

/-- The keys of a string are the indices of its code units, two for a character outside the
Basic Multilingual Plane: the string made of the letter `a` and of the character U+1F600 has
the keys 0, 1 and 2. -/
theorem package_names_of_string :
    renderTechnicalValue "packages"
        (obj [("dependencies", str (String.mk [Char.ofNat 97, Char.ofNat 128512]))])
      = "**Pacotes:**\n```bash\npnpm add 0 1 2\n```\n\n" := by
  decide

/-- Against C20: a `packages` object without `dependencies` and `devDependencies` is rendered as
the empty string, while the rendering of an object by its properties gives a heading and
a line for the property. -/
theorem packages_object_rendered_empty :
    renderTechnicalValue "packages" (obj [("registry", str "npm")]) = ""
      ∧ renderObject "packages" (obj [("registry", str "npm")])
        = "**Packages:**\n- **Registry:** npm\n\n" := by
  decide

/-- The example of the specification: `dependencies` with `react`, an empty
`devDependencies`. -/
theorem packages_react_example :
    renderTechnicalValue "packages"
        (obj [("dependencies", obj [("react", str "*")]), ("devDependencies", obj [])])
      = "**Pacotes:**\n```bash\npnpm add react\n```\n\n" := by
  decide

/-- A run outside dry-run in which the tracker refuses the first story: the tasks of that
story are not attempted, the second story is created and linked to the epic, and the epic stays
reported as created. -/
theorem refused_story_run :
    (processEpic sampleHost refusingTracker backlogEpic backlogStories "Demo" false
        World.start).map (fun w => w.trace)
      = some [
          Event.create (epicRequest sampleHost "Demo" backlogEpic backlogStories)
            (CreateOutcome.success { number := 100, id := 9000 }),
          Event.created Level.epic "[Demo] Pagamentos" { number := 100, id := 9000 },
          Event.delay 2000,
          Event.create (storyRequest sampleHost checkoutStory)
            (CreateOutcome.failure "HTTP 422: Validation Failed"),
          Event.failed Level.story "Checkout",
          Event.delay 2000,
          Event.create (storyRequest sampleHost invoicesStory)
            (CreateOutcome.success { number := 102, id := 9002 }),
          Event.link 100 9002,
          Event.created Level.story "Faturas" { number := 102, id := 9002 }] := by
  rfl

end Generate

namespace Generate

/-! ## The events of processEpic outside dry-run -/

/-- The loop of `createIssue` adds the events of its attempts to the trace and leaves the
counters of links and of random results as they are. -/
theorem createLoop_attempts (t : Tracker) (q : Request) (n : Nat) :
    ∀ (fuel a : Nat) (w : World), a ≤ n → a + fuel = n + 1 →
      ∃ A, Attempts q A (createLoop t q n fuel a w).1
        ∧ (createLoop t q n fuel a w).2.trace = w.trace ++ A
        ∧ (createLoop t q n fuel a w).2.links = w.links
        ∧ (createLoop t q n fuel a w).2.draws = w.draws := by
  intro fuel
  induction fuel with
  | zero => intro a w h1 h2; omega
  | succ fuel ih =>
    intro a w h1 h2
    unfold createLoop
    rw [if_pos h1]
    cases t.createOutcome w.creates with
    | success issue => exact ⟨_, Attempts.success issue, rfl, rfl, rfl⟩
    | failure errMsg =>
      simp only []
      by_cases hc : (isRateLimit errMsg && decide (a < n)) = true
      · rw [if_pos hc]
        simp only [Bool.and_eq_true, decide_eq_true_eq] at hc
        obtain ⟨A, hA, htr, hl, hd⟩ := ih (a + 1)
          ((w.request q (CreateOutcome.failure errMsg)).emit (Event.wait (waitTime a)))
          (by omega) (by omega)
        refine ⟨_, Attempts.retry errMsg (waitTime a) A _ hc.1 hA, ?_, ?_, ?_⟩
        · rw [htr]; simp [World.request, World.emit]
        · rw [hl]; rfl
        · rw [hd]; rfl
      · rw [if_neg hc]
        exact ⟨_, Attempts.failure errMsg, rfl, rfl, rfl⟩

theorem createIssue_attempts (t : Tracker) (title : JSValue) (body : String) (labels : JSValue)
    (w : World) :
    ∃ A, Attempts { title := title, body := body, labels := labels } A
          (createIssue t title body labels false 3 w).1
      ∧ (createIssue t title body labels false 3 w).2.trace = w.trace ++ A
      ∧ (createIssue t title body labels false 3 w).2.links = w.links
      ∧ (createIssue t title body labels false 3 w).2.draws = w.draws := by
  have hdef : createIssue t title body labels false 3 w
      = createLoop t { title := title, body := body, labels := labels } 3 3 1 w := by
    simp [createIssue]
  rw [hdef]
  exact createLoop_attempts t _ 3 3 1 w (by omega) (by omega)

/-- Outside dry-run and on tasks that can be sent, the loop over the tasks of a created story
returns, having added one block of events for each task, in order. -/
theorem processTasks_blocks (h : Host) (t : Tracker) (storyIssue : RemoteIssue)
    (storyTitle : JSValue) :
    ∀ (tasks : List JSValue) (w : World), tasks.all (taskRenders h storyTitle) = true →
      ∃ w' Bs, processTasks h t false storyIssue storyTitle tasks w = some w'
        ∧ List.Forall₂ (TaskBlock h storyIssue storyTitle) tasks Bs
        ∧ w'.trace = w.trace ++ Bs.flatten ∧ w'.draws = w.draws := by
  intro tasks
  induction tasks with
  | nil => intro w _; exact ⟨w, [], rfl, List.Forall₂.nil, by simp, rfl⟩
  | cons task rest ih =>
    intro w hall
    simp only [List.all_cons, Bool.and_eq_true] at hall
    obtain ⟨htask, hrest⟩ := hall
    simp only [taskRenders, Bool.and_eq_true, Bool.not_eq_true', Option.isSome_iff_exists]
      at htask
    obtain ⟨hn, body, hbody⟩ := htask
    obtain ⟨A, hA, htr, -, hdr⟩ := createIssue_attempts t (prop task "title") body
      (orElse (prop task "labels") (arr [str "task"])) (pause false 1500 w)
    have hq : (⟨prop task "title", body, orElse (prop task "labels") (arr [str "task"])⟩ :
        Request) = taskRequest h storyTitle task := by
      simp [taskRequest, hbody]
    rw [hq] at hA
    unfold processTasks
    rw [if_neg (by simp [hn]), hbody]
    simp only []
    generalize createIssue t (prop task "title") body
      (orElse (prop task "labels") (arr [str "task"])) false 3 (pause false 1500 w) = res
      at hA htr hdr
    obtain ⟨r, w1⟩ := res
    simp only at hA htr hdr
    cases r with
    | none =>
      obtain ⟨w', Bs, hrun, hBs, htr2, hdr2⟩ := ih
        (w1.emit (Event.failed Level.task (toStr (prop task "title")))) hrest
      refine ⟨w', _ :: Bs, hrun, List.Forall₂.cons ⟨A, none, hA, rfl⟩ hBs, ?_, ?_⟩
      · rw [htr2]
        simp [World.emit, htr, pause]
      · rw [hdr2]
        simpa [World.emit, pause] using hdr
    | some taskIssue =>
      obtain ⟨w', Bs, hrun, hBs, htr2, hdr2⟩ := ih
        ((linkTo t storyIssue.number taskIssue.id false w1).emit
          (Event.created Level.task (toStr (prop task "title")) taskIssue)) hrest
      refine ⟨w', _ :: Bs, hrun, List.Forall₂.cons ⟨A, some taskIssue, hA, rfl⟩ hBs, ?_, ?_⟩
      · rw [htr2]
        simp [World.emit, htr, pause, linkTo, addSubIssue]
      · rw [hdr2]
        simpa [World.emit, pause, linkTo, addSubIssue] using hdr

end Generate

namespace Generate

/-- Outside dry-run and on stories that can be sent, the loop over the stories of a created epic
returns, having added one block of events for each story, in order. -/
theorem processStories_blocks (h : Host) (t : Tracker) (epicIssue : RemoteIssue) :
    ∀ (stories : List JSValue) (w : World), stories.all (storyRenders h) = true →
      ∃ w' Bs, processStories h t false epicIssue stories w = some w'
        ∧ List.Forall₂ (StoryBlock h epicIssue) stories Bs
        ∧ w'.trace = w.trace ++ Bs.flatten ∧ w'.draws = w.draws := by
  intro stories
  induction stories with
  | nil => intro w _; exact ⟨w, [], rfl, List.Forall₂.nil, by simp, rfl⟩
  | cons story rest ih =>
    intro w hall
    simp only [List.all_cons, Bool.and_eq_true] at hall
    obtain ⟨hstory, hrest⟩ := hall
    simp only [storyRenders, Bool.and_eq_true, Bool.not_eq_true', Option.isSome_iff_exists]
      at hstory
    obtain ⟨⟨⟨hn, body, hbody⟩, tasks, htasks⟩, hall⟩ := hstory
    have hlist : storyTaskList story = tasks := by simp [storyTaskList, htasks]
    rw [hlist] at hall
    obtain ⟨A, hA, htr, -, hdr⟩ := createIssue_attempts t (prop story "title") body
      (orElse (prop story "labels") (arr [str "story"])) (pause false 2000 w)
    have hq : (⟨prop story "title", body, orElse (prop story "labels") (arr [str "story"])⟩ :
        Request) = storyRequest h story := by
      simp [storyRequest, hbody]
    rw [hq] at hA
    unfold processStories
    rw [if_neg (by simp [hn]), hbody]
    simp only []
    generalize createIssue t (prop story "title") body
      (orElse (prop story "labels") (arr [str "story"])) false 3 (pause false 2000 w) = res
      at hA htr hdr
    obtain ⟨r, w1⟩ := res
    simp only at hA htr hdr
    cases r with
    | none =>
      obtain ⟨w', Bs, hrun, hBs, htr2, hdr2⟩ := ih
        (w1.emit (Event.failed Level.story (toStr (prop story "title")))) hrest
      refine ⟨w', _ :: Bs, hrun, List.Forall₂.cons ⟨A, none, hA, rfl⟩ hBs, ?_, ?_⟩
      · rw [htr2]
        simp [World.emit, htr, pause]
      · rw [hdr2]
        simpa [World.emit, pause] using hdr
    | some storyIssue =>
      simp only [htasks]
      obtain ⟨w2, Ts, hrunT, hTs, htrT, hdrT⟩ := processTasks_blocks h t storyIssue
        (prop story "title") tasks
        ((linkTo t epicIssue.number storyIssue.id false w1).emit
          (Event.created Level.story (toStr (prop story "title")) storyIssue)) hall
      rw [hrunT]
      simp only []
      obtain ⟨w', Bs, hrun, hBs, htr2, hdr2⟩ := ih w2 hrest
      refine ⟨w', _ :: Bs, hrun,
        List.Forall₂.cons ⟨A, some storyIssue, hA, Ts, by rw [hlist]; exact hTs, rfl⟩ hBs,
        ?_, ?_⟩
      · rw [htr2, htrT]
        simp [World.emit, htr, pause, linkTo, addSubIssue]
      · rw [hdr2, hdrT]
        simpa [World.emit, pause, linkTo, addSubIssue] using hdr

/-- When `formatEpicBody` returns, the stories are an array (the receiver of `forEach`). -/
theorem iterate_of_formatEpicBody (h : Host) (epicData stories : JSValue) (body : String)
    (hb : formatEpicBody h epicData stories = some body) :
    iterate stories = some (items stories) := by
  unfold formatEpicBody at hb
  split at hb
  · cases hb
  · split at hb
    · cases hb
    · cases stories <;> first | rfl | (simp [forEachItems] at hb)

/-- C14: outside dry-run, on an epic whose nodes can be sent (`epicRenders`), taken among those
the embedding renders as the program does (`epicPlain`: no object has a property of its own
named `toString`, no `technical_details` is a string), `processEpic` returns, and the
events it adds are the attempts to create the epic followed, when the last of them fails, by the
failure report of the epic and nothing else (no story and no task is attempted), and, when it
succeeds, by the creation report of the epic and one block for each story, in template order
whatever the outcome of the stories and tasks before: the pause, the attempts to create the
story, and then either its failure report alone (none of its tasks is attempted) or its link,
its creation report and one block for each of its tasks, in order (the pause, the attempts,
and the failure report or the link and the creation report). -/
theorem processEpic_attempts_every_sibling (h : Host) (t : Tracker) (epicData stories : JSValue)
    (projectName : String) (w : World) (hr : epicRenders h epicData stories = true) :
    epicPlain epicData stories = true →
    ∃ w' A r, processEpic h t epicData stories projectName false w = some w'
      ∧ Attempts (epicRequest h projectName epicData stories) A r
      ∧ match r with
        | none =>
          w'.trace = w.trace ++ A ++ [Event.failed Level.epic (epicTitle projectName epicData)]
        | some epicIssue =>
          ∃ Bs, List.Forall₂ (StoryBlock h epicIssue) (items stories) Bs
            ∧ w'.trace = w.trace ++ A
              ++ Event.created Level.epic (epicTitle projectName epicData) epicIssue
                :: Bs.flatten := by
  intro _
  simp only [epicRenders, Bool.and_eq_true, Bool.not_eq_true', Option.isSome_iff_exists] at hr
  obtain ⟨⟨hn, body, hbody⟩, hall⟩ := hr
  obtain ⟨A, hA, htr, -, -⟩ := createIssue_attempts t (str (epicTitle projectName epicData)) body
    (orElse (prop epicData "labels") (arr [str "epic"])) w
  have hq : (⟨str (epicTitle projectName epicData), body,
      orElse (prop epicData "labels") (arr [str "epic"])⟩ : Request)
      = epicRequest h projectName epicData stories := by
    simp [epicRequest, hbody]
  rw [hq] at hA
  unfold processEpic
  rw [if_neg (by simp [hn]), hbody]
  simp only []
  generalize createIssue t (str (epicTitle projectName epicData)) body
    (orElse (prop epicData "labels") (arr [str "epic"])) false 3 w = res at hA htr
  obtain ⟨r, w1⟩ := res
  simp only at hA htr
  cases r with
  | none =>
    refine ⟨_, A, none, rfl, hA, ?_⟩
    simp [World.emit, htr]
  | some epicIssue =>
    simp only [iterate_of_formatEpicBody h epicData stories body hbody]
    obtain ⟨w', Bs, hrun, hBs, htr2, -⟩ := processStories_blocks h t epicIssue (items stories)
      (w1.emit (Event.created Level.epic (epicTitle projectName epicData) epicIssue)) hall
    refine ⟨w', A, some epicIssue, hrun, hA, Bs, hBs, ?_⟩
    rw [htr2]
    simp [World.emit, htr]

end Generate

namespace Generate

/-! ## Dry-run -/

theorem dryReports_append (t : Tracker) :
    ∀ (xs ys : List (Level × String)) (k : Nat),
      dryReports t k (xs ++ ys) = dryReports t k xs ++ dryReports t (k + 2 * xs.length) ys := by
  intro xs
  induction xs with
  | nil => intro ys k; rfl
  | cons x rest ih =>
    intro ys k
    obtain ⟨level, title⟩ := x
    change Event.created level title (placeholder t k) :: dryReports t (k + 2) (rest ++ ys)
      = Event.created level title (placeholder t k)
        :: dryReports t (k + 2) rest ++ dryReports t (k + 2 * (rest.length + 1)) ys
    rw [ih, show k + 2 + 2 * rest.length = k + 2 * (rest.length + 1) by omega]
    rfl

theorem dryReports_cons (t : Tracker) (k : Nat) (level : Level) (title : String)
    (rest : List (Level × String)) :
    dryReports t k ((level, title) :: rest)
      = Event.created level title (placeholder t k) :: dryReports t (k + 2) rest := rfl

theorem world_eq {a b : World} (h1 : a.creates = b.creates) (h2 : a.links = b.links)
    (h3 : a.draws = b.draws) (h4 : a.trace = b.trace) : a = b := by
  cases a; cases b; simp_all

/-- In dry-run the loop over the tasks adds one creation report for each task, and two results of
the random source are used for each. -/
theorem processTasks_dry (h : Host) (t : Tracker) (storyIssue : RemoteIssue)
    (storyTitle : JSValue) :
    ∀ (tasks : List JSValue) (w : World), tasks.all (taskRenders h storyTitle) = true →
      processTasks h t true storyIssue storyTitle tasks w
        = some { creates := w.creates, links := w.links, draws := w.draws + 2 * tasks.length
                 trace := w.trace ++ dryReports t w.draws
                   (tasks.map fun task => (Level.task, toStr (prop task "title"))) } := by
  intro tasks
  induction tasks with
  | nil => intro w _; simp [processTasks, dryReports]
  | cons task rest ih =>
    intro w hall
    simp only [List.all_cons, Bool.and_eq_true] at hall
    obtain ⟨htask, hrest⟩ := hall
    simp only [taskRenders, Bool.and_eq_true, Bool.not_eq_true', Option.isSome_iff_exists]
      at htask
    obtain ⟨hn, body, hbody⟩ := htask
    unfold processTasks
    rw [if_neg (by simp [hn]), hbody]
    simp only [createIssue, pause, linkTo, if_true]
    rw [ih _ hrest]
    congr 1
    apply world_eq
    · rfl
    · rfl
    · simp only [World.emit, List.length_cons]; omega
    · simp [World.emit, dryReports, placeholder]

/-- In dry-run the loop over the stories adds one creation report for each story and each of its
tasks, in document order. -/
theorem processStories_dry (h : Host) (t : Tracker) (epicIssue : RemoteIssue) :
    ∀ (stories : List JSValue) (w : World), stories.all (storyRenders h) = true →
      processStories h t true epicIssue stories w
        = some { creates := w.creates, links := w.links
                 draws := w.draws + 2 * (stories.flatMap fun s =>
                   (Level.story, toStr (prop s "title")) :: (storyTaskList s).map fun task =>
                     (Level.task, toStr (prop task "title"))).length
                 trace := w.trace ++ dryReports t w.draws (stories.flatMap fun s =>
                   (Level.story, toStr (prop s "title")) :: (storyTaskList s).map fun task =>
                     (Level.task, toStr (prop task "title"))) } := by
  intro stories
  induction stories with
  | nil => intro w _; simp [processStories, dryReports]
  | cons story rest ih =>
    intro w hall
    simp only [List.all_cons, Bool.and_eq_true] at hall
    obtain ⟨hstory, hrest⟩ := hall
    simp only [storyRenders, Bool.and_eq_true, Bool.not_eq_true', Option.isSome_iff_exists]
      at hstory
    obtain ⟨⟨⟨hn, body, hbody⟩, tasks, htasks⟩, hall⟩ := hstory
    have hlist : storyTaskList story = tasks := by simp [storyTaskList, htasks]
    rw [hlist] at hall
    unfold processStories
    rw [if_neg (by simp [hn]), hbody]
    simp only [createIssue, pause, linkTo, if_true, htasks]
    rw [processTasks_dry h t _ _ tasks _ hall]
    simp only []
    rw [ih _ hrest]
    congr 1
    apply world_eq
    · rfl
    · rfl
    · simp only [World.emit, List.flatMap_cons, List.length_append, List.length_cons,
        List.length_map, hlist]
      omega
    · have hnodes : ((story :: rest).flatMap fun s =>
          (Level.story, toStr (prop s "title")) :: (storyTaskList s).map fun task =>
            (Level.task, toStr (prop task "title")))
          = (Level.story, toStr (prop story "title"))
            :: ((tasks.map fun task => (Level.task, toStr (prop task "title")))
              ++ rest.flatMap fun s =>
                (Level.story, toStr (prop s "title")) :: (storyTaskList s).map fun task =>
                  (Level.task, toStr (prop task "title"))) := by
        simp [List.flatMap_cons, hlist]
      rw [hnodes, dryReports_cons, dryReports_append, List.length_map]
      simp [World.emit, placeholder]

/-- C15: in dry-run, on an epic whose nodes can be sent (`epicRenders`), taken among those the
embedding renders as the program does (`epicPlain`: no object has a property of its own named
`toString`, no `technical_details` is a string), `processEpic` returns; it sends no
create request and no link request (the two counters are as before), and what it adds to the
trace is one creation report for each node, in document order, each with the placeholder made
of the next two results of the random source: no request, no wait, no delay and no failure
report occurs. -/
theorem dry_run_only_reports (h : Host) (t : Tracker) (epicData stories : JSValue)
    (projectName : String) (w : World) (hr : epicRenders h epicData stories = true) :
    epicPlain epicData stories = true →
    processEpic h t epicData stories projectName true w
      = some { creates := w.creates, links := w.links
               draws := w.draws + 2 * (nodeTitles projectName epicData (items stories)).length
               trace := w.trace
                 ++ dryReports t w.draws (nodeTitles projectName epicData (items stories)) } := by
  intro _
  simp only [epicRenders, Bool.and_eq_true, Bool.not_eq_true', Option.isSome_iff_exists] at hr
  obtain ⟨⟨hn, body, hbody⟩, hall⟩ := hr
  unfold processEpic
  rw [if_neg (by simp [hn]), hbody]
  simp only [createIssue, if_true, iterate_of_formatEpicBody h epicData stories body hbody]
  rw [processStories_dry h t _ (items stories) _ hall]
  congr 1
  apply world_eq
  · rfl
  · rfl
  · simp only [World.emit, nodeTitles, List.length_cons]
    omega
  · simp [World.emit, nodeTitles, dryReports, placeholder]

end Generate

namespace Generate

/-! ## The hierarchy of links -/

theorem hierarchy_attempts {q : Request} {A : List Event} {r : Option RemoteIssue}
    (hA : Attempts q A r) (e s : Option RemoteIssue) (rest : List Event) :
    hierarchyKept e s Pending.idle (A ++ rest) = hierarchyKept e s (Pending.after q r) rest := by
  induction hA with
  | success issue => simp [hierarchyKept, Pending.after]
  | failure errMsg => simp [hierarchyKept, Pending.after]
  | retry errMsg ms A r _ _ ih => simpa [hierarchyKept] using ih

theorem hierarchy_taskBlock {h : Host} {storyIssue : RemoteIssue} {storyTitle task : JSValue}
    {B : List Event} (hB : TaskBlock h storyIssue storyTitle task B) (e : Option RemoteIssue)
    (rest : List Event) :
    hierarchyKept e (some storyIssue) Pending.idle (B ++ rest)
      = hierarchyKept e (some storyIssue) Pending.idle rest := by
  obtain ⟨A, r, hA, rfl⟩ := hB
  cases r with
  | none =>
    simp only [List.cons_append, List.append_assoc]
    rw [hierarchyKept, hierarchy_attempts hA]
    simp [hierarchyKept, Pending.after]
  | some taskIssue =>
    simp only [List.cons_append, List.append_assoc]
    rw [hierarchyKept, hierarchy_attempts hA]
    simp [hierarchyKept, Pending.after, taskRequest]

theorem hierarchy_taskBlocks {h : Host} {storyIssue : RemoteIssue} {storyTitle : JSValue}
    {tasks : List JSValue} {Bs : List (List Event)}
    (hBs : List.Forall₂ (TaskBlock h storyIssue storyTitle) tasks Bs) (e : Option RemoteIssue)
    (rest : List Event) :
    hierarchyKept e (some storyIssue) Pending.idle (Bs.flatten ++ rest)
      = hierarchyKept e (some storyIssue) Pending.idle rest := by
  induction hBs with
  | nil => rfl
  | cons hB _ ih =>
    rw [List.flatten_cons, List.append_assoc, hierarchy_taskBlock hB, ih]

theorem hierarchy_storyBlock {h : Host} {epicIssue : RemoteIssue} {story : JSValue}
    {B : List Event} (hB : StoryBlock h epicIssue story B) (s : Option RemoteIssue)
    (rest : List Event) :
    ∃ s2, hierarchyKept (some epicIssue) s Pending.idle (B ++ rest)
      = hierarchyKept (some epicIssue) s2 Pending.idle rest := by
  obtain ⟨A, r, hA, hB⟩ := hB
  cases r with
  | none =>
    simp only at hB
    subst hB
    refine ⟨s, ?_⟩
    simp only [List.cons_append, List.append_assoc]
    rw [hierarchyKept, hierarchy_attempts hA]
    simp [hierarchyKept, Pending.after]
  | some storyIssue =>
    simp only at hB
    obtain ⟨Bs, hBs, rfl⟩ := hB
    refine ⟨some storyIssue, ?_⟩
    simp only [List.cons_append, List.append_assoc]
    rw [hierarchyKept, hierarchy_attempts hA]
    simp [hierarchyKept, Pending.after, storyRequest, hierarchy_taskBlocks hBs]

theorem hierarchy_storyBlocks {h : Host} {epicIssue : RemoteIssue} {stories : List JSValue}
    {Bs : List (List Event)} (hBs : List.Forall₂ (StoryBlock h epicIssue) stories Bs) :
    ∀ (s : Option RemoteIssue) (rest : List Event),
      ∃ s2, hierarchyKept (some epicIssue) s Pending.idle (Bs.flatten ++ rest)
        = hierarchyKept (some epicIssue) s2 Pending.idle rest := by
  induction hBs with
  | nil => intro s rest; exact ⟨s, rfl⟩
  | @cons story B stories2 Bs2 hB _ ih =>
    intro s rest
    obtain ⟨s1, h1⟩ := hierarchy_storyBlock hB s (Bs2.flatten ++ rest)
    obtain ⟨s2, h2⟩ := ih s1 rest
    refine ⟨s2, ?_⟩
    rw [List.flatten_cons, List.append_assoc, h1, h2]

/-! ## The reports and the links of the blocks -/

/-- The attempts of a call of `createIssue` hold no report and no link request. -/
theorem attempts_silent {q : Request} {A : List Event} {r : Option RemoteIssue}
    (hA : Attempts q A r) :
    A.filter isReport = [] ∧ linkRequests A = [] ∧ createdBelowEpic A = [] := by
  induction hA with
  | success issue => exact ⟨rfl, rfl, rfl⟩
  | failure errMsg => exact ⟨rfl, rfl, rfl⟩
  | retry errMsg ms A r _ _ ih =>
    obtain ⟨h1, h2, h3⟩ := ih
    refine ⟨?_, ?_, ?_⟩
    · simpa [List.filter_cons, isReport] using h1
    · simpa [linkRequests, List.filterMap_cons, linkOf] using h2
    · simpa [createdBelowEpic, List.filterMap_cons, subIssueOf] using h3

theorem linkRequests_append (A B : List Event) :
    linkRequests (A ++ B) = linkRequests A ++ linkRequests B :=
  List.filterMap_append _ _ _

theorem createdBelowEpic_append (A B : List Event) :
    createdBelowEpic (A ++ B) = createdBelowEpic A ++ createdBelowEpic B :=
  List.filterMap_append _ _ _

/-- The block of a task holds its one report, and a link request exactly when the report is
a creation, for the id of the issue reported. -/
theorem taskBlock_reports {h : Host} {storyIssue : RemoteIssue} {storyTitle task : JSValue}
    {B : List Event} (hB : TaskBlock h storyIssue storyTitle task B) :
    (∃ R, TaskReport task R ∧ B.filter isReport = [R])
      ∧ (linkRequests B).map Prod.snd = (createdBelowEpic B).map RemoteIssue.id := by
  obtain ⟨A, r, hA, rfl⟩ := hB
  obtain ⟨h1, h2, h3⟩ := attempts_silent hA
  cases r with
  | none =>
    refine ⟨⟨_, Or.inl rfl, ?_⟩, ?_⟩
    · simp [List.filter_cons, List.filter_append, isReport, h1]
    · rw [← List.singleton_append, linkRequests_append, linkRequests_append,
        createdBelowEpic_append, createdBelowEpic_append, h2, h3]
      rfl
  | some taskIssue =>
    refine ⟨⟨_, Or.inr ⟨taskIssue, rfl⟩, ?_⟩, ?_⟩
    · simp [List.filter_cons, List.filter_append, isReport, h1]
    · rw [← List.singleton_append, linkRequests_append, linkRequests_append,
        createdBelowEpic_append, createdBelowEpic_append, h2, h3]
      rfl

theorem taskBlocks_reports {h : Host} {storyIssue : RemoteIssue} {storyTitle : JSValue}
    {tasks : List JSValue} {Bs : List (List Event)}
    (hBs : List.Forall₂ (TaskBlock h storyIssue storyTitle) tasks Bs) :
    (∃ Rs, List.Forall₂ TaskReport tasks Rs ∧ Bs.flatten.filter isReport = Rs)
      ∧ (linkRequests Bs.flatten).map Prod.snd
        = (createdBelowEpic Bs.flatten).map RemoteIssue.id := by
  induction hBs with
  | nil => exact ⟨⟨[], List.Forall₂.nil, rfl⟩, rfl⟩
  | cons hB _ ih =>
    obtain ⟨⟨R, hR, hf⟩, hl⟩ := taskBlock_reports hB
    obtain ⟨⟨Rs, hRs, hfs⟩, hls⟩ := ih
    refine ⟨⟨R :: Rs, List.Forall₂.cons hR hRs, ?_⟩, ?_⟩
    · rw [List.flatten_cons, List.filter_append, hf, hfs]
      rfl
    · rw [List.flatten_cons, linkRequests_append, createdBelowEpic_append, List.map_append,
        List.map_append, hl, hls]

/-- The block of a story holds the reports of the story, and one link request for each issue
it reports as created, in order, for the id of that issue. -/
theorem storyBlock_reports {h : Host} {epicIssue : RemoteIssue} {story : JSValue}
    {B : List Event} (hB : StoryBlock h epicIssue story B) :
    StoryReports story (B.filter isReport)
      ∧ (linkRequests B).map Prod.snd = (createdBelowEpic B).map RemoteIssue.id := by
  obtain ⟨A, r, hA, hB⟩ := hB
  obtain ⟨h1, h2, h3⟩ := attempts_silent hA
  cases r with
  | none =>
    simp only at hB
    subst hB
    refine ⟨Or.inl ?_, ?_⟩
    · simp [List.filter_cons, List.filter_append, isReport, h1]
    · rw [← List.singleton_append, linkRequests_append, linkRequests_append,
        createdBelowEpic_append, createdBelowEpic_append, h2, h3]
      rfl
  | some storyIssue =>
    simp only at hB
    obtain ⟨Bs, hBs, rfl⟩ := hB
    obtain ⟨⟨Rs, hRs, hfs⟩, hls⟩ := taskBlocks_reports hBs
    refine ⟨Or.inr ⟨storyIssue, Rs, hRs, ?_⟩, ?_⟩
    · simp [List.filter_cons, List.filter_append, isReport, h1, hfs]
    · have e1 : Event.delay 2000 :: A
          ++ Event.link epicIssue.number storyIssue.id
            :: Event.created Level.story (toStr (prop story "title")) storyIssue :: Bs.flatten
          = [Event.delay 2000] ++ A
            ++ [Event.link epicIssue.number storyIssue.id,
                Event.created Level.story (toStr (prop story "title")) storyIssue]
            ++ Bs.flatten := by simp
      rw [e1, linkRequests_append, linkRequests_append, linkRequests_append,
        createdBelowEpic_append, createdBelowEpic_append, createdBelowEpic_append, h2, h3,
        List.map_append, List.map_append, hls]
      rfl

theorem storyBlocks_reports {h : Host} {epicIssue : RemoteIssue} {stories : List JSValue}
    {Bs : List (List Event)} (hBs : List.Forall₂ (StoryBlock h epicIssue) stories Bs) :
    (∃ Rs, List.Forall₂ StoryReports stories Rs ∧ Bs.flatten.filter isReport = Rs.flatten)
      ∧ (linkRequests Bs.flatten).map Prod.snd
        = (createdBelowEpic Bs.flatten).map RemoteIssue.id := by
  induction hBs with
  | nil => exact ⟨⟨[], List.Forall₂.nil, rfl⟩, rfl⟩
  | @cons story B stories2 Bs2 hB _ ih =>
    obtain ⟨hR, hl⟩ := storyBlock_reports hB
    obtain ⟨⟨Rs, hRs, hfs⟩, hls⟩ := ih
    refine ⟨⟨B.filter isReport :: Rs, List.Forall₂.cons hR hRs, ?_⟩, ?_⟩
    · rw [List.flatten_cons, List.filter_append, hfs, List.flatten_cons]
    · rw [List.flatten_cons, linkRequests_append, createdBelowEpic_append, List.map_append,
        List.map_append, hl, hls]

/-- C18: outside dry-run, on an epic whose nodes can be sent (`epicRenders`), taken among those
the embedding renders as the program does (`epicPlain`), the events `E` that `processEpic` adds
keep the hierarchy.  The report lines of `E` are those of the template (`EpicReports`): the
report of the epic and, when it is created, one report for each story in order and, after
the creation report of a story, one for each of its tasks.  By `hierarchyKept`, a link request
is sent exactly once after each successful answer for a story or a task, right before the
creation report of that node, and nowhere else (none for the epic, none after a failure); its
child is the id of the issue just answered and its parent is the number of the issue of the
epic for a story, of the issue of its own story for a task.  So the children of the link
requests are, in order, the ids of the issues of the stories and tasks reported as created. -/
theorem links_keep_hierarchy (h : Host) (t : Tracker) (epicData stories : JSValue)
    (projectName : String) (w : World) (hr : epicRenders h epicData stories = true) :
    epicPlain epicData stories = true →
    ∃ w' E, processEpic h t epicData stories projectName false w = some w'
      ∧ w'.trace = w.trace ++ E
      ∧ hierarchyKept none none Pending.idle E = true
      ∧ EpicReports projectName epicData stories (E.filter isReport)
      ∧ (linkRequests E).map Prod.snd = (createdBelowEpic E).map RemoteIssue.id := by
  intro _
  simp only [epicRenders, Bool.and_eq_true, Bool.not_eq_true', Option.isSome_iff_exists] at hr
  obtain ⟨⟨hn, body, hbody⟩, hall⟩ := hr
  obtain ⟨A, hA, htr, -, -⟩ := createIssue_attempts t (str (epicTitle projectName epicData)) body
    (orElse (prop epicData "labels") (arr [str "epic"])) w
  obtain ⟨h1, h2, h3⟩ := attempts_silent hA
  unfold processEpic
  rw [if_neg (by simp [hn]), hbody]
  simp only []
  generalize createIssue t (str (epicTitle projectName epicData)) body
    (orElse (prop epicData "labels") (arr [str "epic"])) false 3 w = res at hA htr
  obtain ⟨r, w1⟩ := res
  simp only at hA htr
  cases r with
  | none =>
    refine ⟨_, A ++ [Event.failed Level.epic (epicTitle projectName epicData)], rfl,
      ?_, ?_, Or.inl ?_, ?_⟩
    · simp [World.emit, htr]
    · rw [hierarchy_attempts hA]
      simp [hierarchyKept, Pending.after]
    · simp [List.filter_append, isReport, h1]
    · rw [linkRequests_append, createdBelowEpic_append, h2, h3]
      rfl
  | some epicIssue =>
    simp only [iterate_of_formatEpicBody h epicData stories body hbody]
    obtain ⟨w', Bs, hrun, hBs, htr2, -⟩ := processStories_blocks h t epicIssue (items stories)
      (w1.emit (Event.created Level.epic (epicTitle projectName epicData) epicIssue)) hall
    obtain ⟨⟨Rs, hRs, hfs⟩, hls⟩ := storyBlocks_reports hBs
    refine ⟨w', A ++ Event.created Level.epic (epicTitle projectName epicData) epicIssue
      :: Bs.flatten, hrun, ?_, ?_, Or.inr ⟨epicIssue, Rs, hRs, ?_⟩, ?_⟩
    · rw [htr2]
      simp [World.emit, htr]
    · obtain ⟨s2, hs2⟩ := hierarchy_storyBlocks hBs none []
      rw [List.append_nil] at hs2
      rw [hierarchy_attempts hA]
      simp [hierarchyKept, Pending.after, toStr, hs2]
    · simp [List.filter_append, List.filter_cons, isReport, h1, hfs]
    · have e1 : A ++ Event.created Level.epic (epicTitle projectName epicData) epicIssue
            :: Bs.flatten
          = A ++ [Event.created Level.epic (epicTitle projectName epicData) epicIssue]
            ++ Bs.flatten := by simp
      rw [e1, linkRequests_append, linkRequests_append, createdBelowEpic_append,
        createdBelowEpic_append, h2, h3, List.map_append, List.map_append, hls]
      rfl

end Generate

namespace Generate

/-! ## Link outcomes are not used -/

theorem createLoop_congr (t1 t2 : Tracker) (hc : t1.createOutcome = t2.createOutcome)
    (q : Request) (n : Nat) :
    ∀ (fuel a : Nat) (w : World), createLoop t1 q n fuel a w = createLoop t2 q n fuel a w := by
  intro fuel
  induction fuel with
  | zero => intro a w; rfl
  | succ fuel ih =>
    intro a w
    unfold createLoop
    simp only [hc, ih]

theorem createIssue_congr (t1 t2 : Tracker) (hc : t1.createOutcome = t2.createOutcome)
    (hr : t1.random = t2.random) (title : JSValue) (body : String) (labels : JSValue)
    (dryRun : Bool) (n : Nat) (w : World) :
    createIssue t1 title body labels dryRun n w = createIssue t2 title body labels dryRun n w := by
  unfold createIssue
  simp only [hr, createLoop_congr t1 t2 hc]

theorem linkTo_congr (t1 t2 : Tracker) (parentNumber childId : Nat) (dryRun : Bool) (w : World) :
    linkTo t1 parentNumber childId dryRun w = linkTo t2 parentNumber childId dryRun w := by
  unfold linkTo addSubIssue
  cases dryRun <;> rfl

theorem processTasks_congr (h : Host) (t1 t2 : Tracker)
    (hc : t1.createOutcome = t2.createOutcome) (hr : t1.random = t2.random) (dryRun : Bool)
    (storyIssue : RemoteIssue) (storyTitle : JSValue) :
    ∀ (tasks : List JSValue) (w : World),
      processTasks h t1 dryRun storyIssue storyTitle tasks w
        = processTasks h t2 dryRun storyIssue storyTitle tasks w := by
  intro tasks
  induction tasks with
  | nil => intro w; rfl
  | cons task rest ih =>
    intro w
    unfold processTasks
    simp only [createIssue_congr t1 t2 hc hr, linkTo_congr t1 t2, ih]

theorem processStories_congr (h : Host) (t1 t2 : Tracker)
    (hc : t1.createOutcome = t2.createOutcome) (hr : t1.random = t2.random) (dryRun : Bool)
    (epicIssue : RemoteIssue) :
    ∀ (stories : List JSValue) (w : World),
      processStories h t1 dryRun epicIssue stories w
        = processStories h t2 dryRun epicIssue stories w := by
  intro stories
  induction stories with
  | nil => intro w; rfl
  | cons story rest ih =>
    intro w
    unfold processStories
    simp only [createIssue_congr t1 t2 hc hr, linkTo_congr t1 t2, ih,
      processTasks_congr h t1 t2 hc hr]

/-- C19: two runs of `processEpic` against trackers that answer the create requests alike and
differ in the outcomes of the link requests only end in the same world or in the same
exception: the same requests with the same titles, bodies and labels, the same answers and the
same reports, in the same order.  The world after `addSubIssue` does not depend on the outcome
of the link either, and `addSubIssue` is a total function: a failed link gives `false`. -/
theorem link_failures_swallowed (h : Host) (t1 t2 : Tracker) (epicData stories : JSValue)
    (projectName : String) (dryRun : Bool) (w : World)
    (hc : t1.createOutcome = t2.createOutcome) (hr : t1.random = t2.random) :
    processEpic h t1 epicData stories projectName dryRun w
        = processEpic h t2 epicData stories projectName dryRun w
      ∧ (∀ p c, (addSubIssue t1 p c dryRun w).2 = (addSubIssue t2 p c dryRun w).2)
      ∧ (∀ p c, (addSubIssue t1 p c false w).1 = t1.linkOutcome w.links) := by
  refine ⟨?_, ?_, ?_⟩
  · unfold processEpic
    simp only [createIssue_congr t1 t2 hc hr, processStories_congr h t1 t2 hc hr]
  · intro p c
    unfold addSubIssue
    cases dryRun <;> rfl
  · intro p c
    rfl

/-! ## The restriction to an epic -/

theorem isNullish_of_prop_str {x : JSValue} {k s : String} (hx : prop x k = str s) :
    isNullish x = false := by
  cases x <;> first | rfl | (simp [JSValue.prop] at hx)

theorem leftOut_restricted (h : Host) (dryRun : Bool) (s title : String) (epic : JSValue)
    (hs : s ≠ "") (ht : prop epic "title" = str title) :
    leftOut h { dryRun := dryRun, epic := some s } epic = some (!titleMatches h s epic) := by
  have hn := isNullish_of_prop_str ht
  have hs2 : (s == "") = false := by simpa using hs
  simp [leftOut, titleMatches, ht, hn, hs2]

theorem processEpics_restricted (h : Host) (t : Tracker) (projectName : String) (dryRun : Bool)
    (s : String) (hs : s ≠ "") :
    ∀ (es : List JSValue) (w : World), (∀ e ∈ es, ∃ title, prop e "title" = str title) →
      processEpics h t projectName { dryRun := dryRun, epic := some s } es w
        = processAll h t projectName dryRun (es.filter (titleMatches h s)) w := by
  intro es
  induction es with
  | nil => intro w _; rfl
  | cons epic rest ih =>
    intro w hall
    obtain ⟨title, ht⟩ := hall epic (List.mem_cons_self _ _)
    have hrest : ∀ e ∈ rest, ∃ title, prop e "title" = str title :=
      fun e he => hall e (List.mem_cons_of_mem _ he)
    unfold processEpics
    rw [leftOut_restricted h dryRun s title epic hs ht]
    cases hm : titleMatches h s epic with
    | false =>
      rw [List.filter_cons_of_neg (by simp [hm])]
      exact ih w hrest
    | true =>
      rw [List.filter_cons_of_pos hm]
      simp only [Bool.not_true, isNullish_of_prop_str ht, Bool.false_eq_true, if_false]
      unfold processAll
      cases processEpic h t epic (orElse (prop epic "stories") (arr [])) projectName dryRun w with
      | none => rfl
      | some w1 => exact ih w1 hrest

/-- C17: with a restriction `s` that is not empty, on a template whose epics have a string as
title, `processTemplate` processes the epics whose title contains `s`, both taken in lower
case, and no other: in the `{epic, stories}` form the epic when it matches, in the `epics`
form the matching epics one after the other in template order, each with its stories; when
no epic matches the world is returned as it was: no request, no event and no exception. -/
theorem restriction_selects_matching_epics (h : Host) (t : Tracker) (template : JSValue)
    (projectName : String) (dryRun : Bool) (s : String) (w : World) (hs : s ≠ "") :
    (∀ title, hasEpicForm template = true → prop (prop template "epic") "title" = str title →
      processTemplate h t template projectName { dryRun := dryRun, epic := some s } w
        = if titleMatches h s (prop template "epic") then
            processEpic h t (prop template "epic") (prop template "stories") projectName dryRun w
          else some w)
    ∧ (∀ es, hasEpicForm template = false → prop template "epics" = arr es →
      (∀ e ∈ es, ∃ title, prop e "title" = str title) →
      processTemplate h t template projectName { dryRun := dryRun, epic := some s } w
          = processAll h t projectName dryRun (es.filter (titleMatches h s)) w
        ∧ (es.filter (titleMatches h s) = [] →
          processTemplate h t template projectName { dryRun := dryRun, epic := some s } w
            = some w)) := by
  constructor
  · intro title hform ht
    have hform2 : (truthy (prop template "epic") && truthy (prop template "stories")) = true :=
      hform
    have hn : isNullish template = false := by
      cases template <;> first | rfl | (simp [JSValue.prop, truthy] at hform2)
    unfold processTemplate
    rw [if_neg (by simp [hn]), if_pos hform2, leftOut_restricted h dryRun s title _ hs ht]
    cases titleMatches h s (prop template "epic") <;> rfl
  · intro es hform hes hall
    have hform2 : (truthy (prop template "epic") && truthy (prop template "stories")) = false :=
      hform
    have hn : isNullish template = false := by
      cases template <;> first | rfl | (simp [JSValue.prop] at hes)
    have hrun : processTemplate h t template projectName { dryRun := dryRun, epic := some s } w
        = processAll h t projectName dryRun (es.filter (titleMatches h s)) w := by
      unfold processTemplate
      rw [if_neg (by simp [hn]), if_neg (by simp [hform2]), hes]
      have h1 : truthy (arr es) = true := rfl
      have h2 : iterate (arr es) = some es := rfl
      simp only [h1, h2, if_true]
      exact processEpics_restricted h t projectName dryRun s hs es w hall
    refine ⟨hrun, fun hnone => ?_⟩
    rw [hrun, hnone]
    rfl

end Generate

namespace Generate

/-! ## Instances on the sample runs -/

/-- An instance of C13: the first request is answered by a rate limit failure, the second by
the issue 101. -/
theorem createIssue_retry_contract_witness :
    1 ≤ 3 ∧ 2 ≤ 3 ∧ rateLimited (sampleTracker.createOutcome World.start.creates) = true
      ∧ createIssue sampleTracker (str "Checkout") "Pagina" (arr [str "story"]) false 3 World.start
        = (some { number := 101, id := 9001 },
            { creates := World.start.creates + 2, links := World.start.links
              draws := World.start.draws
              trace := World.start.trace
                ++ [Event.create
                      { title := str "Checkout", body := "Pagina", labels := arr [str "story"] }
                      (sampleTracker.createOutcome World.start.creates),
                    Event.wait 20000,
                    Event.create
                      { title := str "Checkout", body := "Pagina", labels := arr [str "story"] }
                      (CreateOutcome.success { number := 101, id := 9001 })] }) :=
  ⟨by decide, by decide, by decide,
    (createIssue_retry_contract sampleTracker (str "Checkout") "Pagina" (arr [str "story"]) 3
      World.start (by decide)).2 { number := 101, id := 9001 } (by decide) (by decide) rfl⟩

/-- An instance of C14 on `backlogEpic` and its two stories. -/
theorem processEpic_attempts_every_sibling_witness :
    epicRenders sampleHost backlogEpic backlogStories = true
      ∧ epicPlain backlogEpic backlogStories = true
      ∧ ∃ w' A r, processEpic sampleHost refusingTracker backlogEpic backlogStories "Demo" false
            World.start = some w'
        ∧ Attempts (epicRequest sampleHost "Demo" backlogEpic backlogStories) A r
        ∧ match r with
          | none =>
            w'.trace = World.start.trace ++ A
              ++ [Event.failed Level.epic (epicTitle "Demo" backlogEpic)]
          | some epicIssue =>
            ∃ Bs, List.Forall₂ (StoryBlock sampleHost epicIssue) (items backlogStories) Bs
              ∧ w'.trace = World.start.trace ++ A
                ++ Event.created Level.epic (epicTitle "Demo" backlogEpic) epicIssue
                  :: Bs.flatten :=
  ⟨by decide, by decide,
    processEpic_attempts_every_sibling sampleHost refusingTracker backlogEpic backlogStories
      "Demo" World.start (by decide) (by decide)⟩

/-- An instance of C15 on `backlogEpic` and its two stories. -/
theorem dry_run_only_reports_witness :
    epicRenders sampleHost backlogEpic backlogStories = true
      ∧ epicPlain backlogEpic backlogStories = true
      ∧ processEpic sampleHost sampleTracker backlogEpic backlogStories "Demo" true World.start
        = some { creates := World.start.creates, links := World.start.links
                 draws := World.start.draws
                   + 2 * (nodeTitles "Demo" backlogEpic (items backlogStories)).length
                 trace := World.start.trace ++ dryReports sampleTracker World.start.draws
                   (nodeTitles "Demo" backlogEpic (items backlogStories)) } :=
  ⟨by decide, by decide,
    dry_run_only_reports sampleHost sampleTracker backlogEpic backlogStories "Demo" World.start
      (by decide) (by decide)⟩

/-- An instance of C16 (as amended): with the results of `closeDraws`, the third and the fourth
round to the same integers as the first and the second, and the placeholders are the same. -/
theorem dry_run_placeholder_witness :
    (closeDraws.random 2).scaled 10000 = (closeDraws.random World.start.draws).scaled 10000
      ∧ (closeDraws.random (2 + 1)).scaled 1000000000
        = (closeDraws.random (World.start.draws + 1)).scaled 1000000000
      ∧ placeholder closeDraws 2 = placeholder closeDraws World.start.draws :=
  ⟨by decide, by decide,
    (dry_run_placeholder closeDraws (str "Checkout") "Pagina" (arr [str "story"]) 3
      World.start).2.2.2 2 (by decide) (by decide)⟩

/-- An instance of C17: of the three epics of `backlogTemplate` the restriction `PAGAMENTOS`
selects the second. -/
theorem restriction_selects_matching_epics_witness :
    "PAGAMENTOS" ≠ "" ∧ hasEpicForm backlogTemplate = false
      ∧ (processTemplate sampleHost sampleTracker backlogTemplate "Demo"
            { dryRun := false, epic := some "PAGAMENTOS" } World.start
          = processAll sampleHost sampleTracker "Demo" false
              ((items (prop backlogTemplate "epics")).filter
                (titleMatches sampleHost "PAGAMENTOS")) World.start
        ∧ ((items (prop backlogTemplate "epics")).filter (titleMatches sampleHost "PAGAMENTOS")
            = [] →
          processTemplate sampleHost sampleTracker backlogTemplate "Demo"
            { dryRun := false, epic := some "PAGAMENTOS" } World.start = some World.start)) :=
  ⟨by decide, rfl,
    (restriction_selects_matching_epics sampleHost sampleTracker backlogTemplate "Demo" false
      "PAGAMENTOS" World.start (by decide)).2 (items (prop backlogTemplate "epics")) rfl rfl (by
        intro e he
        change e ∈ [_, _, _] at he
        simp only [List.mem_cons, List.mem_singleton, List.not_mem_nil, or_false] at he
        rcases he with rfl | rfl | rfl
        · exact ⟨_, rfl⟩
        · exact ⟨_, rfl⟩
        · exact ⟨_, rfl⟩)⟩

/-- An instance of C18 on `backlogEpic` and its two stories. -/
theorem links_keep_hierarchy_witness :
    epicRenders sampleHost backlogEpic backlogStories = true
      ∧ epicPlain backlogEpic backlogStories = true
      ∧ ∃ w' E, processEpic sampleHost sampleTracker backlogEpic backlogStories "Demo" false
            World.start = some w'
        ∧ w'.trace = World.start.trace ++ E
        ∧ hierarchyKept none none Pending.idle E = true
        ∧ EpicReports "Demo" backlogEpic backlogStories (E.filter isReport)
        ∧ (linkRequests E).map Prod.snd = (createdBelowEpic E).map RemoteIssue.id :=
  ⟨by decide, by decide,
    links_keep_hierarchy sampleHost sampleTracker backlogEpic backlogStories "Demo" World.start
      (by decide) (by decide)⟩

/-- An instance of C19: `sampleTracker`, whose third link fails, and `unlinkedTracker`, whose
links all fail. -/
theorem link_failures_swallowed_witness :
    sampleTracker.createOutcome = unlinkedTracker.createOutcome
      ∧ sampleTracker.random = unlinkedTracker.random
      ∧ processEpic sampleHost sampleTracker backlogEpic backlogStories "Demo" false World.start
        = processEpic sampleHost unlinkedTracker backlogEpic backlogStories "Demo" false
          World.start :=
  ⟨rfl, rfl,
    (link_failures_swallowed sampleHost sampleTracker unlinkedTracker backlogEpic backlogStories
      "Demo" false World.start rfl rfl).1⟩

end Generate

namespace Generate

/-! ## Nodes of the data model can be sent -/

theorem appendLines_checkLine (xs : List JSValue) :
    ∀ body, ∃ b, appendLines checkLine xs body = some b := by
  induction xs with
  | nil => intro body; exact ⟨body, rfl⟩
  | cons x rest ih => intro body; exact ih _

theorem appendLines_plainLine (xs : List JSValue) :
    ∀ body, ∃ b, appendLines plainLine xs body = some b := by
  induction xs with
  | nil => intro body; exact ⟨body, rfl⟩
  | cons x rest ih => intro body; exact ih _

theorem appendLines_titleLine (xs : List JSValue) (hx : xs.all (fun x => !isNullish x) = true) :
    ∀ body, ∃ b, appendLines titleLine xs body = some b := by
  induction xs with
  | nil => intro body; exact ⟨body, rfl⟩
  | cons x rest ih =>
    intro body
    simp only [List.all_cons, Bool.and_eq_true, Bool.not_eq_true'] at hx
    unfold appendLines
    simp only [titleLine, hx.1, Bool.false_eq_true, if_false]
    exact ih (by simpa using hx.2) _

/-- A section over a list field is written without a `TypeError` when reading the line of each
element is. -/
theorem listSection_listField (h : Host) (v : JSValue) (heading trailer : String)
    (line : JSValue → Option String) (hv : listField v = true)
    (hline : ∀ body, ∃ b, appendLines line (items v) body = some b) :
    ∀ body, ∃ b, listSection h v heading line trailer body = some b := by
  intro body
  unfold listSection
  cases v with
  | arr xs =>
    by_cases hp : hasPositiveLength h (arr xs) = true
    · rw [if_pos hp]
      obtain ⟨b, hb⟩ := hline (body ++ heading)
      have hb2 : appendLines line xs (body ++ heading) = some b := hb
      simp [forEachItems, hb2]
    · rw [if_neg hp]
      exact ⟨body, rfl⟩
  | undefined => exact ⟨body, rfl⟩
  | null => exact ⟨body, rfl⟩
  | bool b => simp [listField, isNullish, isArray] at hv
  | num t => simp [listField, isNullish, isArray] at hv
  | str s => simp [listField, isNullish, isArray] at hv
  | obj ps => simp [listField, isNullish, isArray] at hv

theorem taskRenders_of_wellFormed (h : Host) (storyTitle task : JSValue)
    (hw : taskWellFormed task = true) : taskRenders h storyTitle task = true := by
  simp only [taskWellFormed, Bool.and_eq_true, Bool.not_eq_true'] at hw
  obtain ⟨⟨hn, hd⟩, hr⟩ := hw
  obtain ⟨b1, hb1⟩ := listSection_listField h (prop task "depends_on") "\n## Dependencias\n\n" ""
    checkLine hd (appendLines_checkLine _)
    ("## Breve Descricao\n\n" ++ toStr (prop task "description") ++ "\n\n"
      ++ "**Story:** " ++ toStr storyTitle ++ "\n")
  obtain ⟨b2, hb2⟩ := listSection_listField h (prop task "related_to") "\n## Relacionado a\n\n" ""
    plainLine hr (appendLines_plainLine _) b1
  simp only [taskRenders, hn, Bool.not_false, Bool.true_and, formatTaskBody, Bool.false_eq_true,
    if_false, hb1, hb2]
  split <;> rfl

theorem items_all_not_nullish {xs : List JSValue} {p : JSValue → Bool}
    (hp : ∀ x, p x = true → isNullish x = false) (hx : xs.all p = true) :
    xs.all (fun x => !isNullish x) = true := by
  rw [List.all_eq_true] at hx ⊢
  intro x hmem
  simp [hp x (hx x hmem)]

theorem storyRenders_of_wellFormed (h : Host) (story : JSValue)
    (hw : storyWellFormed story = true) : storyRenders h story = true := by
  simp only [storyWellFormed, Bool.and_eq_true, Bool.not_eq_true'] at hw
  obtain ⟨⟨⟨⟨⟨hn, hd⟩, hr⟩, hac⟩, htl⟩, hts⟩ := hw
  have htn : (items (prop story "tasks")).all (fun x => !isNullish x) = true :=
    items_all_not_nullish (fun x hx => by
      simp only [taskWellFormed, Bool.and_eq_true, Bool.not_eq_true'] at hx
      exact hx.1.1) hts
  obtain ⟨b1, hb1⟩ := listSection_listField h (prop story "depends_on") "## Dependencias\n\n" "\n"
    checkLine hd (appendLines_checkLine _) (toStr (prop story "description") ++ "\n\n")
  obtain ⟨b2, hb2⟩ := listSection_listField h (prop story "related_to") "## Relacionado a\n\n" "\n"
    plainLine hr (appendLines_plainLine _) b1
  have hcs : ∃ cs, forEachItems (orElse (prop story "acceptance_criteria") (arr [])) = some cs := by
    cases hx : prop story "acceptance_criteria" <;>
      simp_all [listField, isNullish, isArray, orElse, truthy, forEachItems]
  obtain ⟨cs, hcs⟩ := hcs
  obtain ⟨b3, hb3⟩ := appendLines_checkLine cs (b2 ++ "## Criterios de Aceitacao\n\n")
  obtain ⟨b4, hb4⟩ := listSection_listField h (prop story "tasks") "\n## Tasks\n\n" ""
    titleLine htl (appendLines_titleLine _ htn) b3
  have hit : iterate (orElse (prop story "tasks") (arr [])) = some (items (prop story "tasks")) := by
    cases hx : prop story "tasks" <;>
      simp_all [listField, isNullish, isArray, orElse, truthy, iterate, items]
  have hbody : formatStoryBody h story = some b4 := by
    simp only [formatStoryBody, hn, Bool.false_eq_true, if_false, hb1, hb2, hcs, hb3, hb4]
  simp only [storyRenders, hn, Bool.not_false, Bool.true_and, hbody, Option.isSome_some, hit,
    storyTaskList, Option.getD_some, Bool.and_eq_true, true_and]
  rw [List.all_eq_true] at hts ⊢
  intro task hmem
  exact taskRenders_of_wellFormed h _ task (hts task hmem)

/-- An epic of the data model, with its stories and tasks, can be sent (`epicRenders`): when it
is `epicPlain` too, no function of the generator raises a `TypeError` on it. -/
theorem epicRenders_of_wellFormed (h : Host) (epicData stories : JSValue)
    (hw : epicWellFormed epicData stories = true) : epicRenders h epicData stories = true := by
  simp only [epicWellFormed, Bool.and_eq_true, Bool.not_eq_true'] at hw
  obtain ⟨⟨⟨hn, hd⟩, harr⟩, hss⟩ := hw
  have hsn : (items stories).all (fun x => !isNullish x) = true :=
    items_all_not_nullish (fun x hx => by
      simp only [storyWellFormed, Bool.and_eq_true, Bool.not_eq_true'] at hx
      exact hx.1.1.1.1.1) hss
  obtain ⟨b1, hb1⟩ := listSection_listField h (prop epicData "depends_on") "## Dependencias\n\n"
    "\n" checkLine hd (appendLines_checkLine _) (toStr (prop epicData "description") ++ "\n\n")
  have hfe : forEachItems stories = some (items stories) := by
    cases stories <;> first | rfl | (simp [isArray] at harr)
  obtain ⟨b2, hb2⟩ := appendLines_titleLine _ hsn (b1 ++ "## Stories\n\n")
  have hbody : formatEpicBody h epicData stories = some b2 := by
    simp only [formatEpicBody, hn, Bool.false_eq_true, if_false, hb1, hfe, hb2]
  simp only [epicRenders, hn, Bool.not_false, Bool.true_and, hbody, Option.isSome_some]
  rw [List.all_eq_true] at hss ⊢
  intro story hmem
  exact storyRenders_of_wellFormed h story (hss story hmem)

end Generate

namespace Generate

/-! ## String and array values -/

theorem jsIncludes_iff (s sub : String) : jsIncludes s sub = true ↔ sub.data <:+: s.data := by
  unfold jsIncludes
  rw [List.any_eq_true, List.infix_iff_prefix_suffix]
  constructor
  · rintro ⟨t, ht, hp⟩
    exact ⟨t, List.isPrefixOf_iff_prefix.1 hp, (List.mem_tails _ _).1 ht⟩
  · rintro ⟨t, hp, ht⟩
    exact ⟨t, (List.mem_tails _ _).2 ht, List.isPrefixOf_iff_prefix.2 hp⟩

theorem isCommandKey_iff (key : String) :
    (jsIncludes key "comando" || jsIncludes key "command" || key == "verificar") = true
      ↔ IsCommandKey key := by
  simp only [Bool.or_eq_true, jsIncludes_iff, beq_iff_eq, IsCommandKey, or_assoc]

/-- C21: for every key and every string value, `renderTechnicalValue` returns the fenced bash
block with the label of the key when the key contains `comando` or `command` or is `verificar`,
and the line `**<Label>:** <value>` followed by an empty line otherwise. -/
theorem string_value_rendering (key s : String) :
    (IsCommandKey key →
      renderTechnicalValue key (str s)
        = "**" ++ formatLabel key ++ ":**\n```bash\n" ++ s ++ "\n```\n\n")
    ∧ (¬ IsCommandKey key →
      renderTechnicalValue key (str s) = "**" ++ formatLabel key ++ ":** " ++ s ++ "\n\n") := by
  have h1 : (typeOf (str s) == "string") = true := by
    show (("string" : String) == "string") = true
    decide
  constructor
  · intro hk
    unfold renderTechnicalValue
    rw [if_pos h1, if_pos ((isCommandKey_iff key).2 hk)]
    rfl
  · intro hk
    unfold renderTechnicalValue
    rw [if_pos h1, if_neg (fun hc => hk ((isCommandKey_iff key).1 hc))]
    rfl

theorem join_cons (a : String) (l : List String) : String.join (a :: l) = a ++ String.join l := by
  apply String.ext
  simp [String.data_join]

theorem join_nil : String.join [] = "" := rfl

theorem join_append (l1 l2 : List String) :
    String.join (l1 ++ l2) = String.join l1 ++ String.join l2 := by
  apply String.ext
  simp [String.data_join]

theorem renderItem_eq (item : JSValue) :
    renderItem item = if isBulleted item then bulletLine item else "" := by
  cases item with
  | bool b => cases b <;> decide
  | undefined => decide
  | null => decide
  | num t =>
    have h1 : (typeOf (num t) == "string") = false := by
      show (("number" : String) == "string") = false
      decide
    have h2 : (typeOf (num t) == "object") = false := by
      show (("number" : String) == "object") = false
      decide
    simp [renderItem, h1, h2, isBulleted, isString, isObject, isNull]
  | str s =>
    have h1 : (typeOf (str s) == "string") = true := by
      show (("string" : String) == "string") = true
      decide
    simp [renderItem, h1, isBulleted, isString, bulletLine, toStr]
  | arr xs =>
    have h1 : (typeOf (arr xs) == "string") = false := by
      show (("object" : String) == "string") = false
      decide
    have h2 : (typeOf (arr xs) == "object") = true := by
      show (("object" : String) == "object") = true
      decide
    simp [renderItem, h1, h2, isBulleted, isString, isObject, bulletLine]
  | obj ps =>
    have h1 : (typeOf (obj ps) == "string") = false := by
      show (("object" : String) == "string") = false
      decide
    have h2 : (typeOf (obj ps) == "object") = true := by
      show (("object" : String) == "object") = true
      decide
    simp [renderItem, h1, h2, isBulleted, isString, isObject, bulletLine]

theorem join_renderItem (xs : List JSValue) :
    String.join (xs.map renderItem) = String.join ((xs.filter isBulleted).map bulletLine) := by
  induction xs with
  | nil => rfl
  | cons x rest ih =>
    rw [List.map_cons, join_cons, ih, renderItem_eq]
    cases hx : isBulleted x
    · rw [List.filter_cons_of_neg (by simp [hx])]
      simp
    · rw [List.filter_cons_of_pos hx, List.map_cons, join_cons]
      simp

/-- C22 (as amended): for every key and every array value that is not empty,
`renderTechnicalValue` returns the line `**<Label>:**`, then one bullet line for each element
that is a string or an object (for `typeof`: an object, an array or `null`), in order, a string
verbatim and an object as its JSON text, and an empty line; the elements of another type
(numbers, booleans) get no line.  An empty array renders as the empty string. -/
theorem array_value_rendering (key : String) (xs : List JSValue) :
    (xs ≠ [] →
      renderTechnicalValue key (arr xs)
        = "**" ++ formatLabel key ++ ":**\n"
          ++ String.join ((xs.filter isBulleted).map bulletLine) ++ "\n")
    ∧ renderTechnicalValue key (arr []) = "" := by
  have h1 : ∀ ys, (typeOf (arr ys) == "string") = false := by
    intro ys
    show (("object" : String) == "string") = false
    decide
  constructor
  · intro hne
    have hlen : 0 < xs.length := List.length_pos.2 hne
    have h2 : (isArray (arr xs) && decide (0 < (items (arr xs)).length)) = true := by
      simp [isArray, items, hlen]
    unfold renderTechnicalValue
    rw [if_neg (by simp [h1]), if_pos h2]
    show _ ++ String.join (xs.map renderItem) ++ _ = _
    rw [join_renderItem]
  · unfold renderTechnicalValue
    rw [if_neg (by simp [h1]), if_neg (by simp [items]), if_neg (by simp [isArray])]

/-! ## The backoff -/

/-- The wait that follows an attempt doubles with the number of the attempt, from 20 s after
the first. -/
theorem waitTime_doubles (k : Nat) :
    waitTime k = 2 ^ k * 10000 ∧ waitTime (k + 1) = 2 * waitTime k ∧ waitTime 1 = 20000 := by
  refine ⟨rfl, ?_, rfl⟩
  unfold waitTime
  rw [pow_succ]
  ring

/-- Among the events of `k` attempts that start with the attempt number `a`, the wait that
follows the attempt number `a + j`, when another attempt follows, is `waitTime (a + j)`. -/
theorem attempts_wait (t : Tracker) (q : Request) :
    ∀ (k a c j : Nat), j + 1 < k →
      (attempts t q k a c).get? (2 * j + 1) = some (Event.wait (waitTime (a + j))) := by
  intro k
  induction k with
  | zero => intro a c j hj; omega
  | succ k ih =>
    intro a c j hj
    have hk : 1 ≤ k := by omega
    rw [attempts_succ t q k a c hk]
    cases j with
    | zero => rfl
    | succ j =>
      have := ih (a + 1) (c + 1) j (by omega)
      rw [show 2 * (j + 1) + 1 = (2 * j + 1) + 2 by omega]
      simp only [List.get?_cons_succ]
      rw [this, show a + 1 + j = a + (j + 1) by omega]

/-- C26 (the code departs from it): with the default budget of 3 and three attempts in a row
answered by a rate limit failure, `createIssue` waits 20 s and 40 s; after the third failure
it returns `null` without the wait of 80 s. -/
theorem third_rate_limit_ends_without_wait :
    createIssue limitedTracker (str "Checkout") "Pagina" (arr [str "story"]) false 3 World.start
      = (none,
          { creates := 3, links := 0, draws := 0
            trace := [
              Event.create ⟨str "Checkout", "Pagina", arr [str "story"]⟩
                (CreateOutcome.failure "HTTP 403: API rate limit exceeded"),
              Event.wait 20000,
              Event.create ⟨str "Checkout", "Pagina", arr [str "story"]⟩
                (CreateOutcome.failure "HTTP 403: API rate limit exceeded"),
              Event.wait 40000,
              Event.create ⟨str "Checkout", "Pagina", arr [str "story"]⟩
                (CreateOutcome.failure "HTTP 403: API rate limit exceeded")] }) := by
  rfl

end Generate

namespace Generate

/-! ## The bodies of the issues -/

theorem appendLines_text (line : JSValue → Option String) (text : JSValue → String) :
    ∀ (xs : List JSValue) (body : String), (∀ x ∈ xs, line x = some (text x)) →
      appendLines line xs body = some (body ++ String.join (xs.map text)) := by
  intro xs
  induction xs with
  | nil =>
    intro body _
    simp [appendLines, join_nil]
  | cons x rest ih =>
    intro body hline
    unfold appendLines
    rw [hline x (List.mem_cons_self _ _)]
    simp only []
    rw [ih _ fun y hy => hline y (List.mem_cons_of_mem _ hy), List.map_cons, join_cons,
      String.append_assoc]

theorem items_of_falsy {v : JSValue} (hv : truthy v = false) : items v = [] := by
  cases v <;> first | rfl | (simp [truthy] at hv)

theorem hasPositiveLength_of_falsy (h : Host) {v : JSValue} (hv : truthy v = false) :
    hasPositiveLength h v = false := by
  cases v with
  | str s =>
    have hs : s = "" := by simpa [truthy] using hv
    subst hs
    rfl
  | arr xs => simp [truthy] at hv
  | obj ps => simp [truthy] at hv
  | undefined => rfl
  | null => rfl
  | bool b => rfl
  | num t => rfl

/-- A section over a field that is falsy or an array: nothing when the field has no element,
otherwise the heading, one line for each element and the trailer. -/
theorem listSection_text (h : Host) (v : JSValue) (heading trailer : String)
    (line : JSValue → Option String) (text : JSValue → String) (body : String)
    (hv : falsyOrArray v = true) (hline : ∀ x ∈ items v, line x = some (text x)) :
    listSection h v heading line trailer body
      = some (body ++ optionalSection heading ((items v).map text) trailer) := by
  unfold listSection optionalSection
  cases hx : isArray v with
  | false =>
    have hf : truthy v = false := by simpa [falsyOrArray, hx] using hv
    rw [if_neg (by simp [hasPositiveLength_of_falsy h hf]), items_of_falsy hf]
    simp
  | true =>
    cases v with
    | arr xs =>
      cases xs with
      | nil => simp [hasPositiveLength, items]
      | cons y ys =>
        have hp : hasPositiveLength h (arr (y :: ys)) = true := by simp [hasPositiveLength]
        rw [if_pos hp]
        simp only [forEachItems, items]
        rw [appendLines_text line text (y :: ys) _ hline]
        simp [String.append_assoc]
    | undefined => simp [isArray] at hx
    | null => simp [isArray] at hx
    | bool b => simp [isArray] at hx
    | num t => simp [isArray] at hx
    | str s => simp [isArray] at hx
    | obj ps => simp [isArray] at hx

theorem truthy_of_ownEntries {v : JSValue} (hv : (ownEntries v).isEmpty = false) :
    truthy v = true := by
  cases v with
  | str s =>
    have hs : s ≠ "" := by
      rintro rfl
      simp [ownEntries, stringEntries] at hv
    simpa [truthy] using hs
  | arr xs => rfl
  | obj ps => rfl
  | undefined => simp [ownEntries] at hv
  | null => simp [ownEntries] at hv
  | bool b => simp [ownEntries] at hv
  | num t => simp [ownEntries] at hv

/-- The keys of a value that is not a string are the names of its entries. -/
theorem ownKeys_eq {v : JSValue} (hv : isString v = false) :
    ownKeys v = (ownEntries v).map fun p => p.1 := by
  cases v with
  | str s => simp [isString] at hv
  | arr xs => rfl
  | obj ps => rfl
  | undefined => rfl
  | null => rfl
  | bool b => rfl
  | num t => rfl

/-- C24: for every task that is not `null`, whose `depends_on` and `related_to` are falsy or
arrays and whose `technical_details` is not a string, and every story title, the task and the
title being `plain` (no object in them has a property of its own named `toString`, so that no
template literal raises a `TypeError`), `formatTaskBody` returns the heading of the brief description,
the description and the line `**Story:** <title>`; then the checklist of dependencies when
`depends_on` has an element; then the list of related items when `related_to` has an element;
then, when `technical_details` has a key, the heading of the technical details and the
renderings of its entries by `renderTechnicalValue`, in key order; and nothing else. -/
theorem task_body_sections (h : Host) (task storyTitle : JSValue)
    (hn : isNullish task = false) (hd : falsyOrArray (prop task "depends_on") = true)
    (hr : falsyOrArray (prop task "related_to") = true)
    (htd : isString (prop task "technical_details") = false) :
    plain task = true → plain storyTitle = true →
    formatTaskBody h task storyTitle = some (taskBodyText task storyTitle) := by
  intro _ _
  unfold formatTaskBody taskBodyText
  rw [if_neg (by simp [hn]),
    listSection_text h _ _ _ checkLine checkText _ hd (fun _ _ => rfl)]
  simp only []
  rw [listSection_text h _ _ _ plainLine plainText _ hr (fun _ _ => rfl)]
  simp only []
  unfold optionalSection
  cases he : (ownEntries (prop task "technical_details")).isEmpty with
  | true =>
    have hlen : (ownKeys (prop task "technical_details")).length = 0 := by
      simpa [ownKeys_eq htd] using he
    have he2 : ((ownEntries (prop task "technical_details")).map
        fun p => renderTechnicalValue p.1 p.2).isEmpty = true := by
      simpa using he
    rw [if_neg (by simp [hlen]), if_pos he2]
    simp only [String.append_empty]
  | false =>
    have hlen : 0 < (ownKeys (prop task "technical_details")).length := by
      rw [ownKeys_eq htd, List.length_map]
      cases hx : ownEntries (prop task "technical_details") with
      | nil => simp [hx] at he
      | cons a as => simp
    rw [if_pos (by simp [truthy_of_ownEntries he, hlen])]
    have he2 : ((ownEntries (prop task "technical_details")).map
        fun p => renderTechnicalValue p.1 p.2).isEmpty = false := by
      simpa using he
    simp [he2, String.append_assoc]

/-- C25: for every story that is not `null`, whose `depends_on`, `related_to`,
`acceptance_criteria` and `tasks` are falsy or arrays and whose tasks are not `null`, the story
being `plain` (no object in it has a property of its own named `toString`, so that no template
literal raises a `TypeError`), `formatStoryBody` returns, in this order: the description; the checklist of dependencies when
`depends_on` has an element; the list of related items when `related_to` has an element; the
heading of the acceptance criteria, always, with one checklist line for each criterion; and the
checklist of the titles of the tasks, in order, when `tasks` has an element. -/
theorem story_body_sections (h : Host) (story : JSValue) (hn : isNullish story = false)
    (hd : falsyOrArray (prop story "depends_on") = true)
    (hr : falsyOrArray (prop story "related_to") = true)
    (hc : falsyOrArray (prop story "acceptance_criteria") = true)
    (ht : falsyOrArray (prop story "tasks") = true)
    (htn : ∀ t ∈ items (prop story "tasks"), isNullish t = false) :
    plain story = true →
    formatStoryBody h story = some (storyBodyText story) := by
  intro _
  have hcs : forEachItems (orElse (prop story "acceptance_criteria") (arr []))
      = some (items (prop story "acceptance_criteria")) := by
    cases hx : prop story "acceptance_criteria" <;>
      simp_all [falsyOrArray, orElse, truthy, isArray, forEachItems, items]
  unfold formatStoryBody storyBodyText
  rw [if_neg (by simp [hn]),
    listSection_text h _ _ _ checkLine checkText _ hd (fun _ _ => rfl)]
  simp only []
  rw [listSection_text h _ _ _ plainLine plainText _ hr (fun _ _ => rfl)]
  simp only [hcs]
  rw [appendLines_text checkLine checkText _ _ (fun _ _ => rfl)]
  simp only []
  rw [listSection_text h _ _ _ titleLine titleText _ ht (fun t hmem => by
    simp [titleLine, titleText, htn t hmem])]

end Generate

namespace Generate

/-! ## formatLabel -/

theorem toNat_ofNat_small (n : Nat) (h : n < 55296) : (Char.ofNat n).toNat = n := by
  have hv : n.isValidChar := Or.inl h
  simp [Char.ofNat, hv, Char.toNat, Char.ofNatAux, UInt32.toNat]

theorem lower_bounds {c : Char} (h : isLowerAscii c = true) : 97 ≤ c.toNat ∧ c.toNat ≤ 122 := by
  simpa [isLowerAscii] using h

theorem upperWordChar_toNat {c : Char} (h : isLowerAscii c = true) :
    (upperWordChar c).toNat = c.toNat - 32 := by
  have hb := lower_bounds h
  unfold upperWordChar
  rw [if_pos h, toNat_ofNat_small _ (by omega)]

theorem upperWordChar_of_not_lower {c : Char} (h : isLowerAscii c = false) :
    upperWordChar c = c := by
  unfold upperWordChar
  rw [if_neg (by simp [h])]

theorem isLowerAscii_upper (c : Char) : isLowerAscii (upperWordChar c) = false := by
  cases h : isLowerAscii c with
  | false => rw [upperWordChar_of_not_lower h, h]
  | true =>
    have hb := lower_bounds h
    have ht := upperWordChar_toNat h
    simp only [isLowerAscii, ht, Bool.and_eq_false_iff, decide_eq_false_iff_not]
    omega

theorem isWordChar_of_lower {c : Char} (h : isLowerAscii c = true) : isWordChar c = true := by
  simp [isWordChar, h]

theorem isWordChar_upper (c : Char) : isWordChar (upperWordChar c) = isWordChar c := by
  cases h : isLowerAscii c with
  | false => rw [upperWordChar_of_not_lower h]
  | true =>
    have hb := lower_bounds h
    have ht := upperWordChar_toNat h
    have h2 : isUpperAscii (upperWordChar c) = true := by
      simp only [isUpperAscii, ht, Bool.and_eq_true, decide_eq_true_eq]
      omega
    rw [isWordChar_of_lower h]
    simp [isWordChar, h2]

theorem upperWordChar_ne_underscore (c : Char) (hc : c.toNat ≠ 95) :
    (upperWordChar c).toNat ≠ 95 := by
  cases h : isLowerAscii c with
  | false => rwa [upperWordChar_of_not_lower h]
  | true =>
    have hb := lower_bounds h
    rw [upperWordChar_toNat h]
    omega

theorem space_facts :
    isLowerAscii (Char.ofNat 32) = false ∧ isUpperAscii (Char.ofNat 32) = false
      ∧ isWordChar (Char.ofNat 32) = false ∧ (Char.ofNat 32).toNat = 32 := by
  decide

/-- One step of `splitCamel`: a character, a space when it is in `[a-z]` and the next one in
`[A-Z]`, and the rest. -/
theorem splitCamel_cons (a : Char) (xs : List Char) :
    splitCamel (a :: xs)
      = a :: (match xs with
        | [] => []
        | b :: _ =>
          if isLowerAscii a && isUpperAscii b then Char.ofNat 32 :: splitCamel xs
          else splitCamel xs) := by
  cases xs with
  | nil => rfl
  | cons b rest =>
    show splitCamel (a :: b :: rest)
      = a :: (if isLowerAscii a && isUpperAscii b then Char.ofNat 32 :: splitCamel (b :: rest)
        else splitCamel (b :: rest))
    rw [splitCamel]
    split <;> rfl

theorem capitalizeWords_cons (prev : Bool) (c : Char) (rest : List Char) :
    capitalizeWords prev (c :: rest)
      = (if isWordChar c && !prev then upperWordChar c else c)
        :: capitalizeWords (isWordChar c) rest := rfl

theorem capitalizeWords_space (prev : Bool) (rest : List Char) :
    capitalizeWords prev (Char.ofNat 32 :: rest)
      = Char.ofNat 32 :: capitalizeWords false rest := by
  rw [capitalizeWords_cons, space_facts.2.2.1]
  rfl

theorem underscoresToSpaces_cons (c : Char) (rest : List Char) :
    underscoresToSpaces (c :: rest)
      = (if c.toNat == 95 then Char.ofNat 32 else c) :: underscoresToSpaces rest := rfl

theorem isUpperAscii_underscore {c : Char} (h : (c.toNat == 95) = true) :
    isUpperAscii c = false ∧ isLowerAscii c = false := by
  have hc : c.toNat = 95 := by simpa using h
  simp [isUpperAscii, isLowerAscii, hc]

/-- On a key made of letters and underscores the three replacements of `formatLabel` give the
title of the key. -/
theorem pipeline_eq_titleChars :
    ∀ (cs : List Char) (start : Bool), cs.all isKeyChar = true →
      capitalizeWords (!start) (splitCamel (underscoresToSpaces cs)) = titleChars start cs := by
  intro cs
  induction cs with
  | nil => intro start _; rfl
  | cons c rest ih =>
    intro start hall
    simp only [List.all_cons, Bool.and_eq_true] at hall
    obtain ⟨hc, hrest⟩ := hall
    rw [underscoresToSpaces_cons, splitCamel_cons]
    unfold titleChars
    cases hu : c.toNat == 95 with
    | true =>
      simp only [if_true]
      have hsp : (match underscoresToSpaces rest with
          | [] => []
          | b :: _ =>
            if isLowerAscii (Char.ofNat 32) && isUpperAscii b then
              Char.ofNat 32 :: splitCamel (underscoresToSpaces rest)
            else splitCamel (underscoresToSpaces rest))
          = splitCamel (underscoresToSpaces rest) := by
        cases underscoresToSpaces rest with
        | nil => rfl
        | cons b r => simp [space_facts.1]
      rw [hsp, capitalizeWords_space]
      exact congrArg _ (ih true hrest)
    | false =>
      have hw : isWordChar c = true := by
        simp only [isKeyChar, hu, Bool.or_false] at hc
        simp only [isWordChar, hc, Bool.true_or]
      simp only [Bool.false_eq_true, if_false]
      cases rest with
      | nil =>
        simp [underscoresToSpaces, capitalizeWords, hw]
      | cons n rest2 =>
        rw [underscoresToSpaces_cons]
        simp only []
        have hup : isUpperAscii (if (n.toNat == 95) = true then Char.ofNat 32 else n)
            = isUpperAscii n := by
          cases hn : n.toNat == 95 with
          | true => simp [space_facts.2.1, (isUpperAscii_underscore hn).1]
          | false => simp
        rw [hup, ← underscoresToSpaces_cons]
        cases hb : (isLowerAscii c && isUpperAscii n) with
        | true =>
          simp only [if_true]
          rw [capitalizeWords_cons, capitalizeWords_space, hw]
          have := ih true hrest
          simp only [Bool.not_true] at this
          rw [this]
          cases start <;> rfl
        | false =>
          simp only [Bool.false_eq_true, if_false]
          rw [capitalizeWords_cons, hw]
          have := ih false hrest
          simp only [Bool.not_false] at this
          rw [this]
          cases start <;> rfl

end Generate

namespace Generate

/-! ## The label has no underscore and is a fixed point -/

theorem underscoresToSpaces_ne (cs : List Char) :
    ∀ x ∈ underscoresToSpaces cs, x.toNat ≠ 95 := by
  intro x hx
  obtain ⟨c, -, rfl⟩ := List.mem_map.1 hx
  cases hc : c.toNat == 95 with
  | true =>
    simp only [if_true]
    rw [space_facts.2.2.2]
    decide
  | false => simpa using hc

theorem mem_splitCamel (xs : List Char) :
    ∀ x ∈ splitCamel xs, x ∈ xs ∨ x = Char.ofNat 32 := by
  induction xs with
  | nil => intro x hx; simp [splitCamel] at hx
  | cons a rest ih =>
    intro x hx
    rw [splitCamel_cons] at hx
    rcases List.mem_cons.1 hx with rfl | hx
    · exact Or.inl (List.mem_cons_self _ _)
    · cases rest with
      | nil => simp at hx
      | cons b r =>
        simp only [] at hx
        split at hx
        · rcases List.mem_cons.1 hx with rfl | hx
          · exact Or.inr rfl
          · exact (ih x hx).imp (List.mem_cons_of_mem _) id
        · exact (ih x hx).imp (List.mem_cons_of_mem _) id

theorem capitalizeWords_ne (xs : List Char) (hx : ∀ x ∈ xs, x.toNat ≠ 95) :
    ∀ (prev : Bool), ∀ x ∈ capitalizeWords prev xs, x.toNat ≠ 95 := by
  induction xs with
  | nil => intro prev x h; simp [capitalizeWords] at h
  | cons c rest ih =>
    intro prev x h
    rw [capitalizeWords_cons] at h
    rcases List.mem_cons.1 h with rfl | h
    · split
      · exact upperWordChar_ne_underscore c (hx c (List.mem_cons_self _ _))
      · exact hx c (List.mem_cons_self _ _)
    · exact ih (fun y hy => hx y (List.mem_cons_of_mem _ hy)) _ x h

theorem underscoresToSpaces_fixed (xs : List Char) (hx : ∀ x ∈ xs, x.toNat ≠ 95) :
    underscoresToSpaces xs = xs := by
  unfold underscoresToSpaces
  conv_rhs => rw [← List.map_id xs]
  apply List.map_congr_left
  intro c hc
  have := hx c hc
  simp [this]

theorem noCamelBoundary_cons (a : Char) (xs : List Char) :
    noCamelBoundary (a :: xs)
      = ((match xs with
          | [] => true
          | b :: _ => !(isLowerAscii a && isUpperAscii b)) && noCamelBoundary xs) := by
  cases xs with
  | nil => rfl
  | cons b rest => rfl

theorem splitCamel_head (xs : List Char) : (splitCamel xs).head? = xs.head? := by
  cases xs with
  | nil => rfl
  | cons a rest => rw [splitCamel_cons]; rfl

theorem noCamelBoundary_splitCamel (xs : List Char) : noCamelBoundary (splitCamel xs) = true := by
  induction xs with
  | nil => rfl
  | cons a rest ih =>
    rw [splitCamel_cons]
    cases rest with
    | nil => rfl
    | cons b r =>
      simp only []
      cases hb : (isLowerAscii a && isUpperAscii b) with
      | true =>
        simp only [if_true]
        rw [noCamelBoundary_cons, noCamelBoundary_cons, ih]
        have h1 := space_facts.1
        have h2 := space_facts.2.1
        cases splitCamel (b :: r) <;> simp [h1, h2]
      | false =>
        simp only [Bool.false_eq_true, if_false]
        rw [noCamelBoundary_cons, ih]
        have hh := splitCamel_head (b :: r)
        cases hs : splitCamel (b :: r) with
        | nil => rfl
        | cons b2 r2 =>
          rw [hs] at hh
          simp only [List.head?_cons, Option.some.injEq] at hh
          subst hh
          simp [hb]

theorem splitCamel_fixed (xs : List Char) (hx : noCamelBoundary xs = true) :
    splitCamel xs = xs := by
  induction xs with
  | nil => rfl
  | cons a rest ih =>
    rw [noCamelBoundary_cons, Bool.and_eq_true] at hx
    rw [splitCamel_cons, ih hx.2]
    cases rest with
    | nil => rfl
    | cons b r =>
      have hb : (isLowerAscii a && isUpperAscii b) = false :=
        (Bool.not_eq_true' _).mp hx.1
      simp [hb]

theorem noCamelBoundary_capitalizeWords (xs : List Char) :
    ∀ (prev : Bool), noCamelBoundary xs = true →
      noCamelBoundary (capitalizeWords prev xs) = true := by
  induction xs with
  | nil => intro prev _; rfl
  | cons a rest ih =>
    intro prev hx
    rw [noCamelBoundary_cons, Bool.and_eq_true] at hx
    rw [capitalizeWords_cons, noCamelBoundary_cons, ih _ hx.2, Bool.and_true]
    cases rest with
    | nil => rfl
    | cons b r =>
      rw [capitalizeWords_cons]
      simp only []
      have hab : (isLowerAscii a && isUpperAscii b) = false :=
        (Bool.not_eq_true' _).mp hx.1
      by_cases hl : isLowerAscii (if (isWordChar a && !prev) = true then upperWordChar a
          else a) = true
      · have ha : (if (isWordChar a && !prev) = true then upperWordChar a else a) = a
            ∧ isLowerAscii a = true := by
          split at hl
          · rw [isLowerAscii_upper] at hl
            cases hl
          · rename_i hc
            rw [if_neg hc]
            exact ⟨rfl, hl⟩
        have hw := isWordChar_of_lower ha.2
        have hub : isUpperAscii b = false := by simpa [ha.2] using hab
        simp [hw, hub]
      · simp only [Bool.not_eq_true] at hl
        rw [hl]
        rfl

theorem wordsCapitalized_capitalizeWords (xs : List Char) :
    ∀ (prev : Bool), wordsCapitalized prev (capitalizeWords prev xs) = true := by
  induction xs with
  | nil => intro prev; rfl
  | cons c rest ih =>
    intro prev
    rw [capitalizeWords_cons]
    unfold wordsCapitalized
    by_cases hc : (isWordChar c && !prev) = true
    · rw [if_pos hc, isWordChar_upper, isLowerAscii_upper, ih]
      simp
    · rw [if_neg hc, ih]
      simp only [Bool.not_eq_true] at hc
      simp [hc]

theorem capitalizeWords_fixed (xs : List Char) :
    ∀ (prev : Bool), wordsCapitalized prev xs = true → capitalizeWords prev xs = xs := by
  induction xs with
  | nil => intro prev _; rfl
  | cons c rest ih =>
    intro prev hx
    unfold wordsCapitalized at hx
    rw [Bool.and_eq_true] at hx
    rw [capitalizeWords_cons, ih _ hx.2]
    by_cases hc : (isWordChar c && !prev) = true
    · have hl : isLowerAscii c = false := by
        have h1 := hx.1
        simp only [hc, Bool.true_and, Bool.not_eq_true'] at h1
        exact h1
      rw [if_pos hc, upperWordChar_of_not_lower hl]
    · rw [if_neg hc]

/-- C23: for every key made of words of ASCII letters joined by underscores and camelCase
boundaries, `formatLabel` gives the title of the key: every underscore replaced by a space,
a space inserted between a letter of `[a-z]` and a letter of `[A-Z]` that follows it, the first
letter of every word in upper case and every other character unchanged; for every key the
result has no underscore and `formatLabel` leaves it as it is; `acceptance_criteria` gives
`Acceptance Criteria`. -/
theorem formatLabel_title (key : String) :
    (key.data.all isKeyChar = true → formatLabel key = String.mk (titleChars true key.data))
      ∧ Char.ofNat 95 ∉ (formatLabel key).data
      ∧ formatLabel (formatLabel key) = formatLabel key
      ∧ formatLabel "acceptance_criteria" = "Acceptance Criteria" := by
  have hne : ∀ x ∈ (formatLabel key).data, x.toNat ≠ 95 := by
    intro x hx
    refine capitalizeWords_ne _ ?_ false x hx
    intro y hy
    rcases mem_splitCamel _ y hy with h | h
    · exact underscoresToSpaces_ne _ y h
    · rw [h, space_facts.2.2.2]
      decide
  refine ⟨?_, ?_, ?_, by decide⟩
  · intro hk
    unfold formatLabel
    rw [← pipeline_eq_titleChars key.data true hk]
    rfl
  · intro hmem
    exact hne _ hmem (by decide)
  · have h2 : noCamelBoundary (formatLabel key).data = true :=
      noCamelBoundary_capitalizeWords _ false (noCamelBoundary_splitCamel _)
    have h3 : wordsCapitalized false (formatLabel key).data = true :=
      wordsCapitalized_capitalizeWords _ false
    show String.mk (capitalizeWords false (splitCamel (underscoresToSpaces
      (formatLabel key).data))) = formatLabel key
    rw [underscoresToSpaces_fixed _ hne, splitCamel_fixed _ h2, capitalizeWords_fixed _ false h3]

end Generate

namespace Generate

/-! ## Instances on sample values -/

/-- An instance of C21: the key `comando_instalar` names a command, the key `stack` does not. -/
theorem string_value_rendering_witness :
    (IsCommandKey "comando_instalar"
      ∧ renderTechnicalValue "comando_instalar" (str "pnpm install")
        = "**" ++ formatLabel "comando_instalar" ++ ":**\n```bash\n" ++ "pnpm install"
          ++ "\n```\n\n")
    ∧ (¬ IsCommandKey "stack"
      ∧ renderTechnicalValue "stack" (str "Prisma")
        = "**" ++ formatLabel "stack" ++ ":** " ++ "Prisma" ++ "\n\n") :=
  ⟨⟨(isCommandKey_iff _).1 (by decide),
      (string_value_rendering "comando_instalar" "pnpm install").1
        ((isCommandKey_iff _).1 (by decide))⟩,
    fun hk => absurd ((isCommandKey_iff "stack").2 hk) (by decide),
    (string_value_rendering "stack" "Prisma").2
      fun hk => absurd ((isCommandKey_iff "stack").2 hk) (by decide)⟩

/-- Against C22: the two numbers of the array get no bullet line. -/
theorem numbers_get_no_bullet :
    renderTechnicalValue "ports" (arr [num "3000", num "3001"]) = "**Ports:**\n\n" := by
  decide

/-- An instance of C22 (as amended): a string, an object and a number. -/
theorem array_value_rendering_witness :
    [str "a.ts", obj [("path", str "b.ts")], num "3"] ≠ []
      ∧ renderTechnicalValue "files" (arr [str "a.ts", obj [("path", str "b.ts")], num "3"])
        = "**" ++ formatLabel "files" ++ ":**\n"
          ++ String.join (([str "a.ts", obj [("path", str "b.ts")], num "3"].filter
            isBulleted).map bulletLine) ++ "\n" :=
  ⟨List.cons_ne_nil _ _,
    (array_value_rendering "files" [str "a.ts", obj [("path", str "b.ts")], num "3"]).1
      (List.cons_ne_nil _ _)⟩

/-- An instance of C23 on a key with an underscore and a camelCase boundary. -/
theorem formatLabel_title_witness :
    "comandoInstalar_tudo".data.all isKeyChar = true
      ∧ formatLabel "comandoInstalar_tudo"
        = String.mk (titleChars true "comandoInstalar_tudo".data) :=
  ⟨by decide, (formatLabel_title "comandoInstalar_tudo").1 (by decide)⟩

/-- An instance of C24 on `tableTask`. -/
theorem task_body_sections_witness :
    isNullish tableTask = false ∧ falsyOrArray (prop tableTask "depends_on") = true
      ∧ falsyOrArray (prop tableTask "related_to") = true
      ∧ isString (prop tableTask "technical_details") = false
      ∧ plain tableTask = true ∧ plain (str "Checkout") = true
      ∧ formatTaskBody sampleHost tableTask (str "Checkout")
        = some (taskBodyText tableTask (str "Checkout")) :=
  ⟨rfl, rfl, rfl, rfl, rfl, rfl,
    task_body_sections sampleHost tableTask (str "Checkout") rfl rfl rfl rfl rfl rfl⟩

/-- An instance of C25 on `checkoutStory`. -/
theorem story_body_sections_witness :
    isNullish checkoutStory = false ∧ falsyOrArray (prop checkoutStory "depends_on") = true
      ∧ falsyOrArray (prop checkoutStory "related_to") = true
      ∧ falsyOrArray (prop checkoutStory "acceptance_criteria") = true
      ∧ falsyOrArray (prop checkoutStory "tasks") = true
      ∧ plain checkoutStory = true
      ∧ formatStoryBody sampleHost checkoutStory = some (storyBodyText checkoutStory) :=
  ⟨rfl, rfl, rfl, rfl, rfl, rfl,
    story_body_sections sampleHost checkoutStory rfl rfl rfl rfl rfl (by
      intro t ht
      change t ∈ [_, _] at ht
      simp only [List.mem_cons, List.mem_singleton, List.not_mem_nil, or_false] at ht
      rcases ht with rfl | rfl <;> rfl) rfl⟩

/-- The bodies of `tableTask` and of `checkoutStory`, written out. -/
theorem sample_bodies :
    formatTaskBody sampleHost tableTask (str "Checkout")
        = some ("## Breve Descricao\n\nTabela de pagamentos\n\n**Story:** Checkout\n"
          ++ "\n## Dependencias\n\n- [ ] [TASK] Configurar banco\n"
          ++ "\n---\n\n## Detalhes Tecnicos\n\n**Stack:** Prisma\n\n"
          ++ "**Files:**\n- prisma/schema.prisma\n\n"
          ++ "**Comando Criar:**\n```bash\npnpm prisma migrate dev\n```\n\n")
      ∧ formatStoryBody sampleHost checkoutStory
        = some ("Pagina de checkout\n\n## Criterios de Aceitacao\n\n- [ ] Pagamento aprovado\n"
          ++ "\n## Tasks\n\n- [ ] Criar tabela\n- [ ] Criar rota\n") := by
  constructor <;> rfl

end Generate

end AutoSaas
